import Mathlib

/-!
# BVCC_QUIC: event queue, handle registry and connection lifecycle

A shallow embedding of the core of `libbvcquic` (the adaptation layer between a
callback-driven QUIC engine and a poll-based host API), followed by theorems
about it.

Modelling conventions

* Pointers and native handles (`HQUIC`, `dgsend_t*`) are natural numbers, `0`
  being `NULL`.
* `size_t` / `uint64_t` arithmetic is arithmetic modulo `2^64`, `uint32_t`
  arithmetic is modulo `2^32`; the reductions are written out where the C code
  computes.
* A byte is a `UInt8`; a record or payload is a `List UInt8` whose length is the
  C `len`.
* The result of an engine call is an input of the function that makes the call;
  the calls themselves are recorded in a trace.
* The outcomes of `malloc`/`calloc` are read from a plan held in the heap
  model, so that allocation failure is part of the state a theorem quantifies
  over.
* The POSIX branch (`#ifndef _WIN32`) of the sources is the one embedded.
-/

namespace BVCQ

/-! ## evqueue.c -/

/-- Modulus of `size_t` and `uint64_t`. -/
abbrev SIZE_MOD : Nat := 2 ^ 64

/-- Modulus of `uint32_t`. -/
abbrev U32_MOD : Nat := 2 ^ 32

/-- The `evq_s` of `bvcq_internal.h`.  `head` lists the payload of the nodes
from `q->head` to `q->tail` (a node is its `len` bytes of `data`);
`wake_pending` is the number of unread bytes sitting in the wake pipe. -/
structure evq_s where
  pipe_r : Int
  pipe_w : Int
  wake_pending : Nat
  head : List (List UInt8)
deriving DecidableEq, Repr

/-- Embedding of `memcpy(dst + off, src, len)` on a buffer held as a list of bytes. -/
def memcpy (dst : List UInt8) (off : Nat) (src : List UInt8) : List UInt8 :=
  dst.take off ++ src ++ dst.drop (off + src.length)

/-- Embedding of `evq_wakeup`: one byte is written to the pipe when it exists. -/
def evq_wakeup (q : evq_s) : evq_s :=
  if q.pipe_w ≠ -1 then { q with wake_pending := q.wake_pending + 1 } else q

/-- Embedding of `evq_push`: `alloc_ok` is the outcome of the node's `malloc`.  On failure
the function returns before linking and before the wakeup. -/
def evq_push (q : evq_s) (rec : List UInt8) (alloc_ok : Bool) : evq_s :=
  if !alloc_ok then q
  else evq_wakeup { q with head := q.head ++ [rec] }

/-- The `while (q->head)` loop of `evq_copy_out`: the state is the remaining
nodes, `used` and the caller buffer. -/
def evq_copy_out_loop (cap : Nat) :
    List (List UInt8) → Nat → List UInt8 → List (List UInt8) × Nat × List UInt8
  | [], used, out => ([], used, out)
  | n :: rest, used, out =>
    if n.length > (cap + SIZE_MOD - used) % SIZE_MOD then (n :: rest, used, out)
    else evq_copy_out_loop cap rest ((used + n.length) % SIZE_MOD) (memcpy out used n)

/-- Embedding of `evq_copy_out`: returns the queue, the caller buffer and `used`. -/
def evq_copy_out (q : evq_s) (out : List UInt8) (cap : Nat) : evq_s × List UInt8 × Nat :=
  let r := evq_copy_out_loop cap q.head 0 out
  let q1 : evq_s := { q with head := r.1 }
  let q2 : evq_s := if 0 < r.2.1 ∧ q.pipe_r ≠ -1 then { q1 with wake_pending := 0 } else q1
  (q2, r.2.2, r.2.1)

/-- One call on the queue: a push (with the outcome of its allocation) or a
copy-out into a caller buffer `out` of capacity `cap`. -/
inductive EvqOp where
  | push (rec : List UInt8) (alloc_ok : Bool)
  | copy_out (out : List UInt8) (cap : Nat)
deriving DecidableEq, Repr

/-- The calls are well formed: the allocation of every push succeeds, a
capacity is a `size_t` and the caller buffer has at least `cap` bytes. -/
def EvqOp.ok : EvqOp → Prop
  | .push _ alloc_ok => alloc_ok = true
  | .copy_out out cap => cap < SIZE_MOD ∧ cap ≤ out.length

instance EvqOp.decidable_ok (op : EvqOp) : Decidable op.ok := by
  cases op <;> unfold EvqOp.ok <;> infer_instance

/-- The records handed to `evq_push`, in call order. -/
def EvqOp.pushed : List EvqOp → List (List UInt8)
  | [] => []
  | .push rec _ :: ops => rec :: EvqOp.pushed ops
  | .copy_out _ _ :: ops => EvqOp.pushed ops

/-- Runs the calls in order; the second component collects, in order, the
`used` bytes each copy-out returned in its buffer. -/
def evq_run : evq_s → List EvqOp → evq_s × List UInt8
  | q, [] => (q, [])
  | q, .push rec alloc_ok :: ops => evq_run (evq_push q rec alloc_ok) ops
  | q, .copy_out out cap :: ops =>
    let r := evq_copy_out q out cap
    let s := evq_run r.1 ops
    (s.1, r.2.1.take r.2.2 ++ s.2)

/-- Total number of bytes of a list of records. -/
def total_len (rs : List (List UInt8)) : Nat := (rs.map List.length).sum

/-- A sample run on the queue: two pushes, a copy-out into 2 bytes, a push, a
copy-out into 8 bytes. -/
def sample_evq_ops : List EvqOp :=
  [.push [1, 2] true, .push [3] true, .copy_out [0, 0] 2, .push [4, 5, 6] true,
    .copy_out (List.replicate 8 0) 8]

/-- An empty queue with its wake pipe. -/
def evq_empty : evq_s := { pipe_r := 3, pipe_w := 4, wake_pending := 0, head := [] }

/-! ## bvc_quic.h, bvcq_internal.h: data model -/

/-- A native engine handle; `0` is `NULL`. -/
abbrev HQUIC := Nat

/-- The status enumeration of `bvc_quic.h`. -/
inductive bvc_quic_status where
  | BVCQ_OK
  | BVCQ_ERR_SYS
  | BVCQ_ERR_NOMEM
  | BVCQ_ERR_BADARG
  | BVCQ_ERR_NOTFOUND
  | BVCQ_ERR_UNSUPPORTED
  | BVCQ_ERR_TLS
  | BVCQ_ERR_AGAIN
deriving DecidableEq, Repr

open bvc_quic_status

/-- What the code observes of a `QUIC_STATUS` (declared by `msquic.h`, which is
not among the sources): the two success codes the callbacks return, and
whether `QUIC_FAILED` holds of an engine result. -/
inductive QUIC_STATUS where
  | QUIC_STATUS_SUCCESS
  | QUIC_STATUS_PENDING
  | failure (code : Nat)
deriving DecidableEq, Repr

/-- Embedding of `QUIC_FAILED(s)`. -/
def QUIC_FAILED : QUIC_STATUS → Bool
  | .failure _ => true
  | _ => false

/-- Embedding of `QUIC_SUCCEEDED(s)`. -/
def QUIC_SUCCEEDED (s : QUIC_STATUS) : Bool := !QUIC_FAILED s

/-- Embedding of `st_from_quic` of util.c. -/
def st_from_quic (s : QUIC_STATUS) : bvc_quic_status :=
  if QUIC_SUCCEEDED s then BVCQ_OK else BVCQ_ERR_SYS

/-- Embedding of `bvcq_addr`: `char ip[64]` and `uint16_t port`. -/
structure bvcq_addr where
  ip : List UInt8
  port : Nat
deriving DecidableEq, Repr

/-- Embedding of `dgsend_t`: `addr` is the address of the heap block (the value of the
`dgsend_t*` that the engine carries as client context); `next` is the
position in the owning list. -/
structure dgsend_t where
  addr : Nat
  data : List UInt8
  len : Nat
deriving DecidableEq, Repr

/-- Embedding of `conn_t`. -/
structure conn_t where
  id : Nat
  h : HQUIC
  read_enabled : Bool
  cert_deferred : Bool
  closing : Bool
  closed_emitted : Bool
  dgram_head : List dgsend_t
deriving DecidableEq, Repr

/-- Embedding of `strm_t`. -/
structure strm_t where
  id : Nat
  h : HQUIC
  conn_id : Nat
  read_enabled : Bool
  bidi : Bool
deriving DecidableEq, Repr

/-- Embedding of `lst_t`. -/
structure lst_t where
  id : Nat
  h : HQUIC
  bind : bvcq_addr
  cfg_id : Nat
deriving DecidableEq, Repr

/-- Embedding of `cfg_t` (the verification modes are kept as their enumeration values). -/
structure cfg_t where
  id : Nat
  h : HQUIC
  alpns : List (List UInt8)
  allow_client : Bool
  allow_server : Bool
  verify_client : Nat
  verify_server : Nat
deriving DecidableEq, Repr

/-- Embedding of `tbl_s`: each array with its length is a list. -/
structure tbl_s where
  next_id : Nat
  conns : List conn_t
  strms : List strm_t
  lsts : List lst_t
  cfgs : List cfg_t
deriving DecidableEq, Repr

/-- The calls made through `G->api` that act on the engine, as a trace.
Read-only `GetParam` queries are not recorded; where their result is used it
is an input of the caller. -/
inductive api_call where
  | ConnectionShutdown (h : HQUIC) (code : Nat)
  | ConnectionClose (h : HQUIC)
  | ConnectionOpen
  | ConnectionStart (h cfg : HQUIC) (port : Nat)
  | ConnectionSetConfiguration (h cfg : HQUIC)
  | ConnectionCertificateValidationComplete (h : HQUIC) (accept : Bool) (alert : Nat)
  | SetParamDatagramReceiveEnabled (h : HQUIC)
  | SetCallbackHandler (h : HQUIC) (context : HQUIC)
  | DatagramSend (h : HQUIC) (buf : List UInt8) (ctx : Nat)
  | StreamOpen (h : HQUIC) (bidi : Bool)
  | StreamStart (h : HQUIC)
  | StreamClose (h : HQUIC)
  | StreamShutdown (h : HQUIC)
  | StreamSend (h : HQUIC) (buf : List UInt8) (fin : Bool)
  | StreamReceiveComplete (h : HQUIC) (len : Nat)
  | StreamReceiveSetEnabled (h : HQUIC) (enabled : Bool)
  | ListenerOpen
  | ListenerStart (h : HQUIC) (alpns : List (List UInt8)) (port : Nat)
  | ListenerStop (h : HQUIC)
  | ListenerClose (h : HQUIC)
deriving DecidableEq, Repr

/-- The C heap as far as the library observes it.  `plan` holds the outcomes
of the coming `malloc`/`calloc` calls, first call first (`true` is success; an
exhausted plan means success).  `next_addr` is the address the next successful
`calloc` of a `dgsend_t` returns.  `freed` is the trace of `free(ctx)` calls on
`dgsend_t` blocks, each with the release of its `data`. -/
structure heap_s where
  plan : List Bool
  next_addr : Nat
  freed : List Nat
deriving DecidableEq, Repr

/-- One `malloc`/`calloc`: its outcome and the heap afterwards. -/
def heap_s.malloc (m : heap_s) : Bool × heap_s :=
  match m.plan with
  | [] => (true, m)
  | b :: rest => (b, { m with plan := rest })

/-- Embedding of `lib_s`, the target of the global `G`: `api` is the trace of the calls made
through the engine's function table, `heap` the process heap. -/
structure lib_s where
  api : List api_call
  reg : HQUIC
  tbl : tbl_s
  q : evq_s
  heap : heap_s
deriving DecidableEq, Repr

/-- Which of the `msquic.h` names tested by `#ifdef` are defined as macros in
the build. -/
structure build_cfg where
  QUIC_DATAGRAM_SEND_ACKNOWLEDGED : Bool
  QUIC_DATAGRAM_SEND_CANCELED : Bool
  QUIC_DATAGRAM_SEND_LOST : Bool
  QUIC_PARAM_CONN_DATAGRAM_RECEIVE_ENABLED : Bool
  QUIC_PARAM_LISTENER_LOCAL_ADDRESS : Bool
  QUIC_PARAM_CONN_HANDSHAKE_INFO : Bool
  QUIC_HANDSHAKE_INFO : Bool
  QUIC_HANDSHAKE_INFO_TLS_PROTOCOL_VERSION : Bool
  QUIC_HANDSHAKE_INFO_KEX_GROUP : Bool
  QUIC_HANDSHAKE_INFO_TLS_VERSION : Bool
  QUIC_HANDSHAKE_INFO_CRYPTO_CURVE_ID : Bool
  QUIC_PARAM_CONN_STATISTICS_V2 : Bool
  QUIC_PARAM_CONN_STATISTICS : Bool
deriving DecidableEq, Repr

/-! ## tables.c -/

/-- Embedding of `tbl_init`. -/
def tbl_init : tbl_s :=
  { next_id := 1, conns := [], strms := [], lsts := [], cfgs := [] }

/-- Embedding of `tbl_newid`: `t->next_id++` on a `uint64_t`. -/
def tbl_newid (t : tbl_s) : Nat × tbl_s :=
  (t.next_id, { t with next_id := (t.next_id + 1) % SIZE_MOD })

/-- Embedding of `tbl_add_conn`: the new record and the table. -/
def tbl_add_conn (t : tbl_s) (h : HQUIC) : conn_t × tbl_s :=
  let r := tbl_newid t
  let c : conn_t :=
    { id := r.1, h := h, read_enabled := true, cert_deferred := false,
      closing := false, closed_emitted := false, dgram_head := [] }
  (c, { r.2 with conns := r.2.conns ++ [c] })

/-- Embedding of `tbl_add_strm`. -/
def tbl_add_strm (t : tbl_s) (h : HQUIC) (conn_id : Nat) (bidi : Bool) : strm_t × tbl_s :=
  let r := tbl_newid t
  let s : strm_t := { id := r.1, h := h, conn_id := conn_id, read_enabled := true, bidi := bidi }
  (s, { r.2 with strms := r.2.strms ++ [s] })

/-- Embedding of `tbl_add_lst` (`b` is `none` for a null pointer: the zeroed address stays). -/
def tbl_add_lst (t : tbl_s) (h : HQUIC) (b : Option bvcq_addr) (cfg_id : Nat) : lst_t × tbl_s :=
  let r := tbl_newid t
  let l : lst_t :=
    { id := r.1, h := h, bind := b.getD { ip := List.replicate 64 0, port := 0 },
      cfg_id := cfg_id }
  (l, { r.2 with lsts := r.2.lsts ++ [l] })

/-- Embedding of `tbl_add_cfg`. -/
def tbl_add_cfg (t : tbl_s) (h : HQUIC) : cfg_t × tbl_s :=
  let r := tbl_newid t
  let c : cfg_t :=
    { id := r.1, h := h, alpns := [], allow_client := false, allow_server := false,
      verify_client := 0, verify_server := 0 }
  (c, { r.2 with cfgs := r.2.cfgs ++ [c] })

/-- Embedding of `tbl_find_conn`: the first record with that id. -/
def tbl_find_conn (t : tbl_s) (id : Nat) : Option conn_t :=
  t.conns.find? (fun c => c.id == id)

/-- Embedding of `tbl_find_strm`. -/
def tbl_find_strm (t : tbl_s) (id : Nat) : Option strm_t :=
  t.strms.find? (fun s => s.id == id)

/-- Embedding of `tbl_find_lst`. -/
def tbl_find_lst (t : tbl_s) (id : Nat) : Option lst_t :=
  t.lsts.find? (fun l => l.id == id)

/-- Embedding of `tbl_find_cfg`. -/
def tbl_find_cfg (t : tbl_s) (id : Nat) : Option cfg_t :=
  t.cfgs.find? (fun c => c.id == id)

/-- Embedding of `conn_id_from_h`: the id of the first record holding that handle, else 0. -/
def conn_id_from_h (t : tbl_s) (h : HQUIC) : Nat :=
  match t.conns.find? (fun c => c.h == h) with
  | some c => c.id
  | none => 0

/-- Embedding of `strm_id_from_h`. -/
def strm_id_from_h (t : tbl_s) (h : HQUIC) : Nat :=
  match t.strms.find? (fun s => s.h == h) with
  | some s => s.id
  | none => 0

/-- A write through the pointer returned by `tbl_find_conn(t, id)`: the first
record with that id is replaced by `c` (whose id is that id). -/
def conns_store : List conn_t → Nat → conn_t → List conn_t
  | [], _, _ => []
  | x :: xs, id, c => if x.id == id then c :: xs else x :: conns_store xs id c

/-- A write through the pointer returned by `tbl_find_strm(t, id)`. -/
def strms_store : List strm_t → Nat → strm_t → List strm_t
  | [], _, _ => []
  | x :: xs, id, s => if x.id == id then s :: xs else x :: strms_store xs id s

/-- Stores a connection record back into the library state. -/
def lib_s.store_conn (L : lib_s) (c : conn_t) : lib_s :=
  { L with tbl := { L.tbl with conns := conns_store L.tbl.conns c.id c } }

/-- Stores a stream record back into the library state. -/
def lib_s.store_strm (L : lib_s) (s : strm_t) : lib_s :=
  { L with tbl := { L.tbl with strms := strms_store L.tbl.strms s.id s } }

/-- Appends one call to the engine trace. -/
def lib_s.call (L : lib_s) (c : api_call) : lib_s :=
  { L with api := L.api ++ [c] }

/-! ## the send-context list helpers of bvcq_internal.h -/

/-- Embedding of `link_dgsend_ctx`: the context becomes the head of the list. -/
def link_dgsend_ctx (c : conn_t) (n : dgsend_t) : conn_t :=
  { c with dgram_head := n :: c.dgram_head }

/-- The list walk of `unlink_dgsend_ctx`: the first node at address `target`
is taken out. -/
def dgsend_unlink : List dgsend_t → Nat → List dgsend_t
  | [], _ => []
  | x :: xs, target => if x.addr == target then xs else x :: dgsend_unlink xs target

/-- Embedding of `unlink_dgsend_ctx`. -/
def unlink_dgsend_ctx (c : conn_t) (target : Nat) : conn_t :=
  if target = 0 then c else { c with dgram_head := dgsend_unlink c.dgram_head target }

/-- Embedding of `free_all_dgsends`: the released addresses in order, and the record. -/
def free_all_dgsends (c : conn_t) : List Nat × conn_t :=
  (c.dgram_head.map dgsend_t.addr, { c with dgram_head := [] })

/-! ## events.c: emitters -/

/-- The `n` low bytes of `v`, least significant first: the image in memory of an
`n`-byte unsigned integer on a little-endian host. -/
def le_bytes : Nat → Nat → List UInt8
  | 0, _ => []
  | n + 1, v => UInt8.ofNat (v % 256) :: le_bytes n (v / 256)

abbrev BVCQ_EV_CONN_ACCEPTED : Nat := 1
abbrev BVCQ_EV_CONN_CONNECTED : Nat := 2
abbrev BVCQ_EV_CONN_CLOSED : Nat := 3
abbrev BVCQ_EV_CONN_CERT_REQUIRED : Nat := 4
abbrev BVCQ_EV_STREAM_OPENED : Nat := 10
abbrev BVCQ_EV_STREAM_WRITABLE : Nat := 11
abbrev BVCQ_EV_STREAM_READ : Nat := 12
abbrev BVCQ_EV_DGRAM_READ : Nat := 20

/-- Size of `bvcq_ev_hdr`: three `uint32_t`. -/
abbrev SIZEOF_HDR : Nat := 12

/-- Size of `bvcq_addr`: 64 chars and one `uint16_t`, no padding. -/
abbrev SIZEOF_ADDR : Nat := 66

/-- The bytes of a `bvcq_ev_hdr` with `flags = 0`. -/
def ev_hdr (type size : Nat) : List UInt8 :=
  le_bytes 4 type ++ le_bytes 4 0 ++ le_bytes 4 size

/-- The bytes of a `bvcq_addr`. -/
def addr_bytes (a : bvcq_addr) : List UInt8 :=
  (a.ip ++ List.replicate 64 0).take 64 ++ le_bytes 2 a.port

/-- The part shared by all emitters: `rec = malloc(sz)`, return if it failed;
the record is built in the `sz` bytes; `evq_push(&G->q, rec, sz)`, whose node
allocation is the next one; `free(rec)`.  `bytes` is what the emitter writes
from `rec[0]` on. -/
def emit_bytes (L : lib_s) (sz : Nat) (bytes : List UInt8) : lib_s :=
  let m := L.heap.malloc
  if !m.1 then { L with heap := m.2 }
  else
    let n := m.2.malloc
    { L with heap := n.2, q := evq_push L.q (bytes.take sz) n.1 }

/-- Embedding of `emit_conn_accepted`. -/
def emit_conn_accepted (L : lib_s) (cid lstid : Nat) (peer : bvcq_addr) : lib_s :=
  let sz := (SIZEOF_HDR + 8 + 8 + SIZEOF_ADDR) % U32_MOD
  emit_bytes L sz
    (ev_hdr BVCQ_EV_CONN_ACCEPTED sz ++ le_bytes 8 cid ++ le_bytes 8 lstid ++ addr_bytes peer)

/-- Embedding of `emit_conn_connected`. -/
def emit_conn_connected (L : lib_s) (cid : Nat) (peer : bvcq_addr) : lib_s :=
  let sz := (SIZEOF_HDR + 8 + SIZEOF_ADDR) % U32_MOD
  emit_bytes L sz (ev_hdr BVCQ_EV_CONN_CONNECTED sz ++ le_bytes 8 cid ++ addr_bytes peer)

/-- Embedding of `emit_conn_closed`. -/
def emit_conn_closed (L : lib_s) (cid app tcode : Nat) : lib_s :=
  let sz := (SIZEOF_HDR + 8 + 4 + 4) % U32_MOD
  emit_bytes L sz
    (ev_hdr BVCQ_EV_CONN_CLOSED sz ++ le_bytes 8 cid ++ le_bytes 4 app ++ le_bytes 4 tcode)

/-- Embedding of `emit_conn_cert_required`. -/
def emit_conn_cert_required (L : lib_s) (cid : Nat) : lib_s :=
  let sz := (SIZEOF_HDR + 8) % U32_MOD
  emit_bytes L sz (ev_hdr BVCQ_EV_CONN_CERT_REQUIRED sz ++ le_bytes 8 cid)

/-- Embedding of `emit_stream_opened`. -/
def emit_stream_opened (L : lib_s) (cid sid : Nat) (bidi : Bool) : lib_s :=
  let sz := (SIZEOF_HDR + 8 + 8 + 1) % U32_MOD
  emit_bytes L sz
    (ev_hdr BVCQ_EV_STREAM_OPENED sz ++ le_bytes 8 cid ++ le_bytes 8 sid
      ++ [if bidi then 1 else 0])

/-- Embedding of `emit_stream_writable`. -/
def emit_stream_writable (L : lib_s) (sid : Nat) : lib_s :=
  let sz := (SIZEOF_HDR + 8) % U32_MOD
  emit_bytes L sz (ev_hdr BVCQ_EV_STREAM_WRITABLE sz ++ le_bytes 8 sid)

/-- Embedding of `emit_stream_read`: `len` is the `uint32_t` argument, `sz` is computed in
`uint32_t`. -/
def emit_stream_read (L : lib_s) (sid : Nat) (fin : Bool) (buf : List UInt8) (len : Nat) :
    lib_s :=
  let sz := (SIZEOF_HDR + 8 + 4 + 4 + len) % U32_MOD
  emit_bytes L sz
    (ev_hdr BVCQ_EV_STREAM_READ sz ++ le_bytes 8 sid ++ le_bytes 4 (if fin then 1 else 0)
      ++ le_bytes 4 len ++ buf.take len)

/-- Embedding of `emit_dgram_read`. -/
def emit_dgram_read (L : lib_s) (cid : Nat) (buf : List UInt8) (len : Nat) : lib_s :=
  let sz := (SIZEOF_HDR + 8 + 4 + len) % U32_MOD
  emit_bytes L sz
    (ev_hdr BVCQ_EV_DGRAM_READ sz ++ le_bytes 8 cid ++ le_bytes 4 len ++ buf.take len)

/-- Embedding of `bvc_quic_drain_events`: `out_buf` and `out_used` are `none` for a null
pointer; the result is the library, the buffer, `*out_used` and the status. -/
def bvc_quic_drain_events (G : Option lib_s) (out_buf : Option (List UInt8)) (buf_bytes : Nat)
    (out_used : Option Nat) :
    Option lib_s × Option (List UInt8) × Option Nat × bvc_quic_status :=
  match G, out_buf, out_used with
  | some L, some buf, some _ =>
    if buf_bytes < SIZEOF_HDR then (G, out_buf, out_used, BVCQ_ERR_BADARG)
    else
      let r := evq_copy_out L.q buf buf_bytes
      if r.2.2 = 0 then (some { L with q := r.1 }, some r.2.1, some 0, BVCQ_ERR_AGAIN)
      else (some { L with q := r.1 }, some r.2.1, some r.2.2, BVCQ_OK)
  | _, _, _ => (G, out_buf, out_used, BVCQ_ERR_BADARG)

/-! ## connection.c -/

/-- The states a `DATAGRAM_SEND_STATE_CHANGED` event can carry, as far as the
handler tells them apart. -/
inductive QUIC_DATAGRAM_SEND_STATE where
  | SENT
  | ACKNOWLEDGED
  | CANCELED
  | LOST
  | OTHER
deriving DecidableEq, Repr

/-- The connection events the handler distinguishes.  `CONNECTED` carries the
peer address the handler obtains from its `GetParam` query (all zero when the
query fails); `PEER_STREAM_STARTED` the new stream handle and whether
`QUIC_STREAM_OPEN_FLAG_UNIDIRECTIONAL` is set; `DATAGRAM_RECEIVED` the buffer
(`none` for a null `Buffer` pointer); `DATAGRAM_SEND_STATE_CHANGED` the client
context pointer and the state. -/
inductive QUIC_CONNECTION_EVENT where
  | CONNECTED (peer : bvcq_addr)
  | PEER_CERTIFICATE_RECEIVED
  | PEER_STREAM_STARTED (Stream : HQUIC) (unidirectional : Bool)
  | DATAGRAM_RECEIVED (Buffer : Option (List UInt8))
  | DATAGRAM_SEND_STATE_CHANGED (ClientContext : Nat) (State : QUIC_DATAGRAM_SEND_STATE)
  | SHUTDOWN_COMPLETE
  | OTHER
deriving DecidableEq, Repr

open QUIC_STATUS

/-- The statements `free(ctx->data); free(ctx)` on a send context. -/
def lib_s.free_ctx (L : lib_s) (ctx : Nat) : lib_s :=
  { L with heap := { L.heap with freed := L.heap.freed ++ [ctx] } }

/-- The `terminal` flag computed by the `DATAGRAM_SEND_STATE_CHANGED` branch. -/
def dgram_terminal (B : build_cfg) (State : QUIC_DATAGRAM_SEND_STATE) : Bool :=
  (B.QUIC_DATAGRAM_SEND_ACKNOWLEDGED && State == .ACKNOWLEDGED)
  || (B.QUIC_DATAGRAM_SEND_CANCELED && State == .CANCELED)
  || (B.QUIC_DATAGRAM_SEND_LOST && State == .LOST)

/-- Embedding of `on_connection`, the engine's connection callback (`G` is dereferenced
without a test, so the library state is there). -/
def on_connection (B : build_cfg) (L : lib_s) (Connection : HQUIC)
    (Event : QUIC_CONNECTION_EVENT) : lib_s × QUIC_STATUS :=
  let cid := conn_id_from_h L.tbl Connection
  let c := tbl_find_conn L.tbl cid
  let c_closing : Bool := match c with
    | some cc => cc.closing
    | none => false
  match Event with
  | .CONNECTED peer =>
    if c_closing then (L, QUIC_STATUS_SUCCESS)
    else (emit_conn_connected L cid peer, QUIC_STATUS_SUCCESS)
  | .PEER_CERTIFICATE_RECEIVED =>
    if c_closing then (L, QUIC_STATUS_SUCCESS)
    else
      let L1 := match c with
        | some cc => L.store_conn { cc with cert_deferred := true }
        | none => L
      (emit_conn_cert_required L1 cid, QUIC_STATUS_PENDING)
  | .PEER_STREAM_STARTED s unidirectional =>
    if c_closing then (L, QUIC_STATUS_SUCCESS)
    else
      let bidi : Bool := !unidirectional
      let L1 := L.call (.SetCallbackHandler s Connection)
      let r := tbl_add_strm L1.tbl s cid bidi
      let L2 := { L1 with tbl := r.2 }
      (emit_stream_opened L2 cid r.1.id bidi, QUIC_STATUS_SUCCESS)
  | .DATAGRAM_RECEIVED Buffer =>
    if c_closing then (L, QUIC_STATUS_SUCCESS)
    else
      match Buffer with
      | some b => (emit_dgram_read L cid b (b.length % U32_MOD), QUIC_STATUS_SUCCESS)
      | none => (L, QUIC_STATUS_SUCCESS)
  | .DATAGRAM_SEND_STATE_CHANGED ctx State =>
    match c with
    | some cc =>
      if cc.closing then
        if ctx ≠ 0 then ((L.store_conn (unlink_dgsend_ctx cc ctx)).free_ctx ctx, QUIC_STATUS_SUCCESS)
        else (L, QUIC_STATUS_SUCCESS)
      else if ctx ≠ 0 ∧ dgram_terminal B State = true then
        ((L.store_conn (unlink_dgsend_ctx cc ctx)).free_ctx ctx, QUIC_STATUS_SUCCESS)
      else (L, QUIC_STATUS_SUCCESS)
    | none =>
      if ctx ≠ 0 ∧ dgram_terminal B State = true then (L.free_ctx ctx, QUIC_STATUS_SUCCESS)
      else (L, QUIC_STATUS_SUCCESS)
  | .SHUTDOWN_COMPLETE =>
    match c with
    | some cc =>
      if cc.closed_emitted then (L, QUIC_STATUS_SUCCESS)
      else
        let L1 := emit_conn_closed L cid 0 0
        (L1.store_conn { cc with closed_emitted := true }, QUIC_STATUS_SUCCESS)
    | none => (emit_conn_closed L cid 0 0, QUIC_STATUS_SUCCESS)
  | .OTHER => (L, QUIC_STATUS_SUCCESS)

/-- Embedding of `enable_datagrams_on_conn`. -/
def enable_datagrams_on_conn (B : build_cfg) (L : lib_s) (conn : HQUIC) : lib_s :=
  if B.QUIC_PARAM_CONN_DATAGRAM_RECEIVE_ENABLED then
    if conn = 0 then L else L.call (.SetParamDatagramReceiveEnabled conn)
  else L

/-- Embedding of `bvc_quic_connect`.  `out_conn` and `ip` say whether the pointers are
non-null; `st_open`, `conn` are the result of `ConnectionOpen`, `st_start` that
of `ConnectionStart`.  The result carries the value written to `*out_conn`. -/
def bvc_quic_connect (B : build_cfg) (G : Option lib_s) (cfg_id : Nat) (ip out_conn : Bool)
    (port : Nat) (st_open : QUIC_STATUS) (conn : HQUIC) (st_start : QUIC_STATUS) :
    Option lib_s × Option Nat × bvc_quic_status :=
  match G with
  | none => (G, none, BVCQ_ERR_BADARG)
  | some L =>
    if !out_conn || !ip then (G, none, BVCQ_ERR_BADARG)
    else
      match tbl_find_cfg L.tbl cfg_id with
      | none => (G, none, BVCQ_ERR_NOTFOUND)
      | some c =>
        if !c.allow_client then (G, none, BVCQ_ERR_TLS)
        else
          let L1 := L.call .ConnectionOpen
          if QUIC_FAILED st_open then (some L1, none, BVCQ_ERR_SYS)
          else
            let L2 := enable_datagrams_on_conn B L1 conn
            let L3 := L2.call (.ConnectionStart conn c.h port)
            if QUIC_FAILED st_start then
              (some (L3.call (.ConnectionClose conn)), none, BVCQ_ERR_SYS)
            else
              let r := tbl_add_conn L3.tbl conn
              (some { L3 with tbl := r.2 }, some r.1.id, BVCQ_OK)

/-- Embedding of `bvc_quic_conn_close`. -/
def bvc_quic_conn_close (G : Option lib_s) (c_id : Nat) (app_error_code : Nat) : Option lib_s :=
  match G with
  | none => G
  | some L =>
    match tbl_find_conn L.tbl c_id with
    | none => G
    | some cc =>
      if cc.h = 0 then G
      else if cc.closing then G
      else
        let cc1 := { cc with closing := true }
        let L1 := emit_conn_closed (L.store_conn cc1) cc1.id app_error_code 0
        let cc2 := { cc1 with closed_emitted := true }
        let r := free_all_dgsends cc2
        let L2 := { L1 with heap := { L1.heap with freed := L1.heap.freed ++ r.1 } }
        let L3 := L2.call (.ConnectionShutdown r.2.h app_error_code)
        let L4 := L3.call (.ConnectionClose r.2.h)
        some (L4.store_conn { r.2 with h := 0 })

/-- The body of `bvc_quic_conn_close` up to and including its call of `ConnectionClose`,
the last statement `cc->h = NULL` not yet executed: the state of the library
while control is inside the engine's close call, from where the engine raises
the callbacks that the close provokes. -/
def conn_close_in_engine (G : Option lib_s) (c_id : Nat) (app_error_code : Nat) :
    Option lib_s :=
  match G with
  | none => G
  | some L =>
    match tbl_find_conn L.tbl c_id with
    | none => G
    | some cc =>
      if cc.h = 0 then G
      else if cc.closing then G
      else
        let cc1 := { cc with closing := true }
        let L1 := emit_conn_closed (L.store_conn cc1) cc1.id app_error_code 0
        let cc2 := { cc1 with closed_emitted := true }
        let r := free_all_dgsends cc2
        let L2 := { L1 with heap := { L1.heap with freed := L1.heap.freed ++ r.1 } }
        let L3 := L2.call (.ConnectionShutdown r.2.h app_error_code)
        let L4 := L3.call (.ConnectionClose r.2.h)
        some (L4.store_conn r.2)

/-- Embedding of `bvc_quic_conn_cert_complete`; `st` is the result of the engine call. -/
def bvc_quic_conn_cert_complete (G : Option lib_s) (c : Nat) (accept : Bool)
    (tls_alert_code : Nat) (st : QUIC_STATUS) : Option lib_s × bvc_quic_status :=
  match G with
  | none => (G, BVCQ_ERR_BADARG)
  | some L =>
    match tbl_find_conn L.tbl c with
    | none => (G, BVCQ_ERR_NOTFOUND)
    | some cc =>
      if cc.h = 0 ∨ cc.cert_deferred = false then (G, BVCQ_ERR_NOTFOUND)
      else if cc.closing then (G, BVCQ_ERR_BADARG)
      else
        let L1 := L.call (.ConnectionCertificateValidationComplete cc.h accept tls_alert_code)
        let L2 := if QUIC_SUCCEEDED st then L1.store_conn { cc with cert_deferred := false } else L1
        (some L2, st_from_quic st)

/-! ## stream.c -/

/-- The stream events the handler distinguishes: `RECEIVE` carries
`TotalBufferLength`, the buffers and whether `QUIC_RECEIVE_FLAG_FIN` is set. -/
inductive QUIC_STREAM_EVENT where
  | RECEIVE (TotalBufferLength : Nat) (Buffers : List (List UInt8)) (fin : Bool)
  | SEND_COMPLETE
  | OTHER
deriving DecidableEq, Repr

/-- The `for` loop of the `RECEIVE` branch: one `emit_stream_read` per buffer,
`i` being the index of the first buffer of `bufs` and `count` the
`BufferCount`. -/
def on_stream_emit_loop (sid : Nat) (fin : Bool) (count : Nat) :
    lib_s → Nat → List (List UInt8) → lib_s
  | L, _, [] => L
  | L, i, b :: bufs =>
    on_stream_emit_loop sid fin count
      (emit_stream_read L sid (fin && (i + 1) % U32_MOD == count) b (b.length % U32_MOD))
      (i + 1) bufs

/-- Embedding of `on_stream`, the engine's stream callback; `Context` is the handle of the
parent connection. -/
def on_stream (L : lib_s) (Stream : HQUIC) (Context : HQUIC) (Event : QUIC_STREAM_EVENT) :
    lib_s × QUIC_STATUS :=
  let sid := strm_id_from_h L.tbl Stream
  let parent : Option conn_t :=
    if Context ≠ 0 then
      let pcid := conn_id_from_h L.tbl Context
      if pcid ≠ 0 then tbl_find_conn L.tbl pcid else none
    else none
  let parent_closing : Bool := match parent with
    | some p => p.closing
    | none => false
  match Event with
  | .RECEIVE total bufs fin =>
    let L1 := L.call (.StreamReceiveComplete Stream total)
    if parent_closing then (L1, QUIC_STATUS_SUCCESS)
    else
      match tbl_find_strm L1.tbl sid with
      | none => (L1, QUIC_STATUS_SUCCESS)
      | some s =>
        if s.h = 0 then (L1, QUIC_STATUS_SUCCESS)
        else if s.read_enabled then
          (on_stream_emit_loop sid fin (bufs.length % U32_MOD) L1 0 bufs, QUIC_STATUS_SUCCESS)
        else (L1, QUIC_STATUS_SUCCESS)
  | .SEND_COMPLETE =>
    if parent_closing then (L, QUIC_STATUS_SUCCESS)
    else (emit_stream_writable L sid, QUIC_STATUS_SUCCESS)
  | .OTHER => (L, QUIC_STATUS_SUCCESS)

/-- Embedding of `bvc_quic_stream_open`.  `out_sid` says whether the pointer is non-null;
`st_open`, `s` are the result of `StreamOpen`, `st_start` that of
`StreamStart`.  The result carries the value written to `*out_sid`. -/
def bvc_quic_stream_open (G : Option lib_s) (cid : Nat) (bidi : Bool) (out_sid : Bool)
    (st_open : QUIC_STATUS) (s : HQUIC) (st_start : QUIC_STATUS) :
    Option lib_s × Option Nat × bvc_quic_status :=
  match G with
  | none => (G, none, BVCQ_ERR_BADARG)
  | some L =>
    if !out_sid then (G, none, BVCQ_ERR_BADARG)
    else
      match tbl_find_conn L.tbl cid with
      | none => (G, none, BVCQ_ERR_NOTFOUND)
      | some c =>
        if c.h = 0 then (G, none, BVCQ_ERR_NOTFOUND)
        else if c.closing then (G, none, BVCQ_ERR_BADARG)
        else
          let L1 := L.call (.StreamOpen c.h bidi)
          if QUIC_FAILED st_open then (some L1, none, BVCQ_ERR_SYS)
          else
            let r := tbl_add_strm L1.tbl s c.id bidi
            let L2 := { L1 with tbl := r.2 }
            let L3 := L2.call (.StreamStart s)
            if QUIC_FAILED st_start then (some (L3.call (.StreamClose s)), none, BVCQ_ERR_SYS)
            else
              let L4 := emit_stream_opened L3 c.id r.1.id r.1.bidi
              let L5 := emit_stream_writable L4 r.1.id
              (some L5, some r.1.id, BVCQ_OK)

/-- Embedding of `bvc_quic_stream_send`.  `data` is `none` for a null pointer and its length
is `len`; `st` is the result of `StreamSend`. -/
def bvc_quic_stream_send (G : Option lib_s) (sid : Nat) (data : Option (List UInt8))
    (fin : Bool) (_flags : Nat) (st : QUIC_STATUS) : Option lib_s × bvc_quic_status :=
  match G, data with
  | some L, some d =>
    if d.length = 0 then (G, BVCQ_ERR_BADARG)
    else
      match tbl_find_strm L.tbl sid with
      | none => (G, BVCQ_ERR_NOTFOUND)
      | some s =>
        if s.h = 0 then (G, BVCQ_ERR_NOTFOUND)
        else
          let closing : Bool := match tbl_find_conn L.tbl s.conn_id with
            | some c => c.closing
            | none => false
          if closing then (G, BVCQ_ERR_BADARG)
          else
            (some (L.call (.StreamSend s.h (d.take (d.length % U32_MOD)) fin)), st_from_quic st)
  | _, _ => (G, BVCQ_ERR_BADARG)

/-- Embedding of `bvc_quic_stream_shutdown`. -/
def bvc_quic_stream_shutdown (G : Option lib_s) (sid : Nat) : Option lib_s :=
  match G with
  | none => G
  | some L =>
    match tbl_find_strm L.tbl sid with
    | none => G
    | some s =>
      if s.h = 0 then G
      else
        let L1 := (L.call (.StreamShutdown s.h)).call (.StreamClose s.h)
        some (L1.store_strm { s with h := 0 })

/-- Embedding of `bvc_quic_stream_set_read_enabled`; `st` is the result of the engine call. -/
def bvc_quic_stream_set_read_enabled (G : Option lib_s) (sid : Nat) (enabled : Bool)
    (st : QUIC_STATUS) : Option lib_s × bvc_quic_status :=
  match G with
  | none => (G, BVCQ_ERR_BADARG)
  | some L =>
    match tbl_find_strm L.tbl sid with
    | none => (G, BVCQ_ERR_NOTFOUND)
    | some s =>
      if s.h = 0 then (G, BVCQ_ERR_NOTFOUND)
      else
        let closing : Bool := match tbl_find_conn L.tbl s.conn_id with
          | some c => c.closing
          | none => false
        if closing then (G, BVCQ_ERR_BADARG)
        else
          let L1 := L.store_strm { s with read_enabled := enabled }
          (some (L1.call (.StreamReceiveSetEnabled s.h enabled)), st_from_quic st)

/-! ## datagram.c -/

/-- Embedding of `bvc_quic_dgram_send`.  `data` is `none` for a null pointer and its length
is `len`; `st` is the result of `DatagramSend`. -/
def bvc_quic_dgram_send (G : Option lib_s) (cid : Nat) (data : Option (List UInt8))
    (st : QUIC_STATUS) : Option lib_s × bvc_quic_status :=
  match G, data with
  | some L, some d =>
    if d.length = 0 then (G, BVCQ_ERR_BADARG)
    else
      match tbl_find_conn L.tbl cid with
      | none => (G, BVCQ_ERR_NOTFOUND)
      | some c =>
        if c.h = 0 then (G, BVCQ_ERR_NOTFOUND)
        else if c.closing then (G, BVCQ_ERR_BADARG)
        else
          let m1 := L.heap.malloc
          if !m1.1 then (some { L with heap := m1.2 }, BVCQ_ERR_NOMEM)
          else
            let a := m1.2.next_addr
            let h1 : heap_s := { m1.2 with next_addr := a + 1 }
            let m2 := h1.malloc
            if !m2.1 then
              (some { L with heap := { m2.2 with freed := m2.2.freed ++ [a] } }, BVCQ_ERR_NOMEM)
            else
              let ctx : dgsend_t := { addr := a, data := d, len := d.length % U32_MOD }
              let L1 : lib_s := { L with heap := m2.2 }
              let L2 := L1.call (.DatagramSend c.h (ctx.data.take ctx.len) ctx.addr)
              if QUIC_FAILED st then (some (L2.free_ctx ctx.addr), st_from_quic st)
              else (some (L2.store_conn (link_dgsend_ctx c ctx)), BVCQ_OK)
  | _, _ => (G, BVCQ_ERR_BADARG)

/-! ## listener.c: the listener callback -/

/-- The `NEW_CONNECTION` branch of `on_listener`: `conn` is the handle of the
incoming connection, `st_cfg` the result of `ConnectionSetConfiguration`,
`peer` the address the handler reads from the event. -/
def on_listener_new_connection (B : build_cfg) (G : Option lib_s) (Listener : HQUIC)
    (conn : HQUIC) (st_cfg : QUIC_STATUS) (peer : bvcq_addr) : Option lib_s × QUIC_STATUS :=
  match G with
  | none => (G, .failure 0)
  | some L =>
    let L1 := L.call (.SetCallbackHandler conn 0)
    let lstid := match L1.tbl.lsts.find? (fun l => l.h == Listener) with
      | some l => l.id
      | none => 0
    if lstid = 0 then (some L1, .failure 0)
    else
      match tbl_find_lst L1.tbl lstid with
      | none => (some L1, .failure 1)
      | some l =>
        match tbl_find_cfg L1.tbl l.cfg_id with
        | none => (some L1, .failure 1)
        | some c =>
          let L2 := L1.call (.ConnectionSetConfiguration conn c.h)
          if QUIC_FAILED st_cfg then (some L2, st_cfg)
          else
            let L3 := enable_datagrams_on_conn B L2 conn
            let r := tbl_add_conn L3.tbl conn
            (some (emit_conn_accepted { L3 with tbl := r.2 } r.1.id lstid peer),
              QUIC_STATUS_SUCCESS)

/-! ## listener.c: the public API -/

/-- A write through the pointer returned by `tbl_find_lst(t, id)`. -/
def lsts_store : List lst_t → Nat → lst_t → List lst_t
  | [], _, _ => []
  | x :: xs, id, l => if x.id == id then l :: xs else x :: lsts_store xs id l

/-- Stores a listener record back into the library state. -/
def lib_s.store_lst (L : lib_s) (l : lst_t) : lib_s :=
  { L with tbl := { L.tbl with lsts := lsts_store L.tbl.lsts l.id l } }

/-- Embedding of `bvc_quic_listener_start`.  `bind_ip` is `none` for a null pointer,
`out_listener` tells whether that pointer is non-null, `st_open` and `lst` are
the result and the handle of `ListenerOpen`, `st_start` the result of
`ListenerStart`.  The second component is the value stored in `*out_listener`. -/
def bvc_quic_listener_start (G : Option lib_s) (cfg_id : Nat) (bind_ip : Option (List UInt8))
    (bind_port : Nat) (out_listener : Bool) (st_open : QUIC_STATUS) (lst : HQUIC)
    (st_start : QUIC_STATUS) : Option lib_s × Option Nat × bvc_quic_status :=
  match G, bind_ip with
  | some L, some ip =>
    if !out_listener then (G, none, BVCQ_ERR_BADARG)
    else
      match tbl_find_cfg L.tbl cfg_id with
      | none => (G, none, BVCQ_ERR_NOTFOUND)
      | some c =>
        let L1 := L.call .ListenerOpen
        if QUIC_FAILED st_open then (some L1, none, BVCQ_ERR_SYS)
        else
          let L2 := L1.call (.ListenerStart lst c.alpns bind_port)
          if QUIC_FAILED st_start then (some (L2.call (.ListenerClose lst)), none, BVCQ_ERR_SYS)
          else
            let baddr : bvcq_addr := { ip := ip.take 63, port := bind_port }
            let r := tbl_add_lst L2.tbl lst (some baddr) cfg_id
            (some { L2 with tbl := r.2 }, some r.1.id, BVCQ_OK)
  | _, _ => (G, none, BVCQ_ERR_BADARG)

/-- Embedding of `bvc_quic_listener_stop`. -/
def bvc_quic_listener_stop (G : Option lib_s) (lst_id : Nat) : Option lib_s :=
  match G with
  | none => G
  | some L =>
    match tbl_find_lst L.tbl lst_id with
    | none => G
    | some l =>
      if l.h = 0 then G
      else
        let L1 := (L.call (.ListenerStop l.h)).call (.ListenerClose l.h)
        some (L1.store_lst { l with h := 0 })

/-- The address families of a `QUIC_ADDR` as `bvc_quic_listener_get_port` tells them apart;
`QUIC_ADDRESS_FAMILY_UNSPEC` stands for every family other than the two IP ones. -/
inductive QUIC_ADDRESS_FAMILY where
  | QUIC_ADDRESS_FAMILY_UNSPEC
  | QUIC_ADDRESS_FAMILY_INET
  | QUIC_ADDRESS_FAMILY_INET6
deriving DecidableEq, Repr

/-- Embedding of `bvc_quic_listener_get_port`.  `out_port` tells whether that pointer is
non-null; `st` is the result of `GetParam`, `family` and `port` are the
address family and the port (in host order) of the address it fills in.
The second component is the value stored in `*out_port`. -/
def bvc_quic_listener_get_port (B : build_cfg) (G : Option lib_s) (lst_id : Nat)
    (out_port : Bool) (st : QUIC_STATUS) (family : QUIC_ADDRESS_FAMILY) (port : Nat) :
    Option lib_s × Option Nat × bvc_quic_status :=
  match G with
  | none => (G, none, BVCQ_ERR_BADARG)
  | some L =>
    if !out_port then (G, none, BVCQ_ERR_BADARG)
    else
      match tbl_find_lst L.tbl lst_id with
      | none => (G, none, BVCQ_ERR_NOTFOUND)
      | some l =>
        if l.h = 0 then (G, none, BVCQ_ERR_NOTFOUND)
        else if B.QUIC_PARAM_LISTENER_LOCAL_ADDRESS then
          if QUIC_FAILED st then (G, none, BVCQ_ERR_SYS)
          else
            match family with
            | .QUIC_ADDRESS_FAMILY_INET => (G, some port, BVCQ_OK)
            | .QUIC_ADDRESS_FAMILY_INET6 => (G, some port, BVCQ_OK)
            | .QUIC_ADDRESS_FAMILY_UNSPEC => (G, none, BVCQ_ERR_SYS)
        else (G, none, BVCQ_ERR_UNSUPPORTED)

/-! ## connection.c: the queries -/

/-- Embedding of `bvcq_handshake_info`. -/
structure bvcq_handshake_info where
  size : Nat
  tls_version : Nat
  tls_group : Nat
deriving DecidableEq, Repr

/-- Embedding of `bvcq_conn_stats` (`rtt_ms_ewma` is kept as the bit pattern of the double). -/
structure bvcq_conn_stats where
  size : Nat
  rtt_ms_ewma : Nat
  cwnd_bytes : Nat
  bytes_sent : Nat
  bytes_recv : Nat
deriving DecidableEq, Repr

/-- The fields of the engine's `QUIC_HANDSHAKE_INFO` that the library reads. -/
structure QUIC_HANDSHAKE_INFO where
  TlsProtocolVersion : Nat
  KexGroup : Nat
  TlsVersion : Nat
  CryptoCurveId : Nat
deriving DecidableEq, Repr

abbrev BVCQ_TLS_PROTOCOL_UNKNOWN : Nat := 0
abbrev BVCQ_TLS_PROTOCOL_1_3 : Nat := 0x3000
abbrev SIZEOF_HANDSHAKE_INFO : Nat := 16
abbrev SIZEOF_CONN_STATS : Nat := 40

/-- Embedding of `bvc_quic_get_conn_handshake`.  `out` is `none` for a null pointer; `st` is the
result of `GetParam` and `hi` the structure it fills in.  The second component
is `*out` after the call. -/
def bvc_quic_get_conn_handshake (B : build_cfg) (G : Option lib_s) (c : Nat)
    (out : Option bvcq_handshake_info) (st : QUIC_STATUS) (hi : QUIC_HANDSHAKE_INFO) :
    Option lib_s × Option bvcq_handshake_info × bvc_quic_status :=
  match G, out with
  | some L, some o =>
    if o.size < SIZEOF_HANDSHAKE_INFO then (G, out, BVCQ_ERR_BADARG)
    else
      match tbl_find_conn L.tbl c with
      | none => (G, out, BVCQ_ERR_NOTFOUND)
      | some cc =>
        if cc.h = 0 then (G, out, BVCQ_ERR_NOTFOUND)
        else
          let o1 : bvcq_handshake_info :=
            { size := SIZEOF_HANDSHAKE_INFO, tls_version := BVCQ_TLS_PROTOCOL_UNKNOWN,
              tls_group := 0 }
          if B.QUIC_PARAM_CONN_HANDSHAKE_INFO && B.QUIC_HANDSHAKE_INFO then
            if QUIC_SUCCEEDED st then
              let tls_ver0 : Nat :=
                if B.QUIC_HANDSHAKE_INFO_TLS_PROTOCOL_VERSION then hi.TlsProtocolVersion % 2 ^ 16
                else 0
              let group0 : Nat :=
                if B.QUIC_HANDSHAKE_INFO_KEX_GROUP then hi.KexGroup % U32_MOD else 0
              let tls_ver : Nat :=
                if B.QUIC_HANDSHAKE_INFO_TLS_VERSION && tls_ver0 == 0 then hi.TlsVersion % 2 ^ 16
                else tls_ver0
              let group : Nat :=
                if B.QUIC_HANDSHAKE_INFO_CRYPTO_CURVE_ID && group0 == 0 then
                  hi.CryptoCurveId % U32_MOD
                else group0
              let o2 := if tls_ver = 0x0304 then { o1 with tls_version := BVCQ_TLS_PROTOCOL_1_3 }
                else o1
              let o3 := if group ≠ 0 then { o2 with tls_group := group } else o2
              (G, some o3, BVCQ_OK)
            else (G, some o1, BVCQ_OK)
          else (G, some o1, BVCQ_OK)
  | _, _ => (G, out, BVCQ_ERR_BADARG)

/-- Embedding of `bvc_quic_get_conn_stats`.  `out` is `none` for a null pointer; the second
component is `*out` after the call. -/
def bvc_quic_get_conn_stats (G : Option lib_s) (c : Nat) (out : Option bvcq_conn_stats) :
    Option lib_s × Option bvcq_conn_stats × bvc_quic_status :=
  match G, out with
  | some L, some o =>
    if o.size < SIZEOF_CONN_STATS then (G, out, BVCQ_ERR_BADARG)
    else
      match tbl_find_conn L.tbl c with
      | none => (G, out, BVCQ_ERR_NOTFOUND)
      | some cc =>
        if cc.h = 0 then (G, out, BVCQ_ERR_NOTFOUND)
        else
          (G, some { size := SIZEOF_CONN_STATS, rtt_ms_ewma := 0, cwnd_bytes := 0,
                     bytes_sent := 0, bytes_recv := 0 }, BVCQ_OK)
  | _, _ => (G, out, BVCQ_ERR_BADARG)

/-! ## runs of API calls and callbacks -/

/-- One atomic step of the library: a public API call with its arguments and
the results of the engine calls it makes, or a callback delivered by the
engine. -/
inductive Op where
  | connect (cfg_id : Nat) (ip out_conn : Bool) (port : Nat) (st_open : QUIC_STATUS)
      (conn : HQUIC) (st_start : QUIC_STATUS)
  | conn_close (c_id app_error_code : Nat)
  | cert_complete (c : Nat) (accept : Bool) (tls_alert_code : Nat) (st : QUIC_STATUS)
  | stream_open (cid : Nat) (bidi out_sid : Bool) (st_open : QUIC_STATUS) (s : HQUIC)
      (st_start : QUIC_STATUS)
  | stream_send (sid : Nat) (data : Option (List UInt8)) (fin : Bool) (flags : Nat)
      (st : QUIC_STATUS)
  | stream_shutdown (sid : Nat)
  | stream_set_read_enabled (sid : Nat) (enabled : Bool) (st : QUIC_STATUS)
  | dgram_send (cid : Nat) (data : Option (List UInt8)) (st : QUIC_STATUS)
  | drain_events (out_buf : Option (List UInt8)) (buf_bytes : Nat) (out_used : Option Nat)
  | conn_event (Connection : HQUIC) (Event : QUIC_CONNECTION_EVENT)
  | stream_event (Stream Context : HQUIC) (Event : QUIC_STREAM_EVENT)
  | listener_new_connection (Listener conn : HQUIC) (st_cfg : QUIC_STATUS) (peer : bvcq_addr)
deriving DecidableEq, Repr

/-- The value of `G` after one step.  The two connection and stream callbacks
dereference `G`; the engine delivers them only while the library exists. -/
def step (B : build_cfg) (G : Option lib_s) : Op → Option lib_s
  | .connect cfg_id ip out_conn port st_open conn st_start =>
    (bvc_quic_connect B G cfg_id ip out_conn port st_open conn st_start).1
  | .conn_close c_id code => bvc_quic_conn_close G c_id code
  | .cert_complete c accept alert st => (bvc_quic_conn_cert_complete G c accept alert st).1
  | .stream_open cid bidi out_sid st_open s st_start =>
    (bvc_quic_stream_open G cid bidi out_sid st_open s st_start).1
  | .stream_send sid data fin flags st => (bvc_quic_stream_send G sid data fin flags st).1
  | .stream_shutdown sid => bvc_quic_stream_shutdown G sid
  | .stream_set_read_enabled sid enabled st =>
    (bvc_quic_stream_set_read_enabled G sid enabled st).1
  | .dgram_send cid data st => (bvc_quic_dgram_send G cid data st).1
  | .drain_events out_buf buf_bytes out_used =>
    (bvc_quic_drain_events G out_buf buf_bytes out_used).1
  | .conn_event Connection Event => G.map (fun L => (on_connection B L Connection Event).1)
  | .stream_event Stream Context Event => G.map (fun L => (on_stream L Stream Context Event).1)
  | .listener_new_connection Listener conn st_cfg peer =>
    (on_listener_new_connection B G Listener conn st_cfg peer).1

/-- The value of `G` after a sequence of steps. -/
def run (B : build_cfg) (G : Option lib_s) (ops : List Op) : Option lib_s :=
  ops.foldl (step B) G

/-- The records queued in the library (none when `G` is null). -/
def queued (G : Option lib_s) : List (List UInt8) :=
  match G with
  | some L => L.q.head
  | none => []

/-- The trace of released send contexts. -/
def released (G : Option lib_s) : List Nat :=
  match G with
  | some L => L.heap.freed
  | none => []

/-- The trace of engine calls. -/
def engine_calls (G : Option lib_s) : List api_call :=
  match G with
  | some L => L.api
  | none => []

/-- The connection record `tbl_find_conn` returns for an id. -/
def conn_of (G : Option lib_s) (id : Nat) : Option conn_t :=
  match G with
  | some L => tbl_find_conn L.tbl id
  | none => none

/-- The first record carrying `id` in the table has its `closing` flag set. -/
def tbl_closing (t : tbl_s) (id : Nat) : Prop :=
  ∃ c, tbl_find_conn t id = some c ∧ c.closing = true

/-- The connection `id` is known to the library and its `closing` flag is set. -/
def closing_at (G : Option lib_s) (id : Nat) : Prop :=
  ∃ L, G = some L ∧ tbl_closing L.tbl id

/-- Every connection that is closing in `t` is still closing in `t1`. -/
def closing_kept (t t1 : tbl_s) : Prop :=
  ∀ id, tbl_closing t id → tbl_closing t1 id

/-- Every connection record without native handle is closing.  (The handle of a
record is cleared by `bvc_quic_conn_close` only, after it has set `closing`.) -/
def handles_ok (t : tbl_s) : Prop :=
  ∀ c ∈ t.conns, c.h = 0 → c.closing = true

/-- The engine keeps its side of the contract in a step: the connection handle
it hands out on a successful `ConnectionOpen`, or passes to the listener
callback, is not null. -/
def Op.engine_ok : Op → Prop
  | .connect _ _ _ _ st_open conn _ => QUIC_FAILED st_open = false → conn ≠ 0
  | .listener_new_connection _ conn _ _ => conn ≠ 0
  | _ => True

/-- The bytes of a connection-closed record as laid out by `bvc_quic.h`:
`[cid:u64][app_error:u32][transport_error:u32]` after the header. -/
def conn_closed_record (cid app tcode : Nat) : List UInt8 :=
  ev_hdr BVCQ_EV_CONN_CLOSED 28 ++ le_bytes 8 cid ++ le_bytes 4 app ++ le_bytes 4 tcode

/-- A record is a connection-closed event carrying `cid`: its type field is
`BVCQ_EV_CONN_CLOSED` and the eight bytes after the header are `cid`. -/
def is_conn_closed_for (cid : Nat) (rec : List UInt8) : Bool :=
  rec.take 4 == le_bytes 4 BVCQ_EV_CONN_CLOSED && (rec.drop 12).take 8 == le_bytes 8 cid

/-- Number of connection-closed records carrying `cid` in a list of records. -/
def closed_count (cid : Nat) (recs : List (List UInt8)) : Nat :=
  (recs.filter (is_conn_closed_for cid)).length

/-- A library state as `bvc_quic_init` leaves it (empty queue with its wake
pipe, table initialised by `tbl_init`, nothing allocated or released yet),
after one configuration usable by clients has been added to the table. -/
def lib_ready : lib_s :=
  let r := tbl_add_cfg tbl_init 100
  { api := [], reg := 50,
    tbl := { r.2 with cfgs := [{ r.1 with allow_client := true, allow_server := true }] },
    q := { pipe_r := 3, pipe_w := 4, wake_pending := 0, head := [] },
    heap := { plan := [], next_addr := 1000, freed := [] } }

/-- A build in which every tested name (the three terminal send states among
them) is a macro. -/
def build_all : build_cfg :=
  { QUIC_DATAGRAM_SEND_ACKNOWLEDGED := true, QUIC_DATAGRAM_SEND_CANCELED := true,
    QUIC_DATAGRAM_SEND_LOST := true, QUIC_PARAM_CONN_DATAGRAM_RECEIVE_ENABLED := true,
    QUIC_PARAM_LISTENER_LOCAL_ADDRESS := true, QUIC_PARAM_CONN_HANDSHAKE_INFO := true,
    QUIC_HANDSHAKE_INFO := true, QUIC_HANDSHAKE_INFO_TLS_PROTOCOL_VERSION := true,
    QUIC_HANDSHAKE_INFO_KEX_GROUP := true, QUIC_HANDSHAKE_INFO_TLS_VERSION := true,
    QUIC_HANDSHAKE_INFO_CRYPTO_CURVE_ID := true, QUIC_PARAM_CONN_STATISTICS_V2 := true,
    QUIC_PARAM_CONN_STATISTICS := true }

/-- A successful `bvc_quic_connect` with configuration 1; the engine hands out
the connection handle 7. -/
def sample_connect : Op :=
  .connect 1 true true 443 QUIC_STATUS.QUIC_STATUS_SUCCESS 7 QUIC_STATUS.QUIC_STATUS_SUCCESS

/-- The library right after `sample_connect`: one open connection, id 2 and
handle 7, an empty queue. -/
def lib_connected : Option lib_s := run build_all (some lib_ready) [sample_connect]

/-- As `lib_connected`, with the next allocation failing. -/
def lib_connected_oom : Option lib_s :=
  lib_connected.map (fun L => { L with heap := { L.heap with plan := [false] } })

/-- The library in the middle of `bvc_quic_conn_close(2, 5)` on `lib_connected`:
`closing` and `closed_emitted` are set on connection 2, the closed event is
queued, and the handle 7 is not cleared yet. -/
def lib_closing : lib_s := (conn_close_in_engine lib_connected 2 5).getD lib_ready

/-- The state held in `lib_connected`. -/
def lib_connected_s : lib_s := lib_connected.getD lib_ready

/-- The record of connection 2 in `lib_connected`. -/
def sample_conn : conn_t :=
  { id := 2, h := 7, read_enabled := true, cert_deferred := false, closing := false,
    closed_emitted := false, dgram_head := [] }

/-- A successful `bvc_quic_stream_open` on connection 2; the engine hands out
the stream handle 9 (the stream gets id 3). -/
def sample_stream_open : Op :=
  .stream_open 2 true true QUIC_STATUS.QUIC_STATUS_SUCCESS 9 QUIC_STATUS.QUIC_STATUS_SUCCESS

/-- A successful `bvc_quic_dgram_send` of three bytes on connection 2 (its
context is allocated at address 1000). -/
def sample_dgram_send : Op :=
  .dgram_send 2 (some [100, 103, 33]) QUIC_STATUS.QUIC_STATUS_SUCCESS

/-- The lookup `tbl_find_conn` finds a record for `id` that has a native handle and is not
closing: the state in which `bvc_quic_conn_close` goes past its early returns. -/
def conn_open (G : Option lib_s) (id : Nat) : Bool :=
  match conn_of G id with
  | some c => c.h != 0 && !c.closing
  | none => false

/-- The next two allocations (an emitter's record and the queue node) succeed. -/
def emit_allocs_ok (G : Option lib_s) : Bool :=
  match G with
  | some L => L.heap.malloc.1 && L.heap.malloc.2.malloc.1
  | none => false

/-- The stream record `tbl_find_strm` returns for an id. -/
def strm_of (G : Option lib_s) (id : Nat) : Option strm_t :=
  match G with
  | some L => tbl_find_strm L.tbl id
  | none => none

/-- A build in which none of the tested names is a macro. -/
def build_none : build_cfg :=
  { QUIC_DATAGRAM_SEND_ACKNOWLEDGED := false, QUIC_DATAGRAM_SEND_CANCELED := false,
    QUIC_DATAGRAM_SEND_LOST := false, QUIC_PARAM_CONN_DATAGRAM_RECEIVE_ENABLED := false,
    QUIC_PARAM_LISTENER_LOCAL_ADDRESS := false, QUIC_PARAM_CONN_HANDSHAKE_INFO := false,
    QUIC_HANDSHAKE_INFO := false, QUIC_HANDSHAKE_INFO_TLS_PROTOCOL_VERSION := false,
    QUIC_HANDSHAKE_INFO_KEX_GROUP := false, QUIC_HANDSHAKE_INFO_TLS_VERSION := false,
    QUIC_HANDSHAKE_INFO_CRYPTO_CURVE_ID := false, QUIC_PARAM_CONN_STATISTICS_V2 := false,
    QUIC_PARAM_CONN_STATISTICS := false }

/-- Every coming allocation succeeds. -/
def heap_s.all_ok (m : heap_s) : Prop := ∀ b ∈ m.plan, b = true

instance heap_s.decidable_all_ok (m : heap_s) : Decidable m.all_ok := by
  unfold heap_s.all_ok
  infer_instance


/-! ## sequences of table operations -/

/-- One operation on the handle table: an allocation of a record of one of the
four kinds, or a write to the record of an id through the pointer its
`tbl_find_*` returned (clearing the native handle on teardown is such a
write). -/
inductive TblOp where
  | add_conn (h : HQUIC)
  | add_strm (h : HQUIC) (conn_id : Nat) (bidi : Bool)
  | add_lst (h : HQUIC) (b : Option bvcq_addr) (cfg_id : Nat)
  | add_cfg (h : HQUIC)
  | store_conn (id : Nat) (c : conn_t)
  | store_strm (id : Nat) (s : strm_t)
  | store_lst (id : Nat) (l : lst_t)
deriving DecidableEq, Repr

/-- The operation is one of the four `tbl_add_*` calls. -/
def TblOp.allocates : TblOp → Bool
  | .add_conn _ => true
  | .add_strm _ _ _ => true
  | .add_lst _ _ _ => true
  | .add_cfg _ => true
  | _ => false

/-- Number of `tbl_add_*` calls in a sequence. -/
def allocations (ops : List TblOp) : Nat := (ops.filter TblOp.allocates).length

/-- One table operation: the ids it assigned (one for an allocation, none for
a write) and the table afterwards.  A write keeps the `id` field of the record
it replaces. -/
def tbl_op (t : tbl_s) : TblOp → List Nat × tbl_s
  | .add_conn h => ([(tbl_add_conn t h).1.id], (tbl_add_conn t h).2)
  | .add_strm h conn_id bidi =>
    ([(tbl_add_strm t h conn_id bidi).1.id], (tbl_add_strm t h conn_id bidi).2)
  | .add_lst h b cfg_id => ([(tbl_add_lst t h b cfg_id).1.id], (tbl_add_lst t h b cfg_id).2)
  | .add_cfg h => ([(tbl_add_cfg t h).1.id], (tbl_add_cfg t h).2)
  | .store_conn id c => ([], { t with conns := conns_store t.conns id { c with id := id } })
  | .store_strm id s => ([], { t with strms := strms_store t.strms id { s with id := id } })
  | .store_lst id l => ([], { t with lsts := lsts_store t.lsts id { l with id := id } })

/-- A sequence of table operations: the ids assigned, in allocation order, and
the table afterwards. -/
def tbl_run (t : tbl_s) : List TblOp → List Nat × tbl_s
  | [] => ([], t)
  | op :: ops => ((tbl_op t op).1 ++ (tbl_run (tbl_op t op).2 ops).1,
      (tbl_run (tbl_op t op).2 ops).2)

/-- The ids of all records of the table, kind after kind. -/
def tbl_ids (t : tbl_s) : List Nat :=
  t.conns.map (fun c => c.id) ++ t.strms.map (fun s => s.id)
    ++ t.lsts.map (fun l => l.id) ++ t.cfgs.map (fun c => c.id)

/-- Two allocations of each kind interleaved with teardown writes that clear
the native handle of connection 1, stream 2 and listener 3. -/
def sample_tbl_ops : List TblOp :=
  [ .add_conn 7, .add_strm 9 1 true, .add_lst 11 none 4, .add_cfg 100,
    .store_conn 1 { id := 1, h := 0, read_enabled := true, cert_deferred := false,
                    closing := true, closed_emitted := true, dgram_head := [] },
    .store_strm 2 { id := 2, h := 0, conn_id := 1, read_enabled := true, bidi := true },
    .store_lst 3 { id := 3, h := 0, bind := { ip := List.replicate 64 0, port := 0 },
                   cfg_id := 4 },
    .add_strm 9 1 false, .add_conn 7, .add_cfg 100, .add_lst 11 none 4 ]

/-! ## reading event records -/

/-- The value of a little-endian integer, least significant byte first (the
load of a `uint32_t` or `uint64_t` field on the little-endian targets). -/
def le_decode : List UInt8 → Nat
  | [] => 0
  | b :: bs => b.toNat + 256 * le_decode bs

/-- The `n`-byte integer field at offset `off` of a buffer. -/
def read_le (buf : List UInt8) (off n : Nat) : Nat := le_decode ((buf.drop off).take n)

/-- The `type` field of the `bvcq_ev_hdr` at offset `off`. -/
def hdr_type (buf : List UInt8) (off : Nat) : Nat := read_le buf off 4

/-- The `flags` field of the `bvcq_ev_hdr` at offset `off`. -/
def hdr_flags (buf : List UInt8) (off : Nat) : Nat := read_le buf (off + 4) 4

/-- The `size` field of the `bvcq_ev_hdr` at offset `off`. -/
def hdr_size (buf : List UInt8) (off : Nat) : Nat := read_le buf (off + 8) 4

/-- The minimum that `validate_and_count` (tests/test_events_api.c) asserts
for the size of a record of a type; no assertion for the other types. -/
def ev_min_size (type : Nat) : Nat :=
  if type = BVCQ_EV_CONN_ACCEPTED then SIZEOF_HDR + 8 + 8 + SIZEOF_ADDR
  else if type = BVCQ_EV_CONN_CONNECTED then SIZEOF_HDR + 8 + SIZEOF_ADDR
  else if type = BVCQ_EV_CONN_CERT_REQUIRED then SIZEOF_HDR + 8
  else if type = BVCQ_EV_STREAM_OPENED then SIZEOF_HDR + 8 + 8 + 1
  else if type = BVCQ_EV_STREAM_READ then SIZEOF_HDR + 8 + 4 + 4
  else if type = BVCQ_EV_DGRAM_READ then SIZEOF_HDR + 8 + 4
  else 0

/-- Outcome of a walk over a drained buffer: the loop ran to its end at offset
`off` after `n` records, an assertion failed at the header at `off`, or the
step bound was used up. -/
inductive walk_result where
  | done (off n : Nat)
  | assert_failed (off : Nat)
  | out_of_steps
deriving DecidableEq, Repr

/-- Embedding of the walker `validate_and_count` of tests/test_events_api.c on the first `len`
bytes of `buf`, from offset `off` with `n` records counted, for at most `steps`
iterations of its loop. -/
def validate_and_count (buf : List UInt8) (len : Nat) : Nat → Nat → Nat → walk_result
  | 0, _, _ => .out_of_steps
  | steps + 1, off, n =>
    if off + SIZEOF_HDR ≤ len then
      if hdr_size buf off < SIZEOF_HDR then .assert_failed off
      else if len < off + hdr_size buf off then .assert_failed off
      else if hdr_size buf off < ev_min_size (hdr_type buf off) then .assert_failed off
      else validate_and_count buf len steps (off + hdr_size buf off) (n + 1)
    else .done off n

/-- A record that passes the walker: it holds a whole header, its length is
its header's size field, and that size is at least the minimum of its type. -/
def record_ok (r : List UInt8) : Prop :=
  SIZEOF_HDR ≤ r.length ∧ hdr_size r 0 = r.length ∧ ev_min_size (hdr_type r 0) ≤ r.length

/-! ## the record layout in the specification's words -/

/-- The reference serialization `[type:u32][flags:u32 = 0][total_size:u32][payload]`:
little-endian fields without padding, `total_size` counting the 12-byte
header. -/
def spec_record (type : Nat) (payload : List UInt8) : List UInt8 :=
  le_bytes 4 type ++ le_bytes 4 0 ++ le_bytes 4 (12 + payload.length) ++ payload

/-- Reference record of connection-closed: type 3, payload `cid:u64, app:u32, t:u32`. -/
def spec_conn_closed (cid app t : Nat) : List UInt8 :=
  spec_record 3 (le_bytes 8 cid ++ le_bytes 4 app ++ le_bytes 4 t)

/-- Reference record of certificate-required: type 4, payload `cid:u64`. -/
def spec_conn_cert_required (cid : Nat) : List UInt8 := spec_record 4 (le_bytes 8 cid)

/-- Reference record of stream-opened: type 10, payload `cid:u64, sid:u64` and
one byte, 1 for a bidirectional stream and 0 otherwise. -/
def spec_stream_opened (cid sid : Nat) (bidi : Bool) : List UInt8 :=
  spec_record 10 (le_bytes 8 cid ++ le_bytes 8 sid ++ [if bidi then 1 else 0])

/-- Reference record of stream-writable: type 11, payload `sid:u64`. -/
def spec_stream_writable (sid : Nat) : List UInt8 := spec_record 11 (le_bytes 8 sid)

/-- Reference record of stream-read: type 12, payload `sid:u64, fin:u32,
length:u32` and the bytes. -/
def spec_stream_read (sid : Nat) (fin : Bool) (bytes : List UInt8) : List UInt8 :=
  spec_record 12 (le_bytes 8 sid ++ le_bytes 4 (if fin then 1 else 0)
    ++ le_bytes 4 bytes.length ++ bytes)

/-- Reference record of datagram-read: type 20, payload `cid:u64, length:u32`
and the bytes. -/
def spec_dgram_read (cid : Nat) (bytes : List UInt8) : List UInt8 :=
  spec_record 20 (le_bytes 8 cid ++ le_bytes 4 bytes.length ++ bytes)

/-- Decoding of a stream-read record by its layout: the stream id, whether
`fin` is set, and the `length` bytes after the 28-byte prefix. -/
def decode_stream_read (r : List UInt8) : Nat × Bool × List UInt8 :=
  (read_le r 12 8, read_le r 20 4 != 0, (r.drop 28).take (read_le r 24 4))

/-- Decoding of a datagram-read record by its layout: the connection id and
the `length` bytes after the 24-byte prefix. -/
def decode_dgram_read (r : List UInt8) : Nat × List UInt8 :=
  (read_le r 12 8, (r.drop 24).take (read_le r 20 4))

/-! ## further sample states -/

/-- The state held in `lib_connected_oom`. -/
def lib_connected_oom_s : lib_s := lib_connected_oom.getD lib_ready

/-- The six datagram bytes of the echo scenario. -/
def sample_dgram : List UInt8 := [0x64, 0x67, 0x21, 0x54, 0x00, 0xAA]

/-- A successful `bvc_quic_listener_start` on `lib_connected` with configuration 1: the
engine hands out the listener handle 11 (the listener gets id 3). -/
def lib_listening : Option lib_s :=
  (bvc_quic_listener_start lib_connected 1 (some [48, 46, 48, 46, 48, 46, 48]) 4433 true
    QUIC_STATUS.QUIC_STATUS_SUCCESS 11 QUIC_STATUS.QUIC_STATUS_SUCCESS).1

/-- After `lib_listening`: a stream is opened on connection 2 (id 4, handle 9),
then the stream, the listener and the connection are torn down. -/
def lib_torn_down : Option lib_s :=
  bvc_quic_conn_close
    (bvc_quic_listener_stop
      (bvc_quic_stream_shutdown (run build_all lib_listening [sample_stream_open]) 4) 3) 2 5

/-- The state held in `lib_torn_down`. -/
def lib_torn_down_s : lib_s := lib_torn_down.getD lib_ready

/-- The listener record `tbl_find_lst` returns for an id. -/
def lst_of (G : Option lib_s) (id : Nat) : Option lst_t :=
  match G with
  | some L => tbl_find_lst L.tbl id
  | none => none

/-- No record of a connection with a native handle is found for the id: the id
was never allocated for a connection, or the handle was cleared on close. -/
def conn_gone (G : Option lib_s) (id : Nat) : Prop :=
  match conn_of G id with
  | some c => c.h = 0
  | none => True

/-- No record of a stream with a native handle is found for the id. -/
def strm_gone (G : Option lib_s) (id : Nat) : Prop :=
  match strm_of G id with
  | some s => s.h = 0
  | none => True

/-- No record of a listener with a native handle is found for the id. -/
def lst_gone (G : Option lib_s) (id : Nat) : Prop :=
  match lst_of G id with
  | some l => l.h = 0
  | none => True

/-- Every closing connection record has no native handle.  (`bvc_quic_conn_close`
sets `closing` and clears the handle before it returns.) -/
def closing_ok (t : tbl_s) : Prop :=
  ∀ c ∈ t.conns, c.closing = true → c.h = 0

/-- The registry of the library satisfies `closing_ok`: no close is in progress. -/
def closing_cleared (G : Option lib_s) : Prop :=
  match G with
  | some L => closing_ok L.tbl
  | none => True

instance closing_ok.decidable (t : tbl_s) : Decidable (closing_ok t) := by
  unfold closing_ok
  infer_instance

/-- A run in which connection 2 is opened, the engine asks for the certificate
decision (`cert_deferred` is set), and the caller closes the connection before
deciding. -/
def sample_cert_then_close : List Op :=
  [sample_connect, .conn_event 7 .PEER_CERTIFICATE_RECEIVED, .conn_close 2 5]

/-- The library after `sample_cert_then_close`. -/
def lib_cert_closed : lib_s := (run build_all (some lib_ready) sample_cert_then_close).getD lib_ready

instance conn_gone.decidable (G : Option lib_s) (id : Nat) : Decidable (conn_gone G id) := by
  unfold conn_gone
  split <;> infer_instance

instance strm_gone.decidable (G : Option lib_s) (id : Nat) : Decidable (strm_gone G id) := by
  unfold strm_gone
  split <;> infer_instance

instance lst_gone.decidable (G : Option lib_s) (id : Nat) : Decidable (lst_gone G id) := by
  unfold lst_gone
  split <;> infer_instance

instance closing_cleared.decidable (G : Option lib_s) : Decidable (closing_cleared G) := by
  unfold closing_cleared
  split <;> infer_instance

/-! ## sample states for the certificate, stream and datagram paths -/

/-- The library after `sample_connect` and a `PEER_CERTIFICATE_RECEIVED` callback on
handle 7: connection 2 has `cert_deferred` set and the certificate-required
record is queued. -/
def lib_cert_pending : lib_s :=
  (run build_all (some lib_ready) [sample_connect, .conn_event 7 .PEER_CERTIFICATE_RECEIVED]).getD
    lib_ready

/-- The library after `sample_connect` and `sample_stream_open`: stream 3 (handle 9)
is open on connection 2, its two records are queued. -/
def lib_streaming : lib_s :=
  (run build_all (some lib_ready) [sample_connect, sample_stream_open]).getD lib_ready

/-- As `lib_streaming`, with the next allocation failing. -/
def lib_streaming_oom : lib_s :=
  { lib_streaming with heap := { lib_streaming.heap with plan := [false] } }

/-- The library after `sample_connect` and `sample_dgram_send`: the context at
address 1000 is in the pending list of connection 2. -/
def lib_dgram_pending : lib_s :=
  (run build_all (some lib_ready) [sample_connect, sample_dgram_send]).getD lib_ready

/-- The loop of tests/test_stream_many.c: `bvc_quic_stream_open` on one connection for each
entry of `ps` (the `bidi` argument and the handle the engine hands out), every
engine call succeeding; the result is the library and the values written to
`*out_sid`, in call order (an entry is missing where the call failed). -/
def stream_open_many (cid : Nat) : Option lib_s → List (Bool × HQUIC) → Option lib_s × List Nat
  | G, [] => (G, [])
  | G, p :: ps =>
    let r := bvc_quic_stream_open G cid p.1 true QUIC_STATUS.QUIC_STATUS_SUCCESS p.2
      QUIC_STATUS.QUIC_STATUS_SUCCESS
    let rs := stream_open_many cid r.1 ps
    (rs.1, r.2.1.toList ++ rs.2)

/-- The two records of the `i`-th open of `stream_open_many`, in the specification's
words: stream-opened and stream-writable for the stream id `sid`. -/
def spec_stream_open_records (cid sid : Nat) (bidi : Bool) : List (List UInt8) :=
  [spec_stream_opened cid sid bidi, spec_stream_writable sid]

/-- The records of successive opens that get the ids `sid`, `sid + 1`, ... -/
def spec_open_many_records (cid : Nat) : Nat → List (Bool × HQUIC) → List (List UInt8)
  | _, [] => []
  | sid, p :: ps => spec_stream_open_records cid sid p.1 ++ spec_open_many_records cid (sid + 1) ps

/-- The stream-read records of a `RECEIVE` event in the specification's words:
one per buffer, in buffer order, `fin` set on the last one when the event
carries the FIN flag; `i` is the index of the first buffer of the list and
`count` the number of buffers of the event. -/
def spec_stream_reads (sid : Nat) (fin : Bool) (count : Nat) :
    Nat → List (List UInt8) → List (List UInt8)
  | _, [] => []
  | i, b :: bufs =>
    spec_stream_read sid (fin && i + 1 == count) b :: spec_stream_reads sid fin count (i + 1) bufs

/-- The wakeup signal is set: the wake pipe holds unread bytes. -/
def wake_set (q : evq_s) : Prop := 0 < q.wake_pending

/-- The wakeup signal tracks the queue: it is set whenever a record is queued. -/
def wake_tracks (q : evq_s) : Prop := q.head ≠ [] → wake_set q

instance wake_set.decidable (q : evq_s) : Decidable (wake_set q) := by
  unfold wake_set
  infer_instance

instance wake_tracks.decidable (q : evq_s) : Decidable (wake_tracks q) := by
  unfold wake_tracks
  infer_instance

/-- Every closing connection record is fully closed: no native handle, the
closed event accounted for, no pending send context. -/
def closed_ok (t : tbl_s) : Prop :=
  ∀ c ∈ t.conns, c.closing = true → c.h = 0 ∧ c.closed_emitted = true ∧ c.dgram_head = []

instance closed_ok.decidable (t : tbl_s) : Decidable (closed_ok t) := by
  unfold closed_ok
  infer_instance

/-- Reads are disabled on the stream `sid`: its record is found and has
`read_enabled` cleared. -/
def reads_disabled (t : tbl_s) (sid : Nat) : Prop :=
  ∃ s, tbl_find_strm t sid = some s ∧ s.read_enabled = false

/-- The step is a `bvc_quic_stream_set_read_enabled(sid, 1)` call. -/
def Op.reenables (sid : Nat) : Op → Bool
  | .stream_set_read_enabled sid1 enabled _ => sid1 == sid && enabled
  | _ => false

/-- The test `parent && parent->closing` of `on_stream`: `Context` is the handle of
the parent connection, resolved to its record as the handler does. -/
def stream_parent_closing (L : lib_s) (Context : HQUIC) : Bool :=
  match (if Context ≠ 0 then
      (if conn_id_from_h L.tbl Context ≠ 0 then tbl_find_conn L.tbl (conn_id_from_h L.tbl Context)
       else none)
    else none) with
  | some p => p.closing
  | none => false

/-- The library after `lib_streaming` and a successful
`bvc_quic_stream_set_read_enabled(3, 0)`. -/
def lib_reads_off : lib_s :=
  (bvc_quic_stream_set_read_enabled (some lib_streaming) 3 false
    QUIC_STATUS.QUIC_STATUS_SUCCESS).1.getD lib_ready

/-- Steps taken while reads stay disabled on stream 3: a send on the stream, a
drain, and a toggle on an unknown stream. -/
def sample_ops_reads_off : List Op :=
  [.stream_send 3 (some [1]) false 0 QUIC_STATUS.QUIC_STATUS_SUCCESS,
   .drain_events (some (List.replicate 64 0)) 64 (some 0),
   .stream_set_read_enabled 99 true QUIC_STATUS.QUIC_STATUS_SUCCESS]

/-- The library after `sample_ops_reads_off` on `lib_reads_off`. -/
def lib_reads_off_later : lib_s :=
  (run build_all (some lib_reads_off) sample_ops_reads_off).getD lib_ready

/-- The operations of a client that sends a datagram and closes the connection
while the send is still pending. -/
def sample_dgram_then_close : List Op :=
  [sample_connect, sample_dgram_send, .conn_close 2 5]

/-- The library after `sample_dgram_then_close`. -/
def lib_dgram_closed : lib_s :=
  (run build_all (some lib_ready) sample_dgram_then_close).getD lib_ready

end BVCQ

/-! # Theorems -/

namespace BVCQ

open bvc_quic_status QUIC_STATUS

/-! ## The event queue -/

theorem total_len_nil : total_len [] = 0 := rfl

theorem total_len_cons (r : List UInt8) (rs : List (List UInt8)) :
    total_len (r :: rs) = r.length + total_len rs := by
  simp [total_len]

theorem total_len_flatten (rs : List (List UInt8)) : rs.flatten.length = total_len rs := by
  simp [total_len]

/-- Prefix sums of record lengths grow with the number of records taken. -/
theorem total_len_take_mono (rs : List (List UInt8)) (i j : Nat) (h : i ≤ j) :
    total_len (rs.take i) ≤ total_len (rs.take j) := by
  induction rs generalizing i j with
  | nil => simp
  | cons r rs ih =>
    cases i with
    | zero => simp [total_len_nil]
    | succ i =>
      cases j with
      | zero => omega
      | succ j =>
        simp only [List.take_succ_cons, total_len_cons]
        have := ih i j (by omega)
        omega

/-- The loop of `evq_copy_out`, entered with `used ≤ cap`: it stops after some
number `k` of whole records, the first one that does not fit (if any) being the
head of what remains. -/
theorem evq_copy_out_loop_spec (cap : Nat) (hcap : cap < SIZE_MOD) :
    ∀ (rs : List (List UInt8)) (used : Nat) (out : List UInt8),
      used ≤ cap → cap ≤ out.length →
      ∃ k, k ≤ rs.length ∧ used + total_len (rs.take k) ≤ cap ∧
        (k < rs.length → cap < used + total_len (rs.take (k + 1))) ∧
        evq_copy_out_loop cap rs used out =
          (rs.drop k, used + total_len (rs.take k),
            out.take used ++ (rs.take k).flatten
              ++ out.drop (used + total_len (rs.take k))) := by
  intro rs
  induction rs with
  | nil =>
    intro used out hu _
    refine ⟨0, by simp, by simpa [total_len_nil] using hu, by simp, ?_⟩
    simp [evq_copy_out_loop, total_len_nil]
  | cons n rest ih =>
    intro used out hu hout
    have hsub : (cap + SIZE_MOD - used) % SIZE_MOD = cap - used := by
      have h1 : cap + SIZE_MOD - used = (cap - used) + SIZE_MOD := by omega
      rw [h1, Nat.add_mod_right]
      exact Nat.mod_eq_of_lt (by omega)
    by_cases hfit : n.length > cap - used
    · refine ⟨0, by simp, by simpa [total_len_nil] using hu, ?_, ?_⟩
      · intro _
        simp only [List.take_succ_cons, List.take_zero, total_len_cons, total_len_nil]
        omega
      · simp [evq_copy_out_loop, hsub, hfit, total_len_nil]
    · have hle : n.length ≤ cap - used := by omega
      have hadd : (used + n.length) % SIZE_MOD = used + n.length :=
        Nat.mod_eq_of_lt (by omega)
      have hlen : (memcpy out used n).length = out.length := by
        simp only [memcpy, List.length_append, List.length_take, List.length_drop]
        omega
      obtain ⟨k, hk, hsum, hmax, heq⟩ :=
        ih (used + n.length) (memcpy out used n) (by omega) (by omega)
      refine ⟨k + 1, by simpa using hk, ?_, ?_, ?_⟩
      · simp only [List.take_succ_cons, total_len_cons]
        omega
      · intro hlt
        have := hmax (by simpa using hlt)
        simp only [List.take_succ_cons, total_len_cons] at this ⊢
        omega
      · have htake : (memcpy out used n).take (used + n.length) = out.take used ++ n := by
          have hl : (out.take used ++ n).length = used + n.length := by
            simp only [List.length_append, List.length_take]
            omega
          unfold memcpy
          rw [← hl, List.take_left]
        have hdrop : ∀ t, (memcpy out used n).drop (used + n.length + t)
            = out.drop (used + n.length + t) := by
          intro t
          have hl : (out.take used ++ n).length = used + n.length := by
            simp only [List.length_append, List.length_take]
            omega
          unfold memcpy
          rw [← hl, List.drop_append, hl, List.drop_drop]
        simp only [evq_copy_out_loop, hsub, hfit, if_false, hadd]
        rw [heq, htake, hdrop]
        simp only [List.take_succ_cons, List.drop_succ_cons, total_len_cons, List.flatten_cons,
          List.append_assoc, Nat.add_assoc]

theorem evq_wakeup_head (q : evq_s) : (evq_wakeup q).head = q.head := by
  unfold evq_wakeup
  split <;> rfl

theorem evq_push_head_ok (q : evq_s) (rec : List UInt8) :
    (evq_push q rec true).head = q.head ++ [rec] := by
  simp [evq_push, evq_wakeup_head]

theorem evq_push_head_fail (q : evq_s) (rec : List UInt8) : evq_push q rec false = q := by
  simp [evq_push]

theorem evq_copy_out_head (q : evq_s) (out : List UInt8) (cap : Nat) :
    (evq_copy_out q out cap).1.head = (evq_copy_out_loop cap q.head 0 out).1 := by
  unfold evq_copy_out
  dsimp only
  split <;> rfl

/-- What one `evq_copy_out` does, for a capacity that is a `size_t` and a buffer
of at least that many bytes. -/
theorem evq_copy_out_spec (q : evq_s) (out : List UInt8) (cap : Nat)
    (hcap : cap < SIZE_MOD) (hbuf : cap ≤ out.length) :
    ∃ k, k ≤ q.head.length ∧ total_len (q.head.take k) ≤ cap ∧
      (k < q.head.length → cap < total_len (q.head.take (k + 1))) ∧
      (evq_copy_out q out cap).2.2 = total_len (q.head.take k) ∧
      (evq_copy_out q out cap).2.1
        = (q.head.take k).flatten ++ out.drop (total_len (q.head.take k)) ∧
      (evq_copy_out q out cap).1.head = q.head.drop k := by
  obtain ⟨k, hk, hsum, hmax, heq⟩ :=
    evq_copy_out_loop_spec cap hcap q.head 0 out (Nat.zero_le _) hbuf
  refine ⟨k, hk, by simpa using hsum, ?_, ?_, ?_, ?_⟩
  · intro h
    simpa using hmax h
  · simp [evq_copy_out, heq]
  · simp [evq_copy_out, heq]
  · rw [evq_copy_out_head, heq]

/-- C2: for every queue content and every capacity, `evq_copy_out` copies the
first `k` records whole into the caller buffer (leaving the rest of the buffer
as it was), where `k` is the largest number of leading records whose total
length is at most `cap`; it returns their total length, which is at most
`cap`, and leaves the remaining records queued in order. -/
theorem evq_copy_out_whole_records (q : evq_s) (out : List UInt8) (cap : Nat)
    (hcap : cap < SIZE_MOD) (hbuf : cap ≤ out.length) :
    ∃ k, k ≤ q.head.length ∧
      (∀ j, j ≤ q.head.length → (total_len (q.head.take j) ≤ cap ↔ j ≤ k)) ∧
      (evq_copy_out q out cap).2.2 = total_len (q.head.take k) ∧
      (evq_copy_out q out cap).2.2 ≤ cap ∧
      (evq_copy_out q out cap).2.1
        = (q.head.take k).flatten ++ out.drop (total_len (q.head.take k)) ∧
      (evq_copy_out q out cap).1.head = q.head.drop k := by
  obtain ⟨k, hk, hsum, hmax, hused, hout, hq⟩ := evq_copy_out_spec q out cap hcap hbuf
  refine ⟨k, hk, ?_, hused, by rw [hused]; exact hsum, hout, hq⟩
  intro j hj
  constructor
  · intro hfit
    by_contra hlt
    have hk1 : k + 1 ≤ j := by omega
    have h1 := hmax (by omega)
    have h2 := total_len_take_mono q.head (k + 1) j hk1
    omega
  · intro hjk
    exact le_trans (total_len_take_mono q.head j k hjk) hsum

/-- Witness of C2: a 5-byte buffer takes the first two of three queued records. -/
theorem evq_copy_out_whole_records_witness :
    (5 < SIZE_MOD ∧ 5 ≤ ([9, 9, 9, 9, 9] : List UInt8).length) ∧
    ∃ k, k ≤ 3 ∧
      (∀ j, j ≤ 3 →
        (total_len (([[1, 2], [3, 4], [5]] : List (List UInt8)).take j) ≤ 5 ↔ j ≤ k)) ∧
      (evq_copy_out ⟨3, 4, 1, [[1, 2], [3, 4], [5]]⟩ [9, 9, 9, 9, 9] 5).2.2
        = total_len (([[1, 2], [3, 4], [5]] : List (List UInt8)).take k) ∧
      (evq_copy_out ⟨3, 4, 1, [[1, 2], [3, 4], [5]]⟩ [9, 9, 9, 9, 9] 5).2.2 ≤ 5 ∧
      (evq_copy_out ⟨3, 4, 1, [[1, 2], [3, 4], [5]]⟩ [9, 9, 9, 9, 9] 5).2.1
        = (([[1, 2], [3, 4], [5]] : List (List UInt8)).take k).flatten
          ++ ([9, 9, 9, 9, 9] : List UInt8).drop
            (total_len (([[1, 2], [3, 4], [5]] : List (List UInt8)).take k)) ∧
      (evq_copy_out ⟨3, 4, 1, [[1, 2], [3, 4], [5]]⟩ [9, 9, 9, 9, 9] 5).1.head
        = ([[1, 2], [3, 4], [5]] : List (List UInt8)).drop k :=
  ⟨⟨by decide, by decide⟩,
    evq_copy_out_whole_records ⟨3, 4, 1, [[1, 2], [3, 4], [5]]⟩ [9, 9, 9, 9, 9] 5
      (by decide) (by decide)⟩

/-- FIFO invariant of a run on any queue: what the copy-outs returned is the
concatenation of the first `k` of (initially queued records, then pushed
records), and the rest is what is still queued. -/
theorem evq_run_fifo (ops : List EvqOp) :
    ∀ (q : evq_s), (∀ op ∈ ops, op.ok) →
      ∃ k, (evq_run q ops).2 = ((q.head ++ EvqOp.pushed ops).take k).flatten ∧
        (evq_run q ops).1.head = (q.head ++ EvqOp.pushed ops).drop k := by
  induction ops with
  | nil =>
    intro q _
    exact ⟨0, by simp [evq_run], by simp [evq_run, EvqOp.pushed]⟩
  | cons op ops ih =>
    intro q hok
    have hops : ∀ o ∈ ops, o.ok := fun o ho => hok o (List.mem_cons_of_mem _ ho)
    have hop : op.ok := hok op (List.mem_cons_self _ _)
    cases op with
    | push rec alloc_ok =>
      have ha : alloc_ok = true := hop
      subst ha
      obtain ⟨k, h1, h2⟩ := ih (evq_push q rec true) hops
      rw [evq_push_head_ok] at h1 h2
      refine ⟨k, ?_, ?_⟩
      · simpa [evq_run, EvqOp.pushed] using h1
      · simpa [evq_run, EvqOp.pushed] using h2
    | copy_out out cap =>
      obtain ⟨hcap, hbuf⟩ : cap < SIZE_MOD ∧ cap ≤ out.length := hop
      obtain ⟨k0, hk0, hsum, _, hused, hout, hq⟩ := evq_copy_out_spec q out cap hcap hbuf
      obtain ⟨k1, h1, h2⟩ := ih (evq_copy_out q out cap).1 hops
      rw [hq] at h1 h2
      have hsplit : q.head ++ EvqOp.pushed ops
          = q.head.take k0 ++ (q.head.drop k0 ++ EvqOp.pushed ops) := by
        rw [← List.append_assoc, List.take_append_drop]
      have hlen : (q.head.take k0).length = k0 := by
        rw [List.length_take]
        omega
      have hpre : (evq_copy_out q out cap).2.1.take (evq_copy_out q out cap).2.2
          = (q.head.take k0).flatten := by
        rw [hout, hused, ← total_len_flatten, List.take_left]
      have htk : (q.head.take k0 ++ (q.head.drop k0 ++ EvqOp.pushed ops)).take (k0 + k1)
          = q.head.take k0 ++ (q.head.drop k0 ++ EvqOp.pushed ops).take k1 := by
        have h := @List.take_append _ (q.head.take k0) (q.head.drop k0 ++ EvqOp.pushed ops) k1
        rwa [hlen] at h
      have hdk : (q.head.take k0 ++ (q.head.drop k0 ++ EvqOp.pushed ops)).drop (k0 + k1)
          = (q.head.drop k0 ++ EvqOp.pushed ops).drop k1 := by
        have h := @List.drop_append _ (q.head.take k0) (q.head.drop k0 ++ EvqOp.pushed ops) k1
        rwa [hlen] at h
      refine ⟨k0 + k1, ?_, ?_⟩
      · simp only [evq_run, EvqOp.pushed]
        rw [hpre, h1, hsplit, htk, List.flatten_append]
      · simp only [evq_run, EvqOp.pushed]
        rw [h2, hsplit, hdk]

/-- C1: on an initially empty queue, for every interleaving of pushes (whose
allocation succeeds) and copy-outs of any capacity, the bytes returned by the
copy-outs, followed by the records still queued, are the pushed records in push
order; the split falls between two records. -/
theorem evq_fifo_concat (q : evq_s) (ops : List EvqOp) (hempty : q.head = [])
    (hok : ∀ op ∈ ops, op.ok) :
    (evq_run q ops).2 ++ (evq_run q ops).1.head.flatten = (EvqOp.pushed ops).flatten ∧
      ∃ k, (evq_run q ops).2 = ((EvqOp.pushed ops).take k).flatten ∧
        (evq_run q ops).1.head = (EvqOp.pushed ops).drop k := by
  obtain ⟨k, h1, h2⟩ := evq_run_fifo ops q hok
  rw [hempty, List.nil_append] at h1 h2
  refine ⟨?_, k, h1, h2⟩
  rw [h1, h2, ← List.flatten_append, List.take_append_drop]

/-- Witness of C1: the sample run satisfies the hypotheses. -/
theorem evq_fifo_concat_witness :
    (evq_empty.head = [] ∧ ∀ op ∈ sample_evq_ops, op.ok) ∧
    ((evq_run evq_empty sample_evq_ops).2 ++ (evq_run evq_empty sample_evq_ops).1.head.flatten
        = (EvqOp.pushed sample_evq_ops).flatten ∧
      ∃ k, (evq_run evq_empty sample_evq_ops).2
          = ((EvqOp.pushed sample_evq_ops).take k).flatten ∧
        (evq_run evq_empty sample_evq_ops).1.head = (EvqOp.pushed sample_evq_ops).drop k) :=
  ⟨⟨rfl, by decide⟩, evq_fifo_concat evq_empty sample_evq_ops rfl (by decide)⟩

/-! ## Frame lemmas: what the emitters and the small helpers leave alone -/

theorem malloc_all_ok (m : heap_s) (h : m.all_ok) : m.malloc.1 = true ∧ m.malloc.2.all_ok := by
  unfold heap_s.malloc
  cases hp : m.plan with
  | nil => exact ⟨rfl, h⟩
  | cons b rest =>
    have hb : b = true := h b (by simp [hp])
    refine ⟨hb, ?_⟩
    intro x hx
    exact h x (by simp [hp, hx])

@[simp] theorem malloc_freed (m : heap_s) : m.malloc.2.freed = m.freed := by
  unfold heap_s.malloc
  split <;> rfl

@[simp] theorem malloc_next_addr (m : heap_s) : m.malloc.2.next_addr = m.next_addr := by
  unfold heap_s.malloc
  split <;> rfl

@[simp] theorem emit_bytes_tbl (L : lib_s) (sz : Nat) (b : List UInt8) :
    (emit_bytes L sz b).tbl = L.tbl := by
  unfold emit_bytes
  dsimp only
  split <;> rfl

@[simp] theorem emit_bytes_api (L : lib_s) (sz : Nat) (b : List UInt8) :
    (emit_bytes L sz b).api = L.api := by
  unfold emit_bytes
  dsimp only
  split <;> rfl

@[simp] theorem emit_bytes_freed (L : lib_s) (sz : Nat) (b : List UInt8) :
    (emit_bytes L sz b).heap.freed = L.heap.freed := by
  unfold emit_bytes
  dsimp only
  split <;> simp

/-- With every allocation succeeding an emitter appends its record. -/
theorem emit_bytes_ok (L : lib_s) (sz : Nat) (b : List UInt8) (h : L.heap.all_ok) :
    (emit_bytes L sz b).q.head = L.q.head ++ [b.take sz] ∧ (emit_bytes L sz b).heap.all_ok := by
  obtain ⟨h1, h2⟩ := malloc_all_ok L.heap h
  obtain ⟨h3, h4⟩ := malloc_all_ok L.heap.malloc.2 h2
  unfold emit_bytes
  simp [h1, h3, evq_push_head_ok, h4]

/-- When the first allocation fails an emitter leaves the queue alone. -/
theorem emit_bytes_oom (L : lib_s) (sz : Nat) (b : List UInt8) (h : L.heap.malloc.1 = false) :
    (emit_bytes L sz b).q = L.q := by
  unfold emit_bytes
  simp [h]

@[simp] theorem emit_conn_closed_tbl (L : lib_s) (a b c : Nat) :
    (emit_conn_closed L a b c).tbl = L.tbl := by simp [emit_conn_closed]

@[simp] theorem emit_conn_closed_api (L : lib_s) (a b c : Nat) :
    (emit_conn_closed L a b c).api = L.api := by simp [emit_conn_closed]

@[simp] theorem emit_conn_closed_freed (L : lib_s) (a b c : Nat) :
    (emit_conn_closed L a b c).heap.freed = L.heap.freed := by simp [emit_conn_closed]

@[simp] theorem emit_conn_connected_tbl (L : lib_s) (a : Nat) (p : bvcq_addr) :
    (emit_conn_connected L a p).tbl = L.tbl := by simp [emit_conn_connected]

@[simp] theorem emit_conn_accepted_tbl (L : lib_s) (a b : Nat) (p : bvcq_addr) :
    (emit_conn_accepted L a b p).tbl = L.tbl := by simp [emit_conn_accepted]

@[simp] theorem emit_conn_cert_required_tbl (L : lib_s) (a : Nat) :
    (emit_conn_cert_required L a).tbl = L.tbl := by simp [emit_conn_cert_required]

@[simp] theorem emit_stream_opened_tbl (L : lib_s) (a b : Nat) (c : Bool) :
    (emit_stream_opened L a b c).tbl = L.tbl := by simp [emit_stream_opened]

@[simp] theorem emit_stream_writable_tbl (L : lib_s) (a : Nat) :
    (emit_stream_writable L a).tbl = L.tbl := by simp [emit_stream_writable]

@[simp] theorem emit_stream_read_tbl (L : lib_s) (a : Nat) (f : Bool) (b : List UInt8) (n : Nat) :
    (emit_stream_read L a f b n).tbl = L.tbl := by simp [emit_stream_read]

@[simp] theorem emit_dgram_read_tbl (L : lib_s) (a : Nat) (b : List UInt8) (n : Nat) :
    (emit_dgram_read L a b n).tbl = L.tbl := by simp [emit_dgram_read]

@[simp] theorem call_tbl (L : lib_s) (c : api_call) : (L.call c).tbl = L.tbl := rfl

@[simp] theorem call_q (L : lib_s) (c : api_call) : (L.call c).q = L.q := rfl

@[simp] theorem call_heap (L : lib_s) (c : api_call) : (L.call c).heap = L.heap := rfl

@[simp] theorem call_api (L : lib_s) (c : api_call) : (L.call c).api = L.api ++ [c] := rfl

@[simp] theorem free_ctx_tbl (L : lib_s) (a : Nat) : (L.free_ctx a).tbl = L.tbl := rfl

@[simp] theorem store_conn_conns (L : lib_s) (c : conn_t) :
    (L.store_conn c).tbl.conns = conns_store L.tbl.conns c.id c := rfl

@[simp] theorem store_conn_strms (L : lib_s) (c : conn_t) :
    (L.store_conn c).tbl.strms = L.tbl.strms := rfl

@[simp] theorem store_conn_q (L : lib_s) (c : conn_t) : (L.store_conn c).q = L.q := rfl

@[simp] theorem store_conn_api (L : lib_s) (c : conn_t) : (L.store_conn c).api = L.api := rfl

@[simp] theorem store_conn_heap (L : lib_s) (c : conn_t) : (L.store_conn c).heap = L.heap := rfl

@[simp] theorem store_strm_conns (L : lib_s) (s : strm_t) :
    (L.store_strm s).tbl.conns = L.tbl.conns := rfl

theorem on_stream_emit_loop_tbl (sid : Nat) (fin : Bool) (count : Nat) :
    ∀ (bufs : List (List UInt8)) (L : lib_s) (i : Nat),
      (on_stream_emit_loop sid fin count L i bufs).tbl = L.tbl := by
  intro bufs
  induction bufs with
  | nil => intro L i; rfl
  | cons b bufs ih =>
    intro L i
    simp [on_stream_emit_loop, ih]

/-! ## The registry: lookups after a store -/

/-- A record found by id carries that id. -/
theorem find_conn_id {cs : List conn_t} {id : Nat} {c : conn_t}
    (h : cs.find? (fun x => x.id == id) = some c) : c.id = id := by
  have := List.find?_some h
  simpa using this

/-- Lookup by id after a write through a pointer obtained by a lookup. -/
theorem find_conns_store (cs : List conn_t) (id0 id : Nat) (c1 : conn_t) (hid : c1.id = id0) :
    (conns_store cs id0 c1).find? (fun x => x.id == id)
      = if id = id0 then (cs.find? (fun x => x.id == id0)).map (fun _ => c1)
        else cs.find? (fun x => x.id == id) := by
  induction cs with
  | nil => simp [conns_store]
  | cons x xs ih =>
    by_cases hx : x.id = id0
    · by_cases hi : id = id0
      · simp [conns_store, hx, hi, hid, List.find?_cons]
      · have hb : (id0 == id) = false := beq_false_of_ne (fun h => hi h.symm)
        simp [conns_store, hx, hi, List.find?_cons, hid, hb]
    · by_cases hi : id = id0
      · subst hi
        simp [conns_store, hx, List.find?_cons, ih]
      · simp only [conns_store, beq_iff_eq, hx, if_false, List.find?_cons, ih, hi]

/-! ## `closing` is sticky -/

theorem closing_kept_refl (t : tbl_s) : closing_kept t t := fun _ h => h

theorem closing_kept_of_conns {t t1 : tbl_s} (h : t1.conns = t.conns) : closing_kept t t1 := by
  intro id ⟨c, hc, hcl⟩
  exact ⟨c, by simpa [tbl_find_conn, h] using hc, hcl⟩

theorem closing_kept_trans {t t1 t2 : tbl_s} (h1 : closing_kept t t1) (h2 : closing_kept t1 t2) :
    closing_kept t t2 := fun id h => h2 id (h1 id h)

/-- A write through a looked-up pointer that does not clear `closing`. -/
theorem closing_kept_store (t t1 : tbl_s) (c0 c1 : conn_t)
    (hfind : tbl_find_conn t c1.id = some c0) (hmono : c0.closing = true → c1.closing = true)
    (ht1 : t1.conns = conns_store t.conns c1.id c1) : closing_kept t t1 := by
  intro id ⟨c, hc, hcl⟩
  unfold tbl_closing tbl_find_conn at *
  rw [ht1, find_conns_store _ _ _ _ rfl]
  by_cases hi : id = c1.id
  · subst hi
    rw [hfind] at hc
    cases hc
    exact ⟨c1, by simp [hfind], hmono hcl⟩
  · exact ⟨c, by simp [hi, hc], hcl⟩

/-- Appending a record keeps every earlier lookup. -/
theorem closing_kept_append (t t1 : tbl_s) (c : conn_t) (ht1 : t1.conns = t.conns ++ [c]) :
    closing_kept t t1 := by
  intro id ⟨c0, hc, hcl⟩
  refine ⟨c0, ?_, hcl⟩
  unfold tbl_find_conn at *
  rw [ht1, List.find?_append, hc]
  rfl

theorem on_connection_closing_kept (B : build_cfg) (L : lib_s) (h : HQUIC)
    (e : QUIC_CONNECTION_EVENT) : closing_kept L.tbl (on_connection B L h e).1.tbl := by
  unfold on_connection
  cases e with
  | CONNECTED peer =>
    dsimp only
    split
    · exact closing_kept_refl _
    · exact closing_kept_of_conns (by simp)
  | PEER_CERTIFICATE_RECEIVED =>
    dsimp only
    split
    · exact closing_kept_refl _
    · split
      · rename_i cc hcc
        exact closing_kept_store _ _ cc { cc with cert_deferred := true }
          (by simpa [find_conn_id hcc] using hcc) (fun x => x) (by simp)
      · exact closing_kept_of_conns (by simp)
  | PEER_STREAM_STARTED s uni =>
    dsimp only
    split
    · exact closing_kept_refl _
    · exact closing_kept_of_conns (by simp [tbl_add_strm, tbl_newid])
  | DATAGRAM_RECEIVED buf =>
    dsimp only
    split
    · exact closing_kept_refl _
    · split
      · exact closing_kept_of_conns (by simp)
      · exact closing_kept_refl _
  | DATAGRAM_SEND_STATE_CHANGED ctx st =>
    dsimp only
    split
    · rename_i cc hcc
      have hst : closing_kept L.tbl
          ((L.store_conn (unlink_dgsend_ctx cc ctx)).free_ctx ctx).tbl := by
        have hid : (unlink_dgsend_ctx cc ctx).id = cc.id := by
          unfold unlink_dgsend_ctx
          split <;> rfl
        have hclo : (unlink_dgsend_ctx cc ctx).closing = cc.closing := by
          unfold unlink_dgsend_ctx
          split <;> rfl
        exact closing_kept_store _ _ cc (unlink_dgsend_ctx cc ctx)
          (by rw [hid]; simpa [find_conn_id hcc] using hcc) (by rw [hclo]; exact fun x => x)
          (by simp)
      split
      · split
        · exact hst
        · exact closing_kept_refl _
      · split
        · exact hst
        · exact closing_kept_refl _
    · split
      · exact closing_kept_of_conns (by simp)
      · exact closing_kept_refl _
  | SHUTDOWN_COMPLETE =>
    dsimp only
    split
    · rename_i cc hcc
      split
      · exact closing_kept_refl _
      · exact closing_kept_store _ _ cc { cc with closed_emitted := true }
          (by simpa [find_conn_id hcc] using hcc) (fun x => x) (by simp)
    · exact closing_kept_of_conns (by simp)
  | OTHER => exact closing_kept_refl _

theorem on_stream_closing_kept (L : lib_s) (s ctx : HQUIC) (e : QUIC_STREAM_EVENT) :
    closing_kept L.tbl (on_stream L s ctx e).1.tbl := by
  apply closing_kept_of_conns
  unfold on_stream
  cases e with
  | RECEIVE total bufs fin =>
    dsimp only
    repeat' split
    all_goals simp [on_stream_emit_loop_tbl]
  | SEND_COMPLETE =>
    dsimp only
    repeat' split
    all_goals simp
  | OTHER => rfl

theorem conn_close_closing_kept (L : lib_s) (id code : Nat) :
    ∃ L1, bvc_quic_conn_close (some L) id code = some L1 ∧ closing_kept L.tbl L1.tbl := by
  unfold bvc_quic_conn_close
  dsimp only
  split
  · exact ⟨L, rfl, closing_kept_refl _⟩
  · rename_i cc hcc
    split
    · exact ⟨L, rfl, closing_kept_refl _⟩
    · split
      · exact ⟨L, rfl, closing_kept_refl _⟩
      · refine ⟨_, rfl, ?_⟩
        have hid := find_conn_id hcc
        refine closing_kept_trans
          (closing_kept_store L.tbl (L.store_conn { cc with closing := true }).tbl cc
            { cc with closing := true } (by simpa [hid] using hcc) (fun _ => rfl) (by simp)) ?_
        refine closing_kept_store _ _ { cc with closing := true }
          { cc with closing := true, closed_emitted := true, dgram_head := [], h := 0 } ?_
          (fun _ => rfl) (by simp [free_all_dgsends])
        have hcc1 : L.tbl.conns.find? (fun c => c.id == id) = some cc := hcc
        simp [tbl_find_conn, find_conns_store, hid, hcc1]

theorem cert_complete_closing_kept (L : lib_s) (c : Nat) (accept : Bool) (alert : Nat)
    (st : QUIC_STATUS) :
    ∃ L1, (bvc_quic_conn_cert_complete (some L) c accept alert st).1 = some L1
      ∧ closing_kept L.tbl L1.tbl := by
  unfold bvc_quic_conn_cert_complete
  dsimp only
  split
  · exact ⟨L, rfl, closing_kept_refl _⟩
  · rename_i cc hcc
    split
    · exact ⟨L, rfl, closing_kept_refl _⟩
    · split
      · exact ⟨L, rfl, closing_kept_refl _⟩
      · refine ⟨_, rfl, ?_⟩
        split
        · exact closing_kept_store _ _ cc { cc with cert_deferred := false }
            (by simpa [find_conn_id hcc] using hcc) (fun x => x) (by simp)
        · exact closing_kept_of_conns (by simp)

theorem enable_datagrams_tbl (B : build_cfg) (X : lib_s) (h : HQUIC) :
    (enable_datagrams_on_conn B X h).tbl = X.tbl := by
  unfold enable_datagrams_on_conn
  repeat' split
  all_goals rfl

theorem connect_closing_kept (B : build_cfg) (L : lib_s) (cfg_id : Nat) (ip out_conn : Bool)
    (port : Nat) (st_open : QUIC_STATUS) (conn : HQUIC) (st_start : QUIC_STATUS) :
    ∃ L1, (bvc_quic_connect B (some L) cfg_id ip out_conn port st_open conn st_start).1 = some L1
      ∧ closing_kept L.tbl L1.tbl := by
  unfold bvc_quic_connect
  dsimp only
  split
  · exact ⟨L, rfl, closing_kept_refl _⟩
  · split
    · exact ⟨L, rfl, closing_kept_refl _⟩
    · split
      · exact ⟨L, rfl, closing_kept_refl _⟩
      · split
        · exact ⟨_, rfl, closing_kept_of_conns rfl⟩
        · split
          · refine ⟨_, rfl, closing_kept_of_conns ?_⟩
            simp [enable_datagrams_tbl]
          · refine ⟨_, rfl, closing_kept_append _ _ (tbl_add_conn L.tbl conn).1 ?_⟩
            simp [tbl_add_conn, tbl_newid, enable_datagrams_tbl]

theorem listener_new_connection_closing_kept (B : build_cfg) (L : lib_s) (lst conn : HQUIC)
    (st_cfg : QUIC_STATUS) (peer : bvcq_addr) :
    ∃ L1, (on_listener_new_connection B (some L) lst conn st_cfg peer).1 = some L1
      ∧ closing_kept L.tbl L1.tbl := by
  unfold on_listener_new_connection
  dsimp only
  split
  · exact ⟨_, rfl, closing_kept_of_conns rfl⟩
  · split
    · exact ⟨_, rfl, closing_kept_of_conns rfl⟩
    · split
      · exact ⟨_, rfl, closing_kept_of_conns rfl⟩
      · split
        · exact ⟨_, rfl, closing_kept_of_conns rfl⟩
        · refine ⟨_, rfl, closing_kept_append _ _ (tbl_add_conn L.tbl conn).1 ?_⟩
          simp [tbl_add_conn, tbl_newid, enable_datagrams_tbl]

theorem stream_open_closing_kept (L : lib_s) (cid : Nat) (bidi out_sid : Bool)
    (st_open : QUIC_STATUS) (s : HQUIC) (st_start : QUIC_STATUS) :
    ∃ L1, (bvc_quic_stream_open (some L) cid bidi out_sid st_open s st_start).1 = some L1
      ∧ closing_kept L.tbl L1.tbl := by
  unfold bvc_quic_stream_open
  dsimp only
  split
  · exact ⟨L, rfl, closing_kept_refl _⟩
  · split
    · exact ⟨L, rfl, closing_kept_refl _⟩
    · split
      · exact ⟨L, rfl, closing_kept_refl _⟩
      · split
        · exact ⟨L, rfl, closing_kept_refl _⟩
        · split
          · exact ⟨_, rfl, closing_kept_of_conns rfl⟩
          · split
            · exact ⟨_, rfl, closing_kept_of_conns rfl⟩
            · refine ⟨_, rfl, closing_kept_of_conns ?_⟩
              simp [tbl_add_strm, tbl_newid]

theorem stream_send_closing_kept (L : lib_s) (sid : Nat) (data : Option (List UInt8))
    (fin : Bool) (flags : Nat) (st : QUIC_STATUS) :
    ∃ L1, (bvc_quic_stream_send (some L) sid data fin flags st).1 = some L1
      ∧ closing_kept L.tbl L1.tbl := by
  cases data with
  | none => exact ⟨L, rfl, closing_kept_refl _⟩
  | some d =>
    simp only [bvc_quic_stream_send]
    split
    · exact ⟨L, rfl, closing_kept_refl _⟩
    · split
      · exact ⟨L, rfl, closing_kept_refl _⟩
      · split
        · exact ⟨L, rfl, closing_kept_refl _⟩
        · split
          · exact ⟨L, rfl, closing_kept_refl _⟩
          · exact ⟨_, rfl, closing_kept_of_conns rfl⟩

theorem stream_shutdown_closing_kept (L : lib_s) (sid : Nat) :
    ∃ L1, bvc_quic_stream_shutdown (some L) sid = some L1 ∧ closing_kept L.tbl L1.tbl := by
  unfold bvc_quic_stream_shutdown
  dsimp only
  split
  · exact ⟨L, rfl, closing_kept_refl _⟩
  · split
    · exact ⟨L, rfl, closing_kept_refl _⟩
    · exact ⟨_, rfl, closing_kept_of_conns rfl⟩

theorem set_read_enabled_closing_kept (L : lib_s) (sid : Nat) (en : Bool) (st : QUIC_STATUS) :
    ∃ L1, (bvc_quic_stream_set_read_enabled (some L) sid en st).1 = some L1
      ∧ closing_kept L.tbl L1.tbl := by
  unfold bvc_quic_stream_set_read_enabled
  dsimp only
  split
  · exact ⟨L, rfl, closing_kept_refl _⟩
  · split
    · exact ⟨L, rfl, closing_kept_refl _⟩
    · split
      · exact ⟨L, rfl, closing_kept_refl _⟩
      · exact ⟨_, rfl, closing_kept_of_conns rfl⟩

theorem drain_events_closing_kept (L : lib_s) (out_buf : Option (List UInt8)) (n : Nat)
    (out_used : Option Nat) :
    ∃ L1, (bvc_quic_drain_events (some L) out_buf n out_used).1 = some L1
      ∧ closing_kept L.tbl L1.tbl := by
  cases out_buf with
  | none => exact ⟨L, rfl, closing_kept_refl _⟩
  | some buf =>
    cases out_used with
    | none => exact ⟨L, rfl, closing_kept_refl _⟩
    | some u =>
      simp only [bvc_quic_drain_events]
      split
      · exact ⟨L, rfl, closing_kept_refl _⟩
      · split
        · exact ⟨_, rfl, closing_kept_of_conns rfl⟩
        · exact ⟨_, rfl, closing_kept_of_conns rfl⟩

theorem dgram_send_closing_kept (L : lib_s) (cid : Nat) (data : Option (List UInt8))
    (st : QUIC_STATUS) :
    ∃ L1, (bvc_quic_dgram_send (some L) cid data st).1 = some L1
      ∧ closing_kept L.tbl L1.tbl := by
  cases data with
  | none => exact ⟨L, rfl, closing_kept_refl _⟩
  | some d =>
    simp only [bvc_quic_dgram_send]
    split
    · exact ⟨L, rfl, closing_kept_refl _⟩
    · split
      · exact ⟨L, rfl, closing_kept_refl _⟩
      · rename_i cc hcc
        split
        · exact ⟨L, rfl, closing_kept_refl _⟩
        · split
          · exact ⟨L, rfl, closing_kept_refl _⟩
          · split
            · exact ⟨_, rfl, closing_kept_of_conns rfl⟩
            · split
              · exact ⟨_, rfl, closing_kept_of_conns rfl⟩
              · split
                · exact ⟨_, rfl, closing_kept_of_conns rfl⟩
                · refine ⟨_, rfl, ?_⟩
                  exact closing_kept_store _ _ cc (link_dgsend_ctx cc _)
                    (by simpa [link_dgsend_ctx, find_conn_id hcc] using hcc) (fun x => x) rfl

/-- The flag `closing` is sticky: no step of the library clears the flag of a connection
or makes its record unreachable by id. -/
theorem step_closing_at (B : build_cfg) (G : Option lib_s) (op : Op) (id : Nat)
    (h : closing_at G id) : closing_at (step B G op) id := by
  obtain ⟨L, rfl, hL⟩ := h
  cases op with
  | connect cfg_id ip out_conn port st_open conn st_start =>
    obtain ⟨L1, h1, h2⟩ := connect_closing_kept B L cfg_id ip out_conn port st_open conn st_start
    exact ⟨L1, h1, h2 id hL⟩
  | conn_close c_id code =>
    obtain ⟨L1, h1, h2⟩ := conn_close_closing_kept L c_id code
    exact ⟨L1, h1, h2 id hL⟩
  | cert_complete c accept alert st =>
    obtain ⟨L1, h1, h2⟩ := cert_complete_closing_kept L c accept alert st
    exact ⟨L1, h1, h2 id hL⟩
  | stream_open cid bidi out_sid st_open s st_start =>
    obtain ⟨L1, h1, h2⟩ := stream_open_closing_kept L cid bidi out_sid st_open s st_start
    exact ⟨L1, h1, h2 id hL⟩
  | stream_send sid data fin flags st =>
    obtain ⟨L1, h1, h2⟩ := stream_send_closing_kept L sid data fin flags st
    exact ⟨L1, h1, h2 id hL⟩
  | stream_shutdown sid =>
    obtain ⟨L1, h1, h2⟩ := stream_shutdown_closing_kept L sid
    exact ⟨L1, h1, h2 id hL⟩
  | stream_set_read_enabled sid en st =>
    obtain ⟨L1, h1, h2⟩ := set_read_enabled_closing_kept L sid en st
    exact ⟨L1, h1, h2 id hL⟩
  | dgram_send cid data st =>
    obtain ⟨L1, h1, h2⟩ := dgram_send_closing_kept L cid data st
    exact ⟨L1, h1, h2 id hL⟩
  | drain_events out_buf n out_used =>
    obtain ⟨L1, h1, h2⟩ := drain_events_closing_kept L out_buf n out_used
    exact ⟨L1, h1, h2 id hL⟩
  | conn_event hc e => exact ⟨_, rfl, on_connection_closing_kept B L hc e id hL⟩
  | stream_event hs ctx e => exact ⟨_, rfl, on_stream_closing_kept L hs ctx e id hL⟩
  | listener_new_connection lst conn st_cfg peer =>
    obtain ⟨L1, h1, h2⟩ := listener_new_connection_closing_kept B L lst conn st_cfg peer
    exact ⟨L1, h1, h2 id hL⟩

theorem run_closing_at (B : build_cfg) (ops : List Op) :
    ∀ (G : Option lib_s) (id : Nat), closing_at G id → closing_at (run B G ops) id := by
  induction ops with
  | nil => intro G id h; exact h
  | cons op ops ih =>
    intro G id h
    exact ih (step B G op) id (step_closing_at B G op id h)

/-! ## `bvc_quic_conn_close` -/

theorem le_bytes_length (n v : Nat) : (le_bytes n v).length = n := by
  induction n generalizing v with
  | zero => rfl
  | succ n ih => simp [le_bytes, ih]

theorem conn_closed_record_length (cid app t : Nat) : (conn_closed_record cid app t).length = 28 := by
  simp [conn_closed_record, ev_hdr, le_bytes_length]

/-- The queue after an emitter: the record is appended exactly when both of its
allocations succeed. -/
theorem emit_bytes_q (L : lib_s) (sz : Nat) (b : List UInt8) :
    (emit_bytes L sz b).q.head
      = L.q.head ++ (if emit_allocs_ok (some L) = true then [b.take sz] else []) := by
  unfold emit_bytes emit_allocs_ok
  dsimp only
  cases h1 : L.heap.malloc.1
  · simp
  · cases h2 : L.heap.malloc.2.malloc.1
    · simp [evq_push_head_fail]
    · simp [evq_push_head_ok]

theorem emit_conn_closed_q (L : lib_s) (cid app t : Nat) :
    (emit_conn_closed L cid app t).q.head
      = L.q.head ++ (if emit_allocs_ok (some L) = true then [conn_closed_record cid app t]
          else []) := by
  have hsz : (SIZEOF_HDR + 8 + 4 + 4) % U32_MOD = 28 := by decide
  have htake : (conn_closed_record cid app t).take 28 = conn_closed_record cid app t :=
    List.take_of_length_le (by rw [conn_closed_record_length])
  unfold emit_conn_closed
  dsimp only
  rw [emit_bytes_q, hsz]
  have : ev_hdr BVCQ_EV_CONN_CLOSED 28 ++ le_bytes 8 cid ++ le_bytes 4 app ++ le_bytes 4 t
      = conn_closed_record cid app t := rfl
  rw [this, htake]

theorem all_ok_emit_allocs (L : lib_s) (h : L.heap.all_ok) : emit_allocs_ok (some L) = true := by
  obtain ⟨h1, h2⟩ := malloc_all_ok L.heap h
  obtain ⟨h3, _⟩ := malloc_all_ok L.heap.malloc.2 h2
  simp [emit_allocs_ok, h1, h3]

/-- Storing twice through the same pointer keeps the last value. -/
theorem conns_store_store (cs : List conn_t) (id : Nat) (c1 c2 : conn_t) (h1 : c1.id = id) :
    conns_store (conns_store cs id c1) id c2 = conns_store cs id c2 := by
  induction cs with
  | nil => rfl
  | cons x xs ih =>
    by_cases hx : x.id = id
    · simp [conns_store, hx, h1]
    · simp [conns_store, hx, ih]

/-- Storing back the record that is there changes nothing. -/
theorem conns_store_find (cs : List conn_t) (id : Nat) (c : conn_t) (c1 : conn_t)
    (h : cs.find? (fun x => x.id == id) = some c) (hid : c1.id = id) :
    (conns_store cs id c1).find? (fun x => x.id == id) = some c1 := by
  rw [find_conns_store _ _ _ _ hid]
  simp [h]

/-- The two ways `bvc_quic_conn_close` can go on an initialised library: an
early return that changes nothing, or the close proper, whose effects are
listed field by field. -/
theorem conn_close_effect (L : lib_s) (id code : Nat) :
    (conn_open (some L) id = false ∧ bvc_quic_conn_close (some L) id code = some L) ∨
    (conn_open (some L) id = true ∧ ∃ cc L1, tbl_find_conn L.tbl id = some cc ∧ cc.h ≠ 0 ∧
      cc.closing = false ∧ bvc_quic_conn_close (some L) id code = some L1 ∧
      L1.q.head = (emit_conn_closed L id code 0).q.head ∧
      L1.tbl.conns = conns_store L.tbl.conns id
        { cc with closing := true, closed_emitted := true, dgram_head := [], h := 0 } ∧
      L1.tbl.strms = L.tbl.strms ∧
      L1.api = L.api ++ [.ConnectionShutdown cc.h code, .ConnectionClose cc.h] ∧
      L1.heap.freed = L.heap.freed ++ cc.dgram_head.map dgsend_t.addr) := by
  unfold bvc_quic_conn_close conn_open conn_of
  dsimp only
  cases hcc : tbl_find_conn L.tbl id with
  | none => left; simp
  | some cc =>
    have hid : cc.id = id := find_conn_id hcc
    by_cases hh : cc.h = 0
    · left; simp [hh]
    · by_cases hcl : cc.closing = true
      · left; simp [hh, hcl]
      · right
        have hcl1 : cc.closing = false := by simpa using hcl
        dsimp only
        rw [if_neg hh, if_neg hcl]
        refine ⟨by simp [hh, hcl1], cc, _, rfl, hh, hcl1, rfl, ?_, ?_, ?_, ?_, ?_⟩
        · simp only [store_conn_q, call_q, emit_conn_closed_q, hid]
          rfl
        · simp [free_all_dgsends, hid, conns_store_store]
        · simp
        · simp [free_all_dgsends]
        · simp [free_all_dgsends]

theorem conn_close_none (id code : Nat) : bvc_quic_conn_close none id code = none := rfl

/-- After the close proper the record of `id` has no handle, so a further
`bvc_quic_conn_close` takes the early return. -/
theorem conn_open_after_close (L L1 : lib_s) (id : Nat) (cc c1 : conn_t)
    (hfind : tbl_find_conn L.tbl id = some cc) (hid : c1.id = id) (hh : c1.h = 0)
    (hconns : L1.tbl.conns = conns_store L.tbl.conns id c1) :
    conn_open (some L1) id = false := by
  have : tbl_find_conn L1.tbl id = some c1 := by
    unfold tbl_find_conn
    rw [hconns]
    exact conns_store_find _ _ cc _ hfind hid
  simp [conn_open, conn_of, this, hh]

/-- The call `bvc_quic_conn_close` on an open connection is `conn_close_in_engine`
followed by the clearing of the handle; on any other state both change
nothing. -/
theorem conn_close_finishes (L : lib_s) (id code : Nat) :
    (conn_open (some L) id = false ∧ conn_close_in_engine (some L) id code = some L ∧
      bvc_quic_conn_close (some L) id code = some L) ∨
    (conn_open (some L) id = true ∧ ∃ L1 c1, conn_close_in_engine (some L) id code = some L1 ∧
      tbl_find_conn L1.tbl id = some c1 ∧ c1.h ≠ 0 ∧ c1.closing = true ∧
      c1.closed_emitted = true ∧ c1.dgram_head = [] ∧
      bvc_quic_conn_close (some L) id code = some (L1.store_conn { c1 with h := 0 })) := by
  unfold bvc_quic_conn_close conn_close_in_engine conn_open conn_of
  dsimp only
  cases hcc : tbl_find_conn L.tbl id with
  | none => left; simp
  | some cc =>
    have hid : cc.id = id := find_conn_id hcc
    have hcc1 : L.tbl.conns.find? (fun c => c.id == id) = some cc := hcc
    by_cases hh : cc.h = 0
    · left; simp [hh]
    · by_cases hcl : cc.closing = true
      · left; simp [hh, hcl]
      · right
        have hcl1 : cc.closing = false := by simpa using hcl
        dsimp only
        rw [if_neg hh, if_neg hcl, if_neg hh, if_neg hcl]
        refine ⟨by simp [hh, hcl1], _,
          { cc with closing := true, closed_emitted := true, dgram_head := [] }, rfl, ?_, hh, rfl,
          rfl, rfl, ?_⟩
        · simp [tbl_find_conn, free_all_dgsends, hid, conns_store_store, find_conns_store, hcc1]
        · simp [lib_s.store_conn, lib_s.call, free_all_dgsends, hid, conns_store_store]

/-- While the record is still resolved from the handle, a `SHUTDOWN_COMPLETE`
callback on a connection whose closed event was emitted changes nothing. -/
theorem shutdown_complete_suppressed_if_resolved (B : build_cfg) (L : lib_s)
    (Connection : HQUIC) (cc : conn_t)
    (hres : tbl_find_conn L.tbl (conn_id_from_h L.tbl Connection) = some cc)
    (hce : cc.closed_emitted = true) :
    on_connection B L Connection .SHUTDOWN_COMPLETE = (L, QUIC_STATUS_SUCCESS) := by
  simp [on_connection, hres, hce]

/-- C3 (evaluation of the code at the failing input): the engine reports
`SHUTDOWN_COMPLETE` for the open connection 2 (handle 7), then the caller
closes it with error code 5; two connection-closed records carrying id 2 are
pushed, the second by `bvc_quic_conn_close`, which does not test
`closed_emitted`. -/
theorem conn_closed_pushed_twice :
    queued lib_connected = [] ∧
    queued (run build_all lib_connected [.conn_event 7 .SHUTDOWN_COMPLETE, .conn_close 2 5])
      = [conn_closed_record 2 0 0, conn_closed_record 2 5 0] ∧
    closed_count 2
      (queued (run build_all lib_connected [.conn_event 7 .SHUTDOWN_COMPLETE, .conn_close 2 5]))
      = 2 := by
  decide

/-- C4 (counterexample): two library states with an empty queue.  In the first,
9999 names no connection; in the second, connection 2 was closed before and the
queue drained.  In both, `bvc_quic_conn_close` called twice pushes no
connection-closed event for the id, not exactly one. -/
theorem conn_close_twice_no_event :
    (queued lib_connected = [] ∧ conn_of lib_connected 9999 = none ∧
      closed_count 9999
        (queued (bvc_quic_conn_close (bvc_quic_conn_close lib_connected 9999 1) 9999 2)) = 0) ∧
    (queued (run build_all lib_connected
        [.conn_close 2 0, .drain_events (some (List.replicate 64 0)) 64 (some 0)]) = [] ∧
      (conn_of (run build_all lib_connected
        [.conn_close 2 0, .drain_events (some (List.replicate 64 0)) 64 (some 0)]) 2).isSome
        = true ∧
      closed_count 2
        (queued (bvc_quic_conn_close (bvc_quic_conn_close (run build_all lib_connected
          [.conn_close 2 0, .drain_events (some (List.replicate 64 0)) 64 (some 0)]) 2 1) 2 2))
        = 0) := by
  decide

/-- C4 (amended): for every library state and id, a second
`bvc_quic_conn_close` leaves the whole state (registry, queue, engine trace,
heap) as the first one left it; the two calls together push exactly one
connection-closed record, carrying `id`, the first code and transport error 0,
when `id` resolves to a record with a native handle that is not closing and the
two allocations of the emitter succeed, and push nothing otherwise. -/
theorem conn_close_idempotent (G : Option lib_s) (id a b : Nat) :
    bvc_quic_conn_close (bvc_quic_conn_close G id a) id b = bvc_quic_conn_close G id a ∧
    queued (bvc_quic_conn_close (bvc_quic_conn_close G id a) id b)
      = queued G ++ (if conn_open G id = true ∧ emit_allocs_ok G = true
          then [conn_closed_record id a 0] else []) := by
  cases G with
  | none => simp [conn_close_none, queued, conn_open, conn_of]
  | some L =>
    rcases conn_close_effect L id a with ⟨hopen, hret⟩ | ⟨hopen, cc, L1, hfind, _, _, hret, hq, hconns, _, _, _⟩
    · have hretb : bvc_quic_conn_close (some L) id b = some L := by
        rcases conn_close_effect L id b with ⟨_, h⟩ | ⟨h, _⟩
        · exact h
        · rw [hopen] at h
          cases h
      rw [hret, hretb]
      simp [queued, hopen]
    · have hclosed : conn_open (some L1) id = false :=
        conn_open_after_close L L1 id cc
          { cc with closing := true, closed_emitted := true, dgram_head := [], h := 0 }
          hfind (show cc.id = id from find_conn_id hfind) rfl hconns
      have hsecond : bvc_quic_conn_close (some L1) id b = some L1 := by
        rcases conn_close_effect L1 id b with ⟨_, h⟩ | ⟨h, _⟩
        · exact h
        · rw [hclosed] at h
          cases h
      rw [hret, hsecond]
      refine ⟨rfl, ?_⟩
      simp only [queued, hq, emit_conn_closed_q, hopen, true_and]

/-- Copy-out with room for everything queued takes the whole queue. -/
theorem evq_copy_out_all (q : evq_s) (out : List UInt8) (cap : Nat) (hcap : cap < SIZE_MOD)
    (hbuf : cap ≤ out.length) (hall : total_len q.head ≤ cap) :
    (evq_copy_out q out cap).2.2 = total_len q.head ∧
    (evq_copy_out q out cap).2.1 = q.head.flatten ++ out.drop (total_len q.head) ∧
    (evq_copy_out q out cap).1.head = [] := by
  obtain ⟨k, hk, _, hmax, hused, hout, hq⟩ := evq_copy_out_spec q out cap hcap hbuf
  have hkn : k = q.head.length := by
    by_contra hne
    have hlt : k < q.head.length := by omega
    have h1 := hmax hlt
    have h2 := total_len_take_mono q.head (k + 1) q.head.length (by omega)
    rw [List.take_length] at h2
    omega
  subst hkn
  rw [List.take_length] at hused hout
  exact ⟨hused, hout, by rw [hq, List.drop_length]⟩

/-- With valid arguments `bvc_quic_drain_events` is `evq_copy_out` on the
library queue; the status tells whether any byte was copied. -/
theorem drain_events_eq_copy_out (L : lib_s) (buf : List UInt8) (n u : Nat)
    (h : ¬ n < SIZEOF_HDR) :
    bvc_quic_drain_events (some L) (some buf) n (some u)
      = (some { L with q := (evq_copy_out L.q buf n).1 }, some (evq_copy_out L.q buf n).2.1,
          some (evq_copy_out L.q buf n).2.2,
          if (evq_copy_out L.q buf n).2.2 = 0 then BVCQ_ERR_AGAIN else BVCQ_OK) := by
  simp only [bvc_quic_drain_events, if_neg h]
  split
  · rename_i h0
    rw [h0]
  · rfl

/-- C5 (counterexample): connection 2 is open, not closing, no closed event
emitted, and the next allocation fails; `bvc_quic_conn_close(2, 5)` appends no
record to the queue although it marks the record closed. -/
theorem conn_close_oom_no_event :
    conn_of lib_connected_oom 2
      = some { id := 2, h := 7, read_enabled := true, cert_deferred := false,
               closing := false, closed_emitted := false, dgram_head := [] } ∧
    queued lib_connected_oom = [] ∧
    queued (bvc_quic_conn_close lib_connected_oom 2 5) = [] ∧
    conn_of (bvc_quic_conn_close lib_connected_oom 2 5) 2
      = some { id := 2, h := 0, read_enabled := true, cert_deferred := false,
               closing := true, closed_emitted := true, dgram_head := [] } := by
  decide

/-- C5 (amended): for a connection record found by `id` that has a native
handle, is not closing and has had no closed event emitted, and with the two
allocations of the emitter succeeding, `bvc_quic_conn_close(id, code)` appends exactly one
record, the connection-closed event `(id, code, 0)`; the record of `id` stays
findable with `closing` and `closed_emitted` set, an empty pending list and no
handle; every pending send context is released; the engine is asked to shut
down and close the old handle; and a drain with room for the whole queue
returns the queued bytes ending in that closed event and empties the queue. -/
theorem conn_close_emits_closed (L : lib_s) (id code : Nat) (cc : conn_t)
    (hfind : tbl_find_conn L.tbl id = some cc) (hh : cc.h ≠ 0) (hcl : cc.closing = false)
    (_hce : cc.closed_emitted = false) (halloc : emit_allocs_ok (some L) = true) :
    ∃ L1, bvc_quic_conn_close (some L) id code = some L1 ∧
      L1.q.head = L.q.head ++ [conn_closed_record id code 0] ∧
      tbl_find_conn L1.tbl id
        = some { cc with closing := true, closed_emitted := true, dgram_head := [], h := 0 } ∧
      L1.heap.freed = L.heap.freed ++ cc.dgram_head.map dgsend_t.addr ∧
      L1.api = L.api ++ [.ConnectionShutdown cc.h code, .ConnectionClose cc.h] ∧
      ∀ (buf : List UInt8) (cap used0 : Nat), cap < SIZE_MOD → cap ≤ buf.length →
        total_len L1.q.head ≤ cap →
        ∃ L2 out used,
          bvc_quic_drain_events (some L1) (some buf) cap (some used0)
            = (some L2, some out, some used, BVCQ_OK) ∧
          out.take used = L.q.head.flatten ++ conn_closed_record id code 0 ∧
          L2.q.head = [] ∧ L2.tbl = L1.tbl := by
  rcases conn_close_effect L id code with ⟨hopen, _⟩ | ⟨_, cc1, L1, hfind1, _, _, hret, hq, hconns, _, hapi, hfreed⟩
  · simp [conn_open, conn_of, hfind, hh, hcl] at hopen
  · rw [hfind] at hfind1
    cases hfind1
    have hqq : L1.q.head = L.q.head ++ [conn_closed_record id code 0] := by
      rw [hq, emit_conn_closed_q, halloc]
      rfl
    refine ⟨L1, hret, hqq, ?_, hfreed, hapi, ?_⟩
    · unfold tbl_find_conn
      rw [hconns]
      exact conns_store_find _ _ cc
        { cc with closing := true, closed_emitted := true, dgram_head := [], h := 0 }
        hfind (show cc.id = id from find_conn_id hfind)
    · intro buf cap used0 hcap hbuf hroom
      obtain ⟨hused, hout, hempty⟩ := evq_copy_out_all L1.q buf cap hcap hbuf hroom
      have htot : total_len L1.q.head = total_len L.q.head + 28 := by
        rw [hqq]
        simp [total_len, conn_closed_record_length]
      have h12 : ¬ cap < SIZEOF_HDR := by
        have : SIZEOF_HDR = 12 := rfl
        omega
      have hne : ¬ (evq_copy_out L1.q buf cap).2.2 = 0 := by omega
      refine ⟨{ L1 with q := (evq_copy_out L1.q buf cap).1 }, (evq_copy_out L1.q buf cap).2.1,
        (evq_copy_out L1.q buf cap).2.2, ?_, ?_, hempty, rfl⟩
      · simp only [bvc_quic_drain_events, if_neg h12, if_neg hne]
      · rw [hout, hused, ← total_len_flatten, List.take_left, hqq]
        simp

/-- Witness of C5: connection 2 of `lib_connected`, closed with code 5. -/
theorem conn_close_emits_closed_witness :
    (tbl_find_conn lib_connected_s.tbl 2 = some sample_conn ∧ sample_conn.h ≠ 0 ∧
      sample_conn.closing = false ∧ sample_conn.closed_emitted = false ∧
      emit_allocs_ok (some lib_connected_s) = true) ∧
    ∃ L1, bvc_quic_conn_close (some lib_connected_s) 2 5 = some L1 ∧
      L1.q.head = lib_connected_s.q.head ++ [conn_closed_record 2 5 0] ∧
      tbl_find_conn L1.tbl 2
        = some { sample_conn with closing := true, closed_emitted := true, dgram_head := [],
                                  h := 0 } ∧
      L1.heap.freed = lib_connected_s.heap.freed ++ sample_conn.dgram_head.map dgsend_t.addr ∧
      L1.api = lib_connected_s.api
        ++ [.ConnectionShutdown sample_conn.h 5, .ConnectionClose sample_conn.h] ∧
      ∀ (buf : List UInt8) (cap used0 : Nat), cap < SIZE_MOD → cap ≤ buf.length →
        total_len L1.q.head ≤ cap →
        ∃ L2 out used,
          bvc_quic_drain_events (some L1) (some buf) cap (some used0)
            = (some L2, some out, some used, BVCQ_OK) ∧
          out.take used = lib_connected_s.q.head.flatten ++ conn_closed_record 2 5 0 ∧
          L2.q.head = [] ∧ L2.tbl = L1.tbl :=
  ⟨⟨by decide, by decide, by decide, by decide, by decide⟩,
    conn_close_emits_closed lib_connected_s 2 5 sample_conn (by decide) (by decide) (by decide)
      (by decide) (by decide)⟩

/-! ## Callbacks after a close -/

/-- C6 (evaluation of the code at the failing input): a datagram send on
connection 2 registers the context at address 1000; `bvc_quic_conn_close`
releases it; the completion callback the engine then delivers for that context
(state canceled, on the connection's handle 7) releases it a second time.  The
same happens, in a build with none of the state macros, when the engine raises
that callback from within the close call, before the handle is cleared. -/
theorem send_context_released_twice :
    (conn_of (run build_all lib_connected [sample_dgram_send]) 2).map
        (fun c => c.dgram_head.map dgsend_t.addr) = some [1000] ∧
    released (run build_all lib_connected [sample_dgram_send, .conn_close 2 5]) = [1000] ∧
    released (run build_all lib_connected
        [sample_dgram_send, .conn_close 2 5,
          .conn_event 7 (.DATAGRAM_SEND_STATE_CHANGED 1000 .CANCELED)]) = [1000, 1000] ∧
    released (conn_close_in_engine (run build_none lib_connected [sample_dgram_send]) 2 5)
      = [1000] ∧
    released ((conn_close_in_engine (run build_none lib_connected [sample_dgram_send]) 2 5).map
        (fun L => (on_connection build_none L 7
          (.DATAGRAM_SEND_STATE_CHANGED 1000 .CANCELED)).1)) = [1000, 1000] := by
  decide

/-- C7 (evaluation of the code at the failing input): after
`bvc_quic_conn_close(2, 5)` has emitted the closed event and cleared the handle,
a `SHUTDOWN_COMPLETE` callback on the old handle 7 resolves no record and pushes
a second connection-closed record, carrying connection id 0.  (Raised from
within the close call, while the handle is still set, the same callback pushes
nothing.) -/
theorem shutdown_complete_after_close_emits :
    queued (run build_all lib_connected [.conn_close 2 5]) = [conn_closed_record 2 5 0] ∧
    conn_id_from_h ((run build_all lib_connected [.conn_close 2 5]).getD lib_ready).tbl 7 = 0 ∧
    queued (run build_all lib_connected [.conn_close 2 5, .conn_event 7 .SHUTDOWN_COMPLETE])
      = [conn_closed_record 2 5 0, conn_closed_record 0 0 0] ∧
    (on_connection build_all lib_closing 7 .SHUTDOWN_COMPLETE).1.q.head
      = [conn_closed_record 2 5 0] := by
  decide

/-- C8 (counterexample): no connection record holds handle 7, and a
`PEER_STREAM_STARTED` callback on it still records a stream (parent id 0) and
pushes a stream-opened event. -/
theorem unresolved_callback_not_suppressed :
    tbl_find_conn lib_ready.tbl (conn_id_from_h lib_ready.tbl 7) = none ∧
    lib_ready.tbl.strms = [] ∧ lib_ready.q.head = [] ∧
    (on_connection build_all lib_ready 7 (.PEER_STREAM_STARTED 9 false)).1.tbl.strms
      = [{ id := 2, h := 9, conn_id := 0, read_enabled := true, bidi := true }] ∧
    (on_connection build_all lib_ready 7 (.PEER_STREAM_STARTED 9 false)).1.q.head.length = 1 := by
  decide

/-- C8 (amended): when the owning connection record is resolved from the native
handle and its `closing` flag is set, the connected, certificate-received,
peer-stream-started and datagram-received callbacks leave the whole library
state as it is, and so does the stream send-complete callback; the stream
receive callback only acknowledges the receive to the engine. -/
theorem callbacks_suppressed_when_closing (B : build_cfg) (L : lib_s) (Connection : HQUIC)
    (cc : conn_t)
    (hres : tbl_find_conn L.tbl (conn_id_from_h L.tbl Connection) = some cc)
    (hcl : cc.closing = true) :
    (∀ peer, (on_connection B L Connection (.CONNECTED peer)).1 = L) ∧
    (on_connection B L Connection .PEER_CERTIFICATE_RECEIVED).1 = L ∧
    (∀ s uni, (on_connection B L Connection (.PEER_STREAM_STARTED s uni)).1 = L) ∧
    (∀ buf, (on_connection B L Connection (.DATAGRAM_RECEIVED buf)).1 = L) ∧
    (Connection ≠ 0 → conn_id_from_h L.tbl Connection ≠ 0 → ∀ Stream,
      (∀ total bufs fin, (on_stream L Stream Connection (.RECEIVE total bufs fin)).1
          = L.call (.StreamReceiveComplete Stream total)) ∧
      (on_stream L Stream Connection .SEND_COMPLETE).1 = L) := by
  refine ⟨?_, ?_, ?_, ?_, ?_⟩
  · intro peer
    simp [on_connection, hres, hcl]
  · simp [on_connection, hres, hcl]
  · intro s uni
    simp [on_connection, hres, hcl]
  · intro buf
    simp [on_connection, hres, hcl]
  · intro h0 hid Stream
    refine ⟨?_, ?_⟩
    · intro total bufs fin
      simp [on_stream, h0, hid, hres, hcl]
    · simp [on_stream, h0, hid, hres, hcl]

/-- Witness of C8: the library in the middle of closing connection 2. -/
theorem callbacks_suppressed_when_closing_witness :
    (tbl_find_conn lib_closing.tbl (conn_id_from_h lib_closing.tbl 7)
        = some { sample_conn with closing := true, closed_emitted := true } ∧
      ({ sample_conn with closing := true, closed_emitted := true } : conn_t).closing = true) ∧
    ((∀ peer, (on_connection build_all lib_closing 7 (.CONNECTED peer)).1 = lib_closing) ∧
    (on_connection build_all lib_closing 7 .PEER_CERTIFICATE_RECEIVED).1 = lib_closing ∧
    (∀ s uni, (on_connection build_all lib_closing 7 (.PEER_STREAM_STARTED s uni)).1
        = lib_closing) ∧
    (∀ buf, (on_connection build_all lib_closing 7 (.DATAGRAM_RECEIVED buf)).1 = lib_closing) ∧
    ((7 : HQUIC) ≠ 0 → conn_id_from_h lib_closing.tbl 7 ≠ 0 → ∀ Stream,
      (∀ total bufs fin, (on_stream lib_closing Stream 7 (.RECEIVE total bufs fin)).1
          = lib_closing.call (.StreamReceiveComplete Stream total)) ∧
      (on_stream lib_closing Stream 7 .SEND_COMPLETE).1 = lib_closing)) :=
  ⟨⟨by decide, rfl⟩,
    callbacks_suppressed_when_closing build_all lib_closing 7
      { sample_conn with closing := true, closed_emitted := true } (by decide) rfl⟩

/-! ## Sends after a close -/

/-- A datagram send on a connection whose record is closing is refused and
changes nothing. -/
theorem dgram_send_closing (L : lib_s) (id : Nat) (data : Option (List UInt8))
    (st : QUIC_STATUS) (h : tbl_closing L.tbl id) :
    (bvc_quic_dgram_send (some L) id data st).1 = some L ∧
    (bvc_quic_dgram_send (some L) id data st).2 ≠ BVCQ_OK := by
  obtain ⟨c, hc, hcl⟩ := h
  cases data with
  | none => exact ⟨rfl, by simp [bvc_quic_dgram_send]⟩
  | some d =>
    simp only [bvc_quic_dgram_send, hc]
    split
    · exact ⟨rfl, by simp⟩
    · split
      · exact ⟨rfl, by simp⟩
      · exact ⟨rfl, by simp⟩

/-- A stream send on a stream whose parent connection is closing is refused
and changes nothing; with valid arguments and a live stream handle the status
is `BVCQ_ERR_BADARG`. -/
theorem stream_send_closing (L : lib_s) (sid : Nat) (s : strm_t) (data : Option (List UInt8))
    (fin : Bool) (flags : Nat) (st : QUIC_STATUS)
    (hs : tbl_find_strm L.tbl sid = some s) (h : tbl_closing L.tbl s.conn_id) :
    (bvc_quic_stream_send (some L) sid data fin flags st).1 = some L ∧
    (bvc_quic_stream_send (some L) sid data fin flags st).2 ≠ BVCQ_OK ∧
    (∀ d, data = some d → d ≠ [] → s.h ≠ 0 →
      (bvc_quic_stream_send (some L) sid data fin flags st).2 = BVCQ_ERR_BADARG) := by
  obtain ⟨c, hc, hcl⟩ := h
  cases data with
  | none => exact ⟨rfl, by simp [bvc_quic_stream_send], by simp⟩
  | some d =>
    simp only [bvc_quic_stream_send, hs, hc, hcl]
    split
    · rename_i hd
      refine ⟨rfl, by simp, ?_⟩
      intro d1 hd1 hne _
      cases hd1
      exact absurd (List.length_eq_zero.mp hd) hne
    · split
      · rename_i hh
        refine ⟨rfl, by simp, ?_⟩
        intro _ _ _ hne
        exact absurd hh hne
      · exact ⟨rfl, by simp, fun _ _ _ _ => by simp⟩

/-- After `bvc_quic_conn_close` on a known connection whose record, if it has
no handle, is already closing, the record is closing. -/
theorem conn_close_closing_at (G : Option lib_s) (id code : Nat) (c : conn_t)
    (hfind : conn_of G id = some c) (hinv : c.h = 0 → c.closing = true) :
    closing_at (bvc_quic_conn_close G id code) id := by
  cases G with
  | none => simp [conn_of] at hfind
  | some L =>
    have hfind1 : tbl_find_conn L.tbl id = some c := hfind
    rcases conn_close_effect L id code with ⟨hopen, hret⟩ | ⟨_, cc, L1, hcc, _, _, hret, _, hconns, _, _, _⟩
    · refine ⟨L, hret, c, hfind1, ?_⟩
      simp only [conn_open, conn_of, hfind1] at hopen
      by_cases hh : c.h = 0
      · exact hinv hh
      · simpa [hh] using hopen
    · refine ⟨L1, hret,
        { cc with closing := true, closed_emitted := true, dgram_head := [], h := 0 }, ?_, rfl⟩
      unfold tbl_find_conn
      rw [hconns]
      exact conns_store_find _ _ cc
        { cc with closing := true, closed_emitted := true, dgram_head := [], h := 0 }
        hcc (show cc.id = id from find_conn_id hcc)

/-- C9: once `bvc_quic_conn_close(id, _)` has returned for a known connection,
then after any further API calls and callbacks every `bvc_quic_dgram_send` on
`id` and every `bvc_quic_stream_send` on a stream whose parent connection is
`id` returns a status other than `BVCQ_OK` and leaves the whole library state
unchanged: no engine call is made and no send context is added. -/
theorem no_send_after_close (B : build_cfg) (G : Option lib_s) (id code : Nat) (c : conn_t)
    (ops : List Op) (hfind : conn_of G id = some c) (hinv : c.h = 0 → c.closing = true) :
    (∀ data st,
      (bvc_quic_dgram_send (run B (bvc_quic_conn_close G id code) ops) id data st).2 ≠ BVCQ_OK ∧
      (bvc_quic_dgram_send (run B (bvc_quic_conn_close G id code) ops) id data st).1
        = run B (bvc_quic_conn_close G id code) ops) ∧
    (∀ sid s data fin flags st,
      strm_of (run B (bvc_quic_conn_close G id code) ops) sid = some s → s.conn_id = id →
      (bvc_quic_stream_send (run B (bvc_quic_conn_close G id code) ops) sid data fin flags st).2
        ≠ BVCQ_OK ∧
      (bvc_quic_stream_send (run B (bvc_quic_conn_close G id code) ops) sid data fin flags st).1
        = run B (bvc_quic_conn_close G id code) ops) := by
  obtain ⟨L, hL, hcl⟩ :=
    run_closing_at B ops _ id (conn_close_closing_at G id code c hfind hinv)
  rw [hL]
  refine ⟨?_, ?_⟩
  · intro data st
    obtain ⟨h1, h2⟩ := dgram_send_closing L id data st hcl
    exact ⟨h2, h1⟩
  · intro sid s data fin flags st hs hpar
    have hs1 : tbl_find_strm L.tbl sid = some s := hs
    obtain ⟨h1, h2, _⟩ := stream_send_closing L sid s data fin flags st hs1 (by rw [hpar]; exact hcl)
    exact ⟨h2, h1⟩

/-- Witness of C9: connection 2 with an open stream and a pending datagram is
closed; a late stream callback and a new connect follow. -/
theorem no_send_after_close_witness :
    (conn_of (run build_all lib_connected [sample_stream_open, sample_dgram_send]) 2
        = some { sample_conn with
                  dgram_head := [{ addr := 1000, data := [100, 103, 33], len := 3 }] } ∧
      (({ sample_conn with
            dgram_head := [{ addr := 1000, data := [100, 103, 33], len := 3 }] } : conn_t).h = 0 →
        ({ sample_conn with
            dgram_head := [{ addr := 1000, data := [100, 103, 33], len := 3 }] } : conn_t).closing
          = true)) ∧
    ((∀ data st,
      (bvc_quic_dgram_send (run build_all (bvc_quic_conn_close
          (run build_all lib_connected [sample_stream_open, sample_dgram_send]) 2 5)
          [.stream_event 9 7 .SEND_COMPLETE, sample_connect]) 2 data st).2 ≠ BVCQ_OK ∧
      (bvc_quic_dgram_send (run build_all (bvc_quic_conn_close
          (run build_all lib_connected [sample_stream_open, sample_dgram_send]) 2 5)
          [.stream_event 9 7 .SEND_COMPLETE, sample_connect]) 2 data st).1
        = run build_all (bvc_quic_conn_close
          (run build_all lib_connected [sample_stream_open, sample_dgram_send]) 2 5)
          [.stream_event 9 7 .SEND_COMPLETE, sample_connect]) ∧
    (∀ sid s data fin flags st,
      strm_of (run build_all (bvc_quic_conn_close
          (run build_all lib_connected [sample_stream_open, sample_dgram_send]) 2 5)
          [.stream_event 9 7 .SEND_COMPLETE, sample_connect]) sid = some s → s.conn_id = 2 →
      (bvc_quic_stream_send (run build_all (bvc_quic_conn_close
          (run build_all lib_connected [sample_stream_open, sample_dgram_send]) 2 5)
          [.stream_event 9 7 .SEND_COMPLETE, sample_connect]) sid data fin flags st).2
        ≠ BVCQ_OK ∧
      (bvc_quic_stream_send (run build_all (bvc_quic_conn_close
          (run build_all lib_connected [sample_stream_open, sample_dgram_send]) 2 5)
          [.stream_event 9 7 .SEND_COMPLETE, sample_connect]) sid data fin flags st).1
        = run build_all (bvc_quic_conn_close
          (run build_all lib_connected [sample_stream_open, sample_dgram_send]) 2 5)
          [.stream_event 9 7 .SEND_COMPLETE, sample_connect])) :=
  ⟨⟨by decide, by decide⟩,
    no_send_after_close build_all
      (run build_all lib_connected [sample_stream_open, sample_dgram_send]) 2 5
      { sample_conn with dgram_head := [{ addr := 1000, data := [100, 103, 33], len := 3 }] }
      [.stream_event 9 7 .SEND_COMPLETE, sample_connect] (by decide) (by decide)⟩

/-- C10 (counterexample): stream 3 was opened on connection 2 and is not shut
down; after `bvc_quic_conn_close(2, 5)` a one-byte `bvc_quic_stream_send` on it
returns `BVCQ_ERR_BADARG`, not `BVCQ_ERR_NOTFOUND`. -/
theorem stream_send_after_close_not_notfound :
    strm_of (run build_all lib_connected [sample_stream_open, .conn_close 2 5]) 3
      = some { id := 3, h := 9, conn_id := 2, read_enabled := true, bidi := true } ∧
    (bvc_quic_stream_send (run build_all lib_connected [sample_stream_open, .conn_close 2 5]) 3
        (some [0]) false 0 QUIC_STATUS_SUCCESS).2 = BVCQ_ERR_BADARG ∧
    (bvc_quic_stream_send (run build_all lib_connected [sample_stream_open, .conn_close 2 5]) 3
        (some [0]) false 0 QUIC_STATUS_SUCCESS).2 ≠ BVCQ_ERR_NOTFOUND := by
  decide

/-- C10 (amended): once `bvc_quic_conn_close(id, _)` has returned for a known
connection, then after any further API calls and callbacks a
`bvc_quic_stream_send` with non-null data and `len > 0` on a stream that was
opened on `id` and still has its native handle returns `BVCQ_ERR_BADARG`. -/
theorem stream_send_after_close_badarg (B : build_cfg) (G : Option lib_s) (id code : Nat)
    (c : conn_t) (ops : List Op) (hfind : conn_of G id = some c)
    (hinv : c.h = 0 → c.closing = true) (sid : Nat) (s : strm_t) (d : List UInt8) (fin : Bool)
    (flags : Nat) (st : QUIC_STATUS)
    (hs : strm_of (run B (bvc_quic_conn_close G id code) ops) sid = some s)
    (hpar : s.conn_id = id) (hlive : s.h ≠ 0) (hd : d ≠ []) :
    (bvc_quic_stream_send (run B (bvc_quic_conn_close G id code) ops) sid (some d) fin flags
      st).2 = BVCQ_ERR_BADARG := by
  obtain ⟨L, hL, hcl⟩ :=
    run_closing_at B ops _ id (conn_close_closing_at G id code c hfind hinv)
  rw [hL] at hs ⊢
  have hs1 : tbl_find_strm L.tbl sid = some s := hs
  obtain ⟨_, _, h3⟩ :=
    stream_send_closing L sid s (some d) fin flags st hs1 (by rw [hpar]; exact hcl)
  exact h3 d rfl hd hlive

/-- Witness of C10: stream 3 on connection 2, closed with code 5, then a
stream callback, then a one-byte send. -/
theorem stream_send_after_close_badarg_witness :
    (conn_of (run build_all lib_connected [sample_stream_open]) 2 = some sample_conn ∧
      (sample_conn.h = 0 → sample_conn.closing = true) ∧
      strm_of (run build_all (bvc_quic_conn_close
          (run build_all lib_connected [sample_stream_open]) 2 5)
          [.stream_event 9 7 .SEND_COMPLETE]) 3
        = some { id := 3, h := 9, conn_id := 2, read_enabled := true, bidi := true } ∧
      ({ id := 3, h := 9, conn_id := 2, read_enabled := true, bidi := true } : strm_t).conn_id = 2 ∧
      ({ id := 3, h := 9, conn_id := 2, read_enabled := true, bidi := true } : strm_t).h ≠ 0 ∧
      ([0] : List UInt8) ≠ []) ∧
    (bvc_quic_stream_send (run build_all (bvc_quic_conn_close
        (run build_all lib_connected [sample_stream_open]) 2 5)
        [.stream_event 9 7 .SEND_COMPLETE]) 3 (some [0]) false 0 QUIC_STATUS_SUCCESS).2
      = BVCQ_ERR_BADARG :=
  ⟨⟨by decide, by decide, by decide, by decide, by decide, by decide⟩,
    stream_send_after_close_badarg build_all (run build_all lib_connected [sample_stream_open])
      2 5 sample_conn [.stream_event 9 7 .SEND_COMPLETE] (by decide) (by decide) 3
      { id := 3, h := 9, conn_id := 2, read_enabled := true, bidi := true } [0] false 0
      QUIC_STATUS_SUCCESS (by decide) (by decide) (by decide) (by decide)⟩

/-! ## Records without handle are closing -/

theorem mem_conns_store {cs : List conn_t} {id : Nat} {c1 x : conn_t}
    (h : x ∈ conns_store cs id c1) : x = c1 ∨ x ∈ cs := by
  induction cs with
  | nil => simp [conns_store] at h
  | cons y ys ih =>
    by_cases hy : y.id = id
    · simp only [conns_store, hy, beq_self_eq_true, if_true, List.mem_cons] at h
      rcases h with h | h
      · exact Or.inl h
      · exact Or.inr (List.mem_cons_of_mem _ h)
    · simp only [conns_store, beq_iff_eq, hy, if_false, List.mem_cons] at h
      rcases h with h | h
      · exact Or.inr (by simp [h])
      · rcases ih h with h1 | h1
        · exact Or.inl h1
        · exact Or.inr (List.mem_cons_of_mem _ h1)

theorem handles_ok_of_conns {t t1 : tbl_s} (h : t1.conns = t.conns) (ht : handles_ok t) :
    handles_ok t1 := by
  intro c hc
  rw [h] at hc
  exact ht c hc

theorem handles_ok_store (t t1 : tbl_s) (id : Nat) (c1 : conn_t)
    (h : t1.conns = conns_store t.conns id c1) (hc1 : c1.h = 0 → c1.closing = true)
    (ht : handles_ok t) : handles_ok t1 := by
  intro c hc
  rw [h] at hc
  rcases mem_conns_store hc with rfl | hmem
  · exact hc1
  · exact ht c hmem

theorem handles_ok_append {t t1 : tbl_s} {c : conn_t} (h : t1.conns = t.conns ++ [c])
    (hc : c.h ≠ 0) (ht : handles_ok t) : handles_ok t1 := by
  intro x hx
  rw [h] at hx
  rcases List.mem_append.mp hx with hx | hx
  · exact ht x hx
  · simp only [List.mem_singleton] at hx
    subst hx
    intro h0
    exact absurd h0 hc

theorem handles_ok_found {t : tbl_s} {id : Nat} {cc : conn_t} (ht : handles_ok t)
    (h : tbl_find_conn t id = some cc) : cc.h = 0 → cc.closing = true :=
  ht cc (List.mem_of_find?_eq_some h)

theorem on_connection_handles_ok (B : build_cfg) (L : lib_s) (h : HQUIC)
    (e : QUIC_CONNECTION_EVENT) (ht : handles_ok L.tbl) :
    handles_ok (on_connection B L h e).1.tbl := by
  unfold on_connection
  cases e with
  | CONNECTED peer =>
    dsimp only
    split
    · exact ht
    · exact handles_ok_of_conns (by simp) ht
  | PEER_CERTIFICATE_RECEIVED =>
    dsimp only
    split
    · exact ht
    · split
      · rename_i cc hcc
        have hcc0 : cc.h = 0 → cc.closing = true := handles_ok_found ht hcc
        exact handles_ok_store _ _ cc.id { cc with cert_deferred := true } (by simp) hcc0 ht
      · exact handles_ok_of_conns (by simp) ht
  | PEER_STREAM_STARTED s uni =>
    dsimp only
    split
    · exact ht
    · exact handles_ok_of_conns (by simp [tbl_add_strm, tbl_newid]) ht
  | DATAGRAM_RECEIVED buf =>
    dsimp only
    split
    · exact ht
    · split
      · exact handles_ok_of_conns (by simp) ht
      · exact ht
  | DATAGRAM_SEND_STATE_CHANGED ctx st =>
    dsimp only
    split
    · rename_i cc hcc
      have hst : handles_ok ((L.store_conn (unlink_dgsend_ctx cc ctx)).free_ctx ctx).tbl := by
        have hh : (unlink_dgsend_ctx cc ctx).h = cc.h := by
          unfold unlink_dgsend_ctx
          split <;> rfl
        have hclo : (unlink_dgsend_ctx cc ctx).closing = cc.closing := by
          unfold unlink_dgsend_ctx
          split <;> rfl
        have hid : (unlink_dgsend_ctx cc ctx).id = cc.id := by
          unfold unlink_dgsend_ctx
          split <;> rfl
        exact handles_ok_store _ _ cc.id (unlink_dgsend_ctx cc ctx) (by simp [hid])
          (by rw [hh, hclo]; exact handles_ok_found ht hcc) ht
      split
      · split
        · exact hst
        · exact ht
      · split
        · exact hst
        · exact ht
    · split
      · exact handles_ok_of_conns (by simp) ht
      · exact ht
  | SHUTDOWN_COMPLETE =>
    dsimp only
    split
    · rename_i cc hcc
      split
      · exact ht
      · have hcc0 : cc.h = 0 → cc.closing = true := handles_ok_found ht hcc
        exact handles_ok_store _ _ cc.id { cc with closed_emitted := true } (by simp) hcc0 ht
    · exact handles_ok_of_conns (by simp) ht
  | OTHER => exact ht

theorem on_stream_handles_ok (L : lib_s) (s ctx : HQUIC) (e : QUIC_STREAM_EVENT)
    (ht : handles_ok L.tbl) : handles_ok (on_stream L s ctx e).1.tbl := by
  refine handles_ok_of_conns ?_ ht
  unfold on_stream
  cases e with
  | RECEIVE total bufs fin =>
    dsimp only
    repeat' split
    all_goals simp [on_stream_emit_loop_tbl]
  | SEND_COMPLETE =>
    dsimp only
    repeat' split
    all_goals simp
  | OTHER => rfl

theorem conn_close_handles_ok (L L1 : lib_s) (id code : Nat) (ht : handles_ok L.tbl)
    (h : bvc_quic_conn_close (some L) id code = some L1) : handles_ok L1.tbl := by
  rcases conn_close_effect L id code with ⟨_, hret⟩ | ⟨_, cc, L2, _, _, _, hret, _, hconns, _, _, _⟩
  · rw [hret] at h
    cases h
    exact ht
  · rw [hret] at h
    cases h
    exact handles_ok_store _ _ id
      { cc with closing := true, closed_emitted := true, dgram_head := [], h := 0 } hconns
      (fun _ => rfl) ht

theorem cert_complete_handles_ok (L : lib_s) (c : Nat) (accept : Bool) (alert : Nat)
    (st : QUIC_STATUS) (ht : handles_ok L.tbl) :
    ∃ L1, (bvc_quic_conn_cert_complete (some L) c accept alert st).1 = some L1
      ∧ handles_ok L1.tbl := by
  unfold bvc_quic_conn_cert_complete
  dsimp only
  split
  · exact ⟨L, rfl, ht⟩
  · rename_i cc hcc
    split
    · exact ⟨L, rfl, ht⟩
    · split
      · exact ⟨L, rfl, ht⟩
      · refine ⟨_, rfl, ?_⟩
        split
        · have hcc0 : cc.h = 0 → cc.closing = true := handles_ok_found ht hcc
          exact handles_ok_store _ _ cc.id { cc with cert_deferred := false } (by simp) hcc0 ht
        · exact handles_ok_of_conns (by simp) ht

theorem connect_handles_ok (B : build_cfg) (L : lib_s) (cfg_id : Nat) (ip out_conn : Bool)
    (port : Nat) (st_open : QUIC_STATUS) (conn : HQUIC) (st_start : QUIC_STATUS)
    (hconn : QUIC_FAILED st_open = false → conn ≠ 0) (ht : handles_ok L.tbl) :
    ∃ L1, (bvc_quic_connect B (some L) cfg_id ip out_conn port st_open conn st_start).1 = some L1
      ∧ handles_ok L1.tbl := by
  unfold bvc_quic_connect
  dsimp only
  split
  · exact ⟨L, rfl, ht⟩
  · split
    · exact ⟨L, rfl, ht⟩
    · split
      · exact ⟨L, rfl, ht⟩
      · split
        · exact ⟨_, rfl, handles_ok_of_conns rfl ht⟩
        · rename_i hopen
          split
          · refine ⟨_, rfl, handles_ok_of_conns ?_ ht⟩
            simp [enable_datagrams_tbl]
          · refine ⟨_, rfl, @handles_ok_append L.tbl _ (tbl_add_conn L.tbl conn).1 ?_ ?_ ht⟩
            · simp [tbl_add_conn, tbl_newid, enable_datagrams_tbl]
            · exact hconn (by simpa using hopen)

theorem listener_new_connection_handles_ok (B : build_cfg) (L : lib_s) (lst conn : HQUIC)
    (st_cfg : QUIC_STATUS) (peer : bvcq_addr) (hconn : conn ≠ 0) (ht : handles_ok L.tbl) :
    ∃ L1, (on_listener_new_connection B (some L) lst conn st_cfg peer).1 = some L1
      ∧ handles_ok L1.tbl := by
  unfold on_listener_new_connection
  dsimp only
  split
  · exact ⟨_, rfl, handles_ok_of_conns rfl ht⟩
  · split
    · exact ⟨_, rfl, handles_ok_of_conns rfl ht⟩
    · split
      · exact ⟨_, rfl, handles_ok_of_conns rfl ht⟩
      · split
        · exact ⟨_, rfl, handles_ok_of_conns rfl ht⟩
        · refine ⟨_, rfl, @handles_ok_append L.tbl _ (tbl_add_conn L.tbl conn).1 ?_ hconn ht⟩
          simp [tbl_add_conn, tbl_newid, enable_datagrams_tbl]

theorem stream_open_handles_ok (L : lib_s) (cid : Nat) (bidi out_sid : Bool)
    (st_open : QUIC_STATUS) (s : HQUIC) (st_start : QUIC_STATUS) (ht : handles_ok L.tbl) :
    ∃ L1, (bvc_quic_stream_open (some L) cid bidi out_sid st_open s st_start).1 = some L1
      ∧ handles_ok L1.tbl := by
  unfold bvc_quic_stream_open
  dsimp only
  split
  · exact ⟨L, rfl, ht⟩
  · split
    · exact ⟨L, rfl, ht⟩
    · split
      · exact ⟨L, rfl, ht⟩
      · split
        · exact ⟨L, rfl, ht⟩
        · split
          · exact ⟨_, rfl, handles_ok_of_conns rfl ht⟩
          · split
            · exact ⟨_, rfl, handles_ok_of_conns rfl ht⟩
            · refine ⟨_, rfl, handles_ok_of_conns ?_ ht⟩
              simp [tbl_add_strm, tbl_newid]

theorem stream_send_handles_ok (L : lib_s) (sid : Nat) (data : Option (List UInt8))
    (fin : Bool) (flags : Nat) (st : QUIC_STATUS) (ht : handles_ok L.tbl) :
    ∃ L1, (bvc_quic_stream_send (some L) sid data fin flags st).1 = some L1
      ∧ handles_ok L1.tbl := by
  cases data with
  | none => exact ⟨L, rfl, ht⟩
  | some d =>
    simp only [bvc_quic_stream_send]
    split
    · exact ⟨L, rfl, ht⟩
    · split
      · exact ⟨L, rfl, ht⟩
      · split
        · exact ⟨L, rfl, ht⟩
        · split
          · exact ⟨L, rfl, ht⟩
          · exact ⟨_, rfl, handles_ok_of_conns rfl ht⟩

theorem stream_shutdown_handles_ok (L : lib_s) (sid : Nat) (ht : handles_ok L.tbl) :
    ∃ L1, bvc_quic_stream_shutdown (some L) sid = some L1 ∧ handles_ok L1.tbl := by
  unfold bvc_quic_stream_shutdown
  dsimp only
  split
  · exact ⟨L, rfl, ht⟩
  · split
    · exact ⟨L, rfl, ht⟩
    · exact ⟨_, rfl, handles_ok_of_conns rfl ht⟩

theorem set_read_enabled_handles_ok (L : lib_s) (sid : Nat) (en : Bool) (st : QUIC_STATUS)
    (ht : handles_ok L.tbl) :
    ∃ L1, (bvc_quic_stream_set_read_enabled (some L) sid en st).1 = some L1
      ∧ handles_ok L1.tbl := by
  unfold bvc_quic_stream_set_read_enabled
  dsimp only
  split
  · exact ⟨L, rfl, ht⟩
  · split
    · exact ⟨L, rfl, ht⟩
    · split
      · exact ⟨L, rfl, ht⟩
      · exact ⟨_, rfl, handles_ok_of_conns rfl ht⟩

theorem drain_events_handles_ok (L : lib_s) (out_buf : Option (List UInt8)) (n : Nat)
    (out_used : Option Nat) (ht : handles_ok L.tbl) :
    ∃ L1, (bvc_quic_drain_events (some L) out_buf n out_used).1 = some L1
      ∧ handles_ok L1.tbl := by
  cases out_buf with
  | none => exact ⟨L, rfl, ht⟩
  | some buf =>
    cases out_used with
    | none => exact ⟨L, rfl, ht⟩
    | some u =>
      simp only [bvc_quic_drain_events]
      split
      · exact ⟨L, rfl, ht⟩
      · split
        · exact ⟨_, rfl, handles_ok_of_conns rfl ht⟩
        · exact ⟨_, rfl, handles_ok_of_conns rfl ht⟩

theorem dgram_send_handles_ok (L : lib_s) (cid : Nat) (data : Option (List UInt8))
    (st : QUIC_STATUS) (ht : handles_ok L.tbl) :
    ∃ L1, (bvc_quic_dgram_send (some L) cid data st).1 = some L1 ∧ handles_ok L1.tbl := by
  cases data with
  | none => exact ⟨L, rfl, ht⟩
  | some d =>
    simp only [bvc_quic_dgram_send]
    split
    · exact ⟨L, rfl, ht⟩
    · split
      · exact ⟨L, rfl, ht⟩
      · rename_i cc hcc
        split
        · exact ⟨L, rfl, ht⟩
        · split
          · exact ⟨L, rfl, ht⟩
          · split
            · exact ⟨_, rfl, handles_ok_of_conns rfl ht⟩
            · split
              · exact ⟨_, rfl, handles_ok_of_conns rfl ht⟩
              · split
                · exact ⟨_, rfl, handles_ok_of_conns rfl ht⟩
                · refine ⟨_, rfl, ?_⟩
                  have hcc0 : cc.h = 0 → cc.closing = true := handles_ok_found ht hcc
                  exact handles_ok_store _ _ cc.id (link_dgsend_ctx cc _) rfl hcc0 ht

/-- The invariant `handles_ok` is kept by every step in which the engine hands
out non-null connection handles. -/
theorem step_handles_ok (B : build_cfg) (L : lib_s) (op : Op) (hop : op.engine_ok)
    (ht : handles_ok L.tbl) : ∃ L1, step B (some L) op = some L1 ∧ handles_ok L1.tbl := by
  cases op with
  | connect cfg_id ip out_conn port st_open conn st_start =>
    exact connect_handles_ok B L cfg_id ip out_conn port st_open conn st_start hop ht
  | conn_close c_id code =>
    obtain ⟨L1, h1, _⟩ := conn_close_closing_kept L c_id code
    exact ⟨L1, h1, conn_close_handles_ok L L1 c_id code ht h1⟩
  | cert_complete c accept alert st => exact cert_complete_handles_ok L c accept alert st ht
  | stream_open cid bidi out_sid st_open s st_start =>
    exact stream_open_handles_ok L cid bidi out_sid st_open s st_start ht
  | stream_send sid data fin flags st => exact stream_send_handles_ok L sid data fin flags st ht
  | stream_shutdown sid => exact stream_shutdown_handles_ok L sid ht
  | stream_set_read_enabled sid en st => exact set_read_enabled_handles_ok L sid en st ht
  | dgram_send cid data st => exact dgram_send_handles_ok L cid data st ht
  | drain_events out_buf n out_used => exact drain_events_handles_ok L out_buf n out_used ht
  | conn_event hc e => exact ⟨_, rfl, on_connection_handles_ok B L hc e ht⟩
  | stream_event hs ctx e => exact ⟨_, rfl, on_stream_handles_ok L hs ctx e ht⟩
  | listener_new_connection lst conn st_cfg peer =>
    exact listener_new_connection_handles_ok B L lst conn st_cfg peer hop ht

/-- From a library whose registry satisfies `handles_ok` (in particular one
just initialised by `tbl_init`), every run with a well-behaved engine reaches a
library whose registry satisfies it. -/
theorem run_handles_ok (B : build_cfg) (ops : List Op) :
    ∀ (L : lib_s), (∀ op ∈ ops, op.engine_ok) → handles_ok L.tbl →
      ∃ L1, run B (some L) ops = some L1 ∧ handles_ok L1.tbl := by
  induction ops with
  | nil => intro L _ ht; exact ⟨L, rfl, ht⟩
  | cons op ops ih =>
    intro L hops ht
    obtain ⟨L1, h1, ht1⟩ := step_handles_ok B L op (hops op (List.mem_cons_self _ _)) ht
    obtain ⟨L2, h2, ht2⟩ := ih L1 (fun o ho => hops o (List.mem_cons_of_mem _ ho)) ht1
    refine ⟨L2, ?_, ht2⟩
    simp only [run, List.foldl_cons, h1]
    exact h2

theorem tbl_init_handles_ok : handles_ok tbl_init := by
  intro c hc
  simp [tbl_init] at hc

/-! ## drain: the would-block and bad-argument outcomes -/

/-- The copy-out loop stops at once at a head record larger than the capacity. -/
theorem evq_copy_out_head_too_large (q : evq_s) (out : List UInt8) (cap : Nat)
    (r : List UInt8) (rest : List (List UInt8)) (hq : q.head = r :: rest)
    (hcap : cap < SIZE_MOD) (hbig : cap < r.length) :
    evq_copy_out q out cap = (q, out, 0) := by
  have hmod : cap % SIZE_MOD = cap := Nat.mod_eq_of_lt hcap
  cases q with
  | mk pr pw wp head =>
    simp only at hq
    subst hq
    simp [evq_copy_out, evq_copy_out_loop, hmod, hbig]

/-- The copy-out of an empty queue copies nothing and changes nothing. -/
theorem evq_copy_out_empty (q : evq_s) (out : List UInt8) (cap : Nat) (hq : q.head = []) :
    evq_copy_out q out cap = (q, out, 0) := by
  cases q with
  | mk pr pw wp head =>
    simp only at hq
    subst hq
    simp [evq_copy_out, evq_copy_out_loop]

/-- A drain whose copy-out copies nothing returns would-block and leaves the
library and the buffer as they are. -/
theorem drain_events_nothing (L : lib_s) (buf : List UInt8) (n u : Nat)
    (hn : SIZEOF_HDR ≤ n) (h : evq_copy_out L.q buf n = (L.q, buf, 0)) :
    bvc_quic_drain_events (some L) (some buf) n (some u)
      = (some L, some buf, some 0, BVCQ_ERR_AGAIN) := by
  rw [drain_events_eq_copy_out L buf n u (by omega), h]
  simp

/-- C13: with an empty queue, a drain into a non-null buffer of at least 12
bytes with a non-null `out_used` returns `BVCQ_ERR_AGAIN`, stores 0 in
`*out_used` whatever it held, and leaves the buffer and the whole library state
(the queue included) unchanged; this is what a drain returns right after a
drain whose capacity took the whole queue. -/
theorem drain_empty_again (L : lib_s) (buf : List UInt8) (n u : Nat)
    (hq : L.q.head = []) (hn : SIZEOF_HDR ≤ n) :
    bvc_quic_drain_events (some L) (some buf) n (some u)
      = (some L, some buf, some 0, BVCQ_ERR_AGAIN) ∧
    ∀ (L0 : lib_s) (buf0 : List UInt8) (n0 u0 : Nat),
      SIZEOF_HDR ≤ n0 → n0 < SIZE_MOD → n0 ≤ buf0.length → total_len L0.q.head ≤ n0 →
      queued (bvc_quic_drain_events (some L0) (some buf0) n0 (some u0)).1 = [] ∧
      bvc_quic_drain_events (bvc_quic_drain_events (some L0) (some buf0) n0 (some u0)).1
          (some buf) n (some u)
        = ((bvc_quic_drain_events (some L0) (some buf0) n0 (some u0)).1, some buf, some 0,
            BVCQ_ERR_AGAIN) := by
  refine ⟨drain_events_nothing L buf n u hn (evq_copy_out_empty L.q buf n hq), ?_⟩
  intro L0 buf0 n0 u0 h0 h1 h2 h3
  have hall := (evq_copy_out_all L0.q buf0 n0 h1 h2 h3).2.2
  rw [drain_events_eq_copy_out L0 buf0 n0 u0 (by omega)]
  refine ⟨hall, ?_⟩
  exact drain_events_nothing _ buf n u hn (evq_copy_out_empty _ buf n hall)

/-- C13 (witness): the freshly initialised library, a 16-byte buffer filled
with 0xCC and `*out_used = 12345`, as in tests/test_events_api.c. -/
theorem drain_empty_again_witness :
    bvc_quic_drain_events (some lib_ready) (some (List.replicate 16 0xCC)) 16 (some 12345)
      = (some lib_ready, some (List.replicate 16 0xCC), some 0, BVCQ_ERR_AGAIN) :=
  (drain_empty_again lib_ready (List.replicate 16 0xCC) 16 12345 rfl (by decide)).1

/-- C14 (counterexample): after `bvc_quic_conn_close(2, 5)` the queue holds one
28-byte record; a drain with a 12-byte buffer returns `BVCQ_ERR_AGAIN` with
`*out_used = 0`, buffer and state unchanged, and `BVCQ_ERR_AGAIN` is also
what the drain of the empty queue of `lib_ready` returns: the two outcomes
carry the same status. -/
theorem drain_too_large_same_status_as_empty :
    queued (bvc_quic_conn_close lib_connected 2 5) = [conn_closed_record 2 5 0] ∧
    bvc_quic_drain_events (bvc_quic_conn_close lib_connected 2 5)
        (some (List.replicate 12 0xCC)) 12 (some 7)
      = (bvc_quic_conn_close lib_connected 2 5, some (List.replicate 12 0xCC), some 0,
          BVCQ_ERR_AGAIN) ∧
    (bvc_quic_drain_events (some lib_ready) (some (List.replicate 12 0xCC)) 12 (some 7)).2.2.2
      = BVCQ_ERR_AGAIN := by
  decide

/-- C14 (amended): when the queue is non-empty and its head record is larger
than the capacity (at least 12), the drain returns `BVCQ_ERR_AGAIN` with
`*out_used = 0`, writes nothing to the buffer and leaves the record queued
(the whole state is unchanged); the status is the one returned for an empty
queue. -/
theorem drain_head_too_large_again (L : lib_s) (buf : List UInt8) (n u : Nat)
    (r : List UInt8) (rest : List (List UInt8)) (hq : L.q.head = r :: rest)
    (hn : SIZEOF_HDR ≤ n) (hcap : n < SIZE_MOD) (hbig : n < r.length) :
    bvc_quic_drain_events (some L) (some buf) n (some u)
      = (some L, some buf, some 0, BVCQ_ERR_AGAIN) ∧
    ∀ L0 : lib_s, L0.q.head = [] →
      (bvc_quic_drain_events (some L0) (some buf) n (some u)).2.2.2
        = (bvc_quic_drain_events (some L) (some buf) n (some u)).2.2.2 := by
  have h1 := drain_events_nothing L buf n u hn
    (evq_copy_out_head_too_large L.q buf n r rest hq hcap hbig)
  refine ⟨h1, ?_⟩
  intro L0 h0
  rw [h1, drain_events_nothing L0 buf n u hn (evq_copy_out_empty L0.q buf n h0)]

/-- C14 (witness): the closed record of connection 2 (28 bytes) against a
12-byte buffer. -/
theorem drain_head_too_large_again_witness :
    bvc_quic_drain_events (bvc_quic_conn_close lib_connected 2 5)
        (some (List.replicate 12 0xCC)) 12 (some 7)
      = (bvc_quic_conn_close lib_connected 2 5, some (List.replicate 12 0xCC), some 0,
          BVCQ_ERR_AGAIN) :=
  (drain_head_too_large_again ((bvc_quic_conn_close lib_connected 2 5).getD lib_ready)
    (List.replicate 12 0xCC) 12 7 (conn_closed_record 2 5 0) [] (by decide) (by decide)
    (by decide) (by decide)).1

/-- C15: the drain returns `BVCQ_ERR_BADARG` exactly when the library is not
initialised, `out_buf` is null, `out_used` is null or `buf_bytes` is below the
12-byte header; it then leaves the library (the queue included), the buffer
and `*out_used` as they are. -/
theorem drain_badarg_iff (G : Option lib_s) (out_buf : Option (List UInt8)) (n : Nat)
    (out_used : Option Nat) :
    ((bvc_quic_drain_events G out_buf n out_used).2.2.2 = BVCQ_ERR_BADARG
      ↔ (G = none ∨ out_buf = none ∨ out_used = none ∨ n < SIZEOF_HDR)) ∧
    (bvc_quic_drain_events G out_buf n out_used
      = if G = none ∨ out_buf = none ∨ out_used = none ∨ n < SIZEOF_HDR
        then (G, out_buf, out_used, BVCQ_ERR_BADARG)
        else bvc_quic_drain_events G out_buf n out_used) ∧
    ((bvc_quic_drain_events G out_buf n out_used).2.2.2 = BVCQ_ERR_BADARG
      ∨ (bvc_quic_drain_events G out_buf n out_used).2.2.2 = BVCQ_ERR_AGAIN
      ∨ (bvc_quic_drain_events G out_buf n out_used).2.2.2 = BVCQ_OK) := by
  cases G with
  | none => simp [bvc_quic_drain_events]
  | some L =>
    cases out_buf with
    | none => simp [bvc_quic_drain_events]
    | some buf =>
      cases out_used with
      | none => simp [bvc_quic_drain_events]
      | some u =>
        by_cases hn : n < SIZEOF_HDR
        · simp [bvc_quic_drain_events, hn]
        · rw [drain_events_eq_copy_out L buf n u hn]
          simp only [hn, or_false, reduceCtorEq, if_false, and_true, true_and]
          split <;> simp

/-! ## the shared id counter -/

theorem conns_store_ids (cs : List conn_t) (id : Nat) (c : conn_t) (h : c.id = id) :
    (conns_store cs id c).map (fun x => x.id) = cs.map (fun x => x.id) := by
  induction cs with
  | nil => rfl
  | cons x xs ih =>
    unfold conns_store
    by_cases hx : x.id = id
    · simp [hx, h]
    · simp [hx, ih]

theorem strms_store_ids (cs : List strm_t) (id : Nat) (c : strm_t) (h : c.id = id) :
    (strms_store cs id c).map (fun x => x.id) = cs.map (fun x => x.id) := by
  induction cs with
  | nil => rfl
  | cons x xs ih =>
    unfold strms_store
    by_cases hx : x.id = id
    · simp [hx, h]
    · simp [hx, ih]

theorem lsts_store_ids (cs : List lst_t) (id : Nat) (c : lst_t) (h : c.id = id) :
    (lsts_store cs id c).map (fun x => x.id) = cs.map (fun x => x.id) := by
  induction cs with
  | nil => rfl
  | cons x xs ih =>
    unfold lsts_store
    by_cases hx : x.id = id
    · simp [hx, h]
    · simp [hx, ih]

/-- One table operation: an allocation hands out the counter and advances it,
a write hands out nothing; the ids held in the table grow by what was handed
out. -/
theorem tbl_op_spec (t : tbl_s) (op : TblOp) :
    (tbl_op t op).1 = (if op.allocates = true then [t.next_id] else []) ∧
    (tbl_op t op).2.next_id
      = (if op.allocates = true then (t.next_id + 1) % SIZE_MOD else t.next_id) ∧
    (tbl_ids (tbl_op t op).2).Perm (tbl_ids t ++ (tbl_op t op).1) := by
  cases op with
  | add_conn h =>
    refine ⟨rfl, rfl, ?_⟩
    simp only [tbl_op, tbl_add_conn, tbl_newid, tbl_ids, List.map_append, List.map_cons,
      List.map_nil, List.append_assoc]
    refine List.Perm.append_left _ ?_
    exact List.perm_append_comm.trans (by simp [List.append_assoc])
  | add_strm h conn_id bidi =>
    refine ⟨rfl, rfl, ?_⟩
    simp only [tbl_op, tbl_add_strm, tbl_newid, tbl_ids, List.map_append, List.map_cons,
      List.map_nil, List.append_assoc]
    refine List.Perm.append_left _ (List.Perm.append_left _ ?_)
    exact List.perm_append_comm.trans (by simp [List.append_assoc])
  | add_lst h b cfg_id =>
    refine ⟨rfl, rfl, ?_⟩
    simp only [tbl_op, tbl_add_lst, tbl_newid, tbl_ids, List.map_append, List.map_cons,
      List.map_nil, List.append_assoc]
    refine List.Perm.append_left _ (List.Perm.append_left _ (List.Perm.append_left _ ?_))
    exact List.perm_append_comm.trans (by simp [List.append_assoc])
  | add_cfg h =>
    refine ⟨rfl, rfl, ?_⟩
    simp only [tbl_op, tbl_add_cfg, tbl_newid, tbl_ids, List.map_append, List.map_cons,
      List.map_nil, List.append_assoc]
    exact List.Perm.refl _
  | store_conn id c =>
    refine ⟨rfl, rfl, ?_⟩
    simp only [tbl_op, tbl_ids, List.append_nil]
    rw [conns_store_ids t.conns id _ rfl]
  | store_strm id c =>
    refine ⟨rfl, rfl, ?_⟩
    simp only [tbl_op, tbl_ids, List.append_nil]
    rw [strms_store_ids t.strms id _ rfl]
  | store_lst id c =>
    refine ⟨rfl, rfl, ?_⟩
    simp only [tbl_op, tbl_ids, List.append_nil]
    rw [lsts_store_ids t.lsts id _ rfl]

theorem allocations_cons (op : TblOp) (ops : List TblOp) :
    allocations (op :: ops) = (if op.allocates = true then 1 else 0) + allocations ops := by
  unfold allocations
  by_cases h : op.allocates = true
  · simp [List.filter_cons, h]
    omega
  · simp [List.filter_cons, h]

/-- A sequence of table operations from a table whose counter is `k`: while the
counter does not wrap, the ids handed out are `k, k + 1, ...` in allocation
order, whatever the kinds and the writes in between. -/
theorem tbl_run_spec (ops : List TblOp) (t : tbl_s) (k : Nat) (hk : t.next_id = k % SIZE_MOD)
    (hn : k + allocations ops ≤ SIZE_MOD) :
    (tbl_run t ops).1 = List.range' k (allocations ops) ∧
    (tbl_run t ops).2.next_id = (k + allocations ops) % SIZE_MOD ∧
    (tbl_ids (tbl_run t ops).2).Perm (tbl_ids t ++ List.range' k (allocations ops)) := by
  induction ops generalizing t k with
  | nil => simp [tbl_run, allocations, hk]
  | cons op ops ih =>
    obtain ⟨h1, h2, h3⟩ := tbl_op_spec t op
    rw [allocations_cons] at hn ⊢
    by_cases ha : op.allocates = true
    · rw [if_pos ha] at h1 h2 hn ⊢
      have hlt : k < SIZE_MOD := by omega
      have hk2 : t.next_id = k := by rw [hk, Nat.mod_eq_of_lt hlt]
      rw [hk2] at h1 h2
      obtain ⟨i1, i2, i3⟩ := ih (tbl_op t op).2 (k + 1) h2 (by omega)
      refine ⟨?_, ?_, ?_⟩
      · simp only [tbl_run]
        rw [h1, i1, Nat.add_comm 1 (allocations ops), List.range'_succ]
        rfl
      · simp only [tbl_run]
        rw [i2]
        congr 1
        omega
      · simp only [tbl_run]
        rw [Nat.add_comm 1 (allocations ops), List.range'_succ]
        refine i3.trans ?_
        rw [h1] at h3
        have := List.Perm.append_right (List.range' (k + 1) (allocations ops)) h3
        simpa [List.append_assoc] using this
    · rw [if_neg ha] at h1 h2 hn ⊢
      rw [Nat.zero_add] at hn ⊢
      rw [h1, List.append_nil] at h3
      obtain ⟨i1, i2, i3⟩ := ih (tbl_op t op).2 k (by rw [h2, hk]) (by omega)
      refine ⟨?_, ?_, ?_⟩
      · simp only [tbl_run]
        rw [h1, i1]
        rfl
      · simp only [tbl_run]
        rw [i2]
      · simp only [tbl_run]
        exact i3.trans (List.Perm.append_right _ h3)

/-- C11: on a table initialised by `tbl_init`, any sequence of `tbl_add_conn`,
`tbl_add_strm`, `tbl_add_lst` and `tbl_add_cfg` calls, interleaved with any
writes to existing records (clearing a native handle on teardown among them),
hands out the ids 1, 2, 3, ... in allocation order from the one counter: the
first id is 1, every id is greater than all ids handed out before it whatever
the kinds, so the ids are nonzero 64-bit values, pairwise distinct and never
handed out twice; the records of the four arrays hold exactly these ids, each
once.  The number of allocations is below 2^64 (the counter does not wrap). -/
theorem tbl_ids_from_shared_counter (ops : List TblOp) (hn : allocations ops < SIZE_MOD) :
    (tbl_run tbl_init ops).1 = List.range' 1 (allocations ops) ∧
    (tbl_run tbl_init ops).1.Pairwise (fun a b => a < b) ∧
    (tbl_run tbl_init ops).1.Nodup ∧
    (∀ id ∈ (tbl_run tbl_init ops).1, id ≠ 0 ∧ id < SIZE_MOD) ∧
    (tbl_ids (tbl_run tbl_init ops).2).Perm (tbl_run tbl_init ops).1 ∧
    (tbl_ids (tbl_run tbl_init ops).2).Nodup := by
  obtain ⟨h1, _, h3⟩ := tbl_run_spec ops tbl_init 1 (by decide) (by omega)
  have hp : (tbl_ids (tbl_run tbl_init ops).2).Perm (tbl_run tbl_init ops).1 := by
    rw [h1]
    simpa [tbl_ids, tbl_init] using h3
  have hnd : (List.range' 1 (allocations ops)).Nodup := List.nodup_range' 1 (allocations ops)
  refine ⟨h1, ?_, ?_, ?_, hp, ?_⟩
  · rw [h1]
    exact List.pairwise_lt_range' 1 (allocations ops)
  · rw [h1]
    exact hnd
  · intro id hid
    rw [h1, List.mem_range'_1] at hid
    omega
  · rw [h1] at hp
    exact hp.nodup_iff.mpr hnd

/-- C11 (witness): eight allocations, two of each kind, with the handles of
connection 1, stream 2 and listener 3 cleared in between, get the ids 1 to 8. -/
theorem tbl_ids_from_shared_counter_witness :
    allocations sample_tbl_ops < SIZE_MOD ∧
    (tbl_run tbl_init sample_tbl_ops).1 = [1, 2, 3, 4, 5, 6, 7, 8] :=
  ⟨by decide, (tbl_ids_from_shared_counter sample_tbl_ops (by decide)).1.trans (by decide)⟩

/-! ## ids that are not present -/

theorem find_strm_id {cs : List strm_t} {id : Nat} {c : strm_t}
    (h : cs.find? (fun x => x.id == id) = some c) : c.id = id := by
  have := List.find?_some h
  simpa using this

theorem find_lst_id {cs : List lst_t} {id : Nat} {c : lst_t}
    (h : cs.find? (fun x => x.id == id) = some c) : c.id = id := by
  have := List.find?_some h
  simpa using this

/-- Lookup of the id just written through a stream pointer. -/
theorem strms_store_find (cs : List strm_t) (id : Nat) (s s1 : strm_t)
    (h : cs.find? (fun x => x.id == id) = some s) (hid : s1.id = id) :
    (strms_store cs id s1).find? (fun x => x.id == id) = some s1 := by
  induction cs with
  | nil => simp at h
  | cons x xs ih =>
    by_cases hx : x.id = id
    · simp [strms_store, hx, hid, List.find?_cons]
    · have hxs : xs.find? (fun x => x.id == id) = some s := by
        simpa [List.find?_cons, hx] using h
      simp [strms_store, hx, List.find?_cons, ih hxs]

/-- Lookup of the id just written through a listener pointer. -/
theorem lsts_store_find (cs : List lst_t) (id : Nat) (s s1 : lst_t)
    (h : cs.find? (fun x => x.id == id) = some s) (hid : s1.id = id) :
    (lsts_store cs id s1).find? (fun x => x.id == id) = some s1 := by
  induction cs with
  | nil => simp at h
  | cons x xs ih =>
    by_cases hx : x.id = id
    · simp [lsts_store, hx, hid, List.find?_cons]
    · have hxs : xs.find? (fun x => x.id == id) = some s := by
        simpa [List.find?_cons, hx] using h
      simp [lsts_store, hx, List.find?_cons, ih hxs]

/-- After `bvc_quic_stream_shutdown` the stream id names no live stream. -/
theorem stream_shutdown_gone (L : lib_s) (sid : Nat) :
    strm_gone (bvc_quic_stream_shutdown (some L) sid) sid := by
  cases hs : tbl_find_strm L.tbl sid with
  | none => simp [bvc_quic_stream_shutdown, strm_gone, strm_of, hs]
  | some s =>
    by_cases hh : s.h = 0
    · simp [bvc_quic_stream_shutdown, strm_gone, strm_of, hs, hh]
    · have hid : s.id = sid := find_strm_id hs
      subst hid
      have heq : bvc_quic_stream_shutdown (some L) s.id
          = some (((L.call (.StreamShutdown s.h)).call (.StreamClose s.h)).store_strm
              { s with h := 0 }) := by
        simp [bvc_quic_stream_shutdown, hs, hh]
      have hf : tbl_find_strm
          (((L.call (.StreamShutdown s.h)).call (.StreamClose s.h)).store_strm
            { s with h := 0 }).tbl s.id = some { s with h := 0 } := by
        simp only [tbl_find_strm, lib_s.store_strm, lib_s.call]
        exact strms_store_find _ _ s _ hs rfl
      rw [heq]
      simp only [strm_gone, strm_of]
      rw [hf]

/-- After `bvc_quic_listener_stop` the listener id names no live listener. -/
theorem listener_stop_gone (L : lib_s) (lid : Nat) :
    lst_gone (bvc_quic_listener_stop (some L) lid) lid := by
  cases hs : tbl_find_lst L.tbl lid with
  | none => simp [bvc_quic_listener_stop, lst_gone, lst_of, hs]
  | some s =>
    by_cases hh : s.h = 0
    · simp [bvc_quic_listener_stop, lst_gone, lst_of, hs, hh]
    · have hid : s.id = lid := find_lst_id hs
      subst hid
      have heq : bvc_quic_listener_stop (some L) s.id
          = some (((L.call (.ListenerStop s.h)).call (.ListenerClose s.h)).store_lst
              { s with h := 0 }) := by
        simp [bvc_quic_listener_stop, hs, hh]
      have hf : tbl_find_lst
          (((L.call (.ListenerStop s.h)).call (.ListenerClose s.h)).store_lst
            { s with h := 0 }).tbl s.id = some { s with h := 0 } := by
        simp only [tbl_find_lst, lib_s.store_lst, lib_s.call]
        exact lsts_store_find _ _ s _ hs rfl
      rw [heq]
      simp only [lst_gone, lst_of]
      rw [hf]

/-- After `bvc_quic_conn_close` the connection id names no live connection, in a state
in which no record is left in the middle of a close. -/
theorem conn_close_gone (L : lib_s) (id code : Nat) (hinv : closing_cleared (some L)) :
    conn_gone (bvc_quic_conn_close (some L) id code) id := by
  rcases conn_close_effect L id code with ⟨hopen, heq⟩ | ⟨_, cc, L1, hfind, _, _, heq, _, hconns, _⟩
  · rw [heq]
    unfold conn_open at hopen
    unfold conn_gone
    cases hc : conn_of (some L) id with
    | none => trivial
    | some c =>
      rw [hc] at hopen
      have hmem : c ∈ L.tbl.conns := List.mem_of_find?_eq_some hc
      by_cases hh : c.h = 0
      · exact hh
      · have hcl : c.closing = true := by simpa [hh] using hopen
        exact hinv c hmem hcl
  · rw [heq]
    have hid : cc.id = id := find_conn_id hfind
    have : tbl_find_conn L1.tbl id
        = some { cc with closing := true, closed_emitted := true, dgram_head := [], h := 0 } := by
      unfold tbl_find_conn
      rw [hconns]
      exact conns_store_find _ _ cc _ hfind hid
    simp [conn_gone, conn_of, this]

/-- C12: an id for which the lookup of its kind finds no record with a native
handle (never allocated for the kind, or the handle cleared on teardown) is
reported as not present.  With otherwise valid arguments `bvc_quic_dgram_send`,
`bvc_quic_stream_open`, `bvc_quic_get_conn_handshake` and `bvc_quic_get_conn_stats` on
such a connection id, `bvc_quic_stream_send` and `bvc_quic_stream_set_read_enabled` on
such a stream id and `bvc_quic_listener_get_port` on such a listener id return
`BVCQ_ERR_NOTFOUND` with the library state (the engine trace included) and the
outputs unchanged, and `bvc_quic_stream_shutdown` / `bvc_quic_listener_stop` on it
change nothing.  The teardown calls put their id into that condition: the
stream id after `bvc_quic_stream_shutdown`, the listener id after
`bvc_quic_listener_stop`, the connection id after `bvc_quic_conn_close` (from a state
where no close is in progress). -/
theorem gone_id_not_found (B : build_cfg) (L : lib_s) (cid sid lid : Nat)
    (hc : conn_gone (some L) cid) (hs : strm_gone (some L) sid)
    (hl : lst_gone (some L) lid) :
    (∀ d st, d ≠ [] →
      bvc_quic_dgram_send (some L) cid (some d) st = (some L, BVCQ_ERR_NOTFOUND)) ∧
    (∀ bidi st_open s st_start,
      bvc_quic_stream_open (some L) cid bidi true st_open s st_start
        = (some L, none, BVCQ_ERR_NOTFOUND)) ∧
    (∀ out st hi, SIZEOF_HANDSHAKE_INFO ≤ out.size →
      bvc_quic_get_conn_handshake B (some L) cid (some out) st hi
        = (some L, some out, BVCQ_ERR_NOTFOUND)) ∧
    (∀ out, SIZEOF_CONN_STATS ≤ out.size →
      bvc_quic_get_conn_stats (some L) cid (some out) = (some L, some out, BVCQ_ERR_NOTFOUND)) ∧
    (∀ d fin flags st, d ≠ [] →
      bvc_quic_stream_send (some L) sid (some d) fin flags st = (some L, BVCQ_ERR_NOTFOUND)) ∧
    (∀ enabled st,
      bvc_quic_stream_set_read_enabled (some L) sid enabled st = (some L, BVCQ_ERR_NOTFOUND)) ∧
    (∀ st family port,
      bvc_quic_listener_get_port B (some L) lid true st family port
        = (some L, none, BVCQ_ERR_NOTFOUND)) ∧
    bvc_quic_stream_shutdown (some L) sid = some L ∧
    bvc_quic_listener_stop (some L) lid = some L ∧
    (∀ (L0 : lib_s) (id : Nat), strm_gone (bvc_quic_stream_shutdown (some L0) id) id) ∧
    (∀ (L0 : lib_s) (id : Nat), lst_gone (bvc_quic_listener_stop (some L0) id) id) ∧
    (∀ (L0 : lib_s) (id code : Nat), closing_cleared (some L0) →
      conn_gone (bvc_quic_conn_close (some L0) id code) id) := by
  unfold conn_gone conn_of at hc
  unfold strm_gone strm_of at hs
  unfold lst_gone lst_of at hl
  dsimp only at hc hs hl
  refine ⟨?_, ?_, ?_, ?_, ?_, ?_, ?_, ?_, ?_, stream_shutdown_gone, listener_stop_gone,
    conn_close_gone⟩
  · intro d st hd
    have hlen : d.length ≠ 0 := by simpa using hd
    simp only [bvc_quic_dgram_send, hlen, if_false]
    cases hf : tbl_find_conn L.tbl cid with
    | none => rfl
    | some c =>
      rw [hf] at hc
      simp [hc]
  · intro bidi st_open s st_start
    simp only [bvc_quic_stream_open]
    cases hf : tbl_find_conn L.tbl cid with
    | none => rfl
    | some c =>
      rw [hf] at hc
      simp [hc]
  · intro out st hi hsz
    have hnot : ¬ out.size < SIZEOF_HANDSHAKE_INFO := by omega
    simp only [bvc_quic_get_conn_handshake, hnot, if_false]
    cases hf : tbl_find_conn L.tbl cid with
    | none => rfl
    | some c =>
      rw [hf] at hc
      simp [hc]
  · intro out hsz
    have hnot : ¬ out.size < SIZEOF_CONN_STATS := by omega
    simp only [bvc_quic_get_conn_stats, hnot, if_false]
    cases hf : tbl_find_conn L.tbl cid with
    | none => rfl
    | some c =>
      rw [hf] at hc
      simp [hc]
  · intro d fin flags st hd
    have hlen : d.length ≠ 0 := by simpa using hd
    simp only [bvc_quic_stream_send, hlen, if_false]
    cases hf : tbl_find_strm L.tbl sid with
    | none => rfl
    | some c =>
      rw [hf] at hs
      simp [hs]
  · intro enabled st
    simp only [bvc_quic_stream_set_read_enabled]
    cases hf : tbl_find_strm L.tbl sid with
    | none => rfl
    | some c =>
      rw [hf] at hs
      simp [hs]
  · intro st family port
    simp only [bvc_quic_listener_get_port]
    cases hf : tbl_find_lst L.tbl lid with
    | none => rfl
    | some c =>
      rw [hf] at hl
      simp [hl]
  · simp only [bvc_quic_stream_shutdown]
    cases hf : tbl_find_strm L.tbl sid with
    | none => rfl
    | some c =>
      rw [hf] at hs
      simp [hs]
  · simp only [bvc_quic_listener_stop]
    cases hf : tbl_find_lst L.tbl lid with
    | none => rfl
    | some c =>
      rw [hf] at hl
      simp [hl]

/-- C12 (witness): in `lib_torn_down` connection 2, stream 4 and listener 3 have
been torn down; a datagram send on 2, a stream send on 4 and a port query on 3
return `BVCQ_ERR_NOTFOUND` and the state stays as it was. -/
theorem gone_id_not_found_witness :
    conn_gone (some lib_torn_down_s) 2 ∧ strm_gone (some lib_torn_down_s) 4 ∧
    lst_gone (some lib_torn_down_s) 3 ∧
    bvc_quic_dgram_send (some lib_torn_down_s) 2 (some [1]) QUIC_STATUS.QUIC_STATUS_SUCCESS
      = (some lib_torn_down_s, BVCQ_ERR_NOTFOUND) ∧
    bvc_quic_stream_send (some lib_torn_down_s) 4 (some [1]) false 0
        QUIC_STATUS.QUIC_STATUS_SUCCESS
      = (some lib_torn_down_s, BVCQ_ERR_NOTFOUND) ∧
    bvc_quic_listener_get_port build_all (some lib_torn_down_s) 3 true
        QUIC_STATUS.QUIC_STATUS_SUCCESS .QUIC_ADDRESS_FAMILY_INET 4433
      = (some lib_torn_down_s, none, BVCQ_ERR_NOTFOUND) :=
  have h := gone_id_not_found build_all lib_torn_down_s 2 4 3 (by decide) (by decide)
    (by decide)
  ⟨by decide, by decide, by decide, h.1 [1] _ (by decide), h.2.2.2.2.1 [1] false 0 _ (by decide),
    h.2.2.2.2.2.2.1 _ _ _⟩

/-! ## a closing record has no native handle -/

theorem closing_ok_of_conns {t t1 : tbl_s} (h : t1.conns = t.conns) (ht : closing_ok t) :
    closing_ok t1 := by
  intro c hc
  rw [h] at hc
  exact ht c hc

theorem closing_ok_store (t t1 : tbl_s) (id : Nat) (c1 : conn_t)
    (h : t1.conns = conns_store t.conns id c1) (hc1 : c1.closing = true → c1.h = 0)
    (ht : closing_ok t) : closing_ok t1 := by
  intro c hc
  rw [h] at hc
  rcases mem_conns_store hc with rfl | hmem
  · exact hc1
  · exact ht c hmem

theorem closing_ok_append {t t1 : tbl_s} {c : conn_t} (h : t1.conns = t.conns ++ [c])
    (hc : c.closing = false) (ht : closing_ok t) : closing_ok t1 := by
  intro x hx
  rw [h] at hx
  rcases List.mem_append.mp hx with hx | hx
  · exact ht x hx
  · simp only [List.mem_singleton] at hx
    subst hx
    intro h0
    rw [hc] at h0
    cases h0

theorem closing_ok_found {t : tbl_s} {id : Nat} {cc : conn_t} (ht : closing_ok t)
    (h : tbl_find_conn t id = some cc) : cc.closing = true → cc.h = 0 :=
  ht cc (List.mem_of_find?_eq_some h)

theorem on_connection_closing_ok (B : build_cfg) (L : lib_s) (h : HQUIC)
    (e : QUIC_CONNECTION_EVENT) (ht : closing_ok L.tbl) :
    closing_ok (on_connection B L h e).1.tbl := by
  unfold on_connection
  cases e with
  | CONNECTED peer =>
    dsimp only
    split
    · exact ht
    · exact closing_ok_of_conns (by simp) ht
  | PEER_CERTIFICATE_RECEIVED =>
    dsimp only
    split
    · exact ht
    · split
      · rename_i cc hcc
        have hcc0 : cc.closing = true → cc.h = 0 := closing_ok_found ht hcc
        exact closing_ok_store _ _ cc.id { cc with cert_deferred := true } (by simp) hcc0 ht
      · exact closing_ok_of_conns (by simp) ht
  | PEER_STREAM_STARTED s uni =>
    dsimp only
    split
    · exact ht
    · exact closing_ok_of_conns (by simp [tbl_add_strm, tbl_newid]) ht
  | DATAGRAM_RECEIVED buf =>
    dsimp only
    split
    · exact ht
    · split
      · exact closing_ok_of_conns (by simp) ht
      · exact ht
  | DATAGRAM_SEND_STATE_CHANGED ctx st =>
    dsimp only
    split
    · rename_i cc hcc
      have hst : closing_ok ((L.store_conn (unlink_dgsend_ctx cc ctx)).free_ctx ctx).tbl := by
        have hh : (unlink_dgsend_ctx cc ctx).h = cc.h := by
          unfold unlink_dgsend_ctx
          split <;> rfl
        have hclo : (unlink_dgsend_ctx cc ctx).closing = cc.closing := by
          unfold unlink_dgsend_ctx
          split <;> rfl
        have hid : (unlink_dgsend_ctx cc ctx).id = cc.id := by
          unfold unlink_dgsend_ctx
          split <;> rfl
        exact closing_ok_store _ _ cc.id (unlink_dgsend_ctx cc ctx) (by simp [hid])
          (by rw [hh, hclo]; exact closing_ok_found ht hcc) ht
      split
      · split
        · exact hst
        · exact ht
      · split
        · exact hst
        · exact ht
    · split
      · exact closing_ok_of_conns (by simp) ht
      · exact ht
  | SHUTDOWN_COMPLETE =>
    dsimp only
    split
    · rename_i cc hcc
      split
      · exact ht
      · have hcc0 : cc.closing = true → cc.h = 0 := closing_ok_found ht hcc
        exact closing_ok_store _ _ cc.id { cc with closed_emitted := true } (by simp) hcc0 ht
    · exact closing_ok_of_conns (by simp) ht
  | OTHER => exact ht

theorem on_stream_closing_ok (L : lib_s) (s ctx : HQUIC) (e : QUIC_STREAM_EVENT)
    (ht : closing_ok L.tbl) : closing_ok (on_stream L s ctx e).1.tbl := by
  refine closing_ok_of_conns ?_ ht
  unfold on_stream
  cases e with
  | RECEIVE total bufs fin =>
    dsimp only
    repeat' split
    all_goals simp [on_stream_emit_loop_tbl]
  | SEND_COMPLETE =>
    dsimp only
    repeat' split
    all_goals simp
  | OTHER => rfl

theorem conn_close_closing_ok (L L1 : lib_s) (id code : Nat) (ht : closing_ok L.tbl)
    (h : bvc_quic_conn_close (some L) id code = some L1) : closing_ok L1.tbl := by
  rcases conn_close_effect L id code with ⟨_, hret⟩ | ⟨_, cc, L2, _, _, _, hret, _, hconns, _, _, _⟩
  · rw [hret] at h
    cases h
    exact ht
  · rw [hret] at h
    cases h
    exact closing_ok_store _ _ id
      { cc with closing := true, closed_emitted := true, dgram_head := [], h := 0 } hconns
      (fun _ => rfl) ht

theorem cert_complete_closing_ok (L : lib_s) (c : Nat) (accept : Bool) (alert : Nat)
    (st : QUIC_STATUS) (ht : closing_ok L.tbl) :
    ∃ L1, (bvc_quic_conn_cert_complete (some L) c accept alert st).1 = some L1
      ∧ closing_ok L1.tbl := by
  unfold bvc_quic_conn_cert_complete
  dsimp only
  split
  · exact ⟨L, rfl, ht⟩
  · rename_i cc hcc
    split
    · exact ⟨L, rfl, ht⟩
    · split
      · exact ⟨L, rfl, ht⟩
      · refine ⟨_, rfl, ?_⟩
        split
        · have hcc0 : cc.closing = true → cc.h = 0 := closing_ok_found ht hcc
          exact closing_ok_store _ _ cc.id { cc with cert_deferred := false } (by simp) hcc0 ht
        · exact closing_ok_of_conns (by simp) ht

theorem connect_closing_ok (B : build_cfg) (L : lib_s) (cfg_id : Nat) (ip out_conn : Bool)
    (port : Nat) (st_open : QUIC_STATUS) (conn : HQUIC) (st_start : QUIC_STATUS)
    (ht : closing_ok L.tbl) :
    ∃ L1, (bvc_quic_connect B (some L) cfg_id ip out_conn port st_open conn st_start).1 = some L1
      ∧ closing_ok L1.tbl := by
  unfold bvc_quic_connect
  dsimp only
  split
  · exact ⟨L, rfl, ht⟩
  · split
    · exact ⟨L, rfl, ht⟩
    · split
      · exact ⟨L, rfl, ht⟩
      · split
        · exact ⟨_, rfl, closing_ok_of_conns rfl ht⟩
        · rename_i hopen
          split
          · refine ⟨_, rfl, closing_ok_of_conns ?_ ht⟩
            simp [enable_datagrams_tbl]
          · refine ⟨_, rfl, @closing_ok_append L.tbl _ (tbl_add_conn L.tbl conn).1 ?_ rfl ht⟩
            simp [tbl_add_conn, tbl_newid, enable_datagrams_tbl]

theorem listener_new_connection_closing_ok (B : build_cfg) (L : lib_s) (lst conn : HQUIC)
    (st_cfg : QUIC_STATUS) (peer : bvcq_addr) (ht : closing_ok L.tbl) :
    ∃ L1, (on_listener_new_connection B (some L) lst conn st_cfg peer).1 = some L1
      ∧ closing_ok L1.tbl := by
  unfold on_listener_new_connection
  dsimp only
  split
  · exact ⟨_, rfl, closing_ok_of_conns rfl ht⟩
  · split
    · exact ⟨_, rfl, closing_ok_of_conns rfl ht⟩
    · split
      · exact ⟨_, rfl, closing_ok_of_conns rfl ht⟩
      · split
        · exact ⟨_, rfl, closing_ok_of_conns rfl ht⟩
        · refine ⟨_, rfl, @closing_ok_append L.tbl _ (tbl_add_conn L.tbl conn).1 ?_ rfl ht⟩
          simp [tbl_add_conn, tbl_newid, enable_datagrams_tbl]

theorem stream_open_closing_ok (L : lib_s) (cid : Nat) (bidi out_sid : Bool)
    (st_open : QUIC_STATUS) (s : HQUIC) (st_start : QUIC_STATUS) (ht : closing_ok L.tbl) :
    ∃ L1, (bvc_quic_stream_open (some L) cid bidi out_sid st_open s st_start).1 = some L1
      ∧ closing_ok L1.tbl := by
  unfold bvc_quic_stream_open
  dsimp only
  split
  · exact ⟨L, rfl, ht⟩
  · split
    · exact ⟨L, rfl, ht⟩
    · split
      · exact ⟨L, rfl, ht⟩
      · split
        · exact ⟨L, rfl, ht⟩
        · split
          · exact ⟨_, rfl, closing_ok_of_conns rfl ht⟩
          · split
            · exact ⟨_, rfl, closing_ok_of_conns rfl ht⟩
            · refine ⟨_, rfl, closing_ok_of_conns ?_ ht⟩
              simp [tbl_add_strm, tbl_newid]

theorem stream_send_closing_ok (L : lib_s) (sid : Nat) (data : Option (List UInt8))
    (fin : Bool) (flags : Nat) (st : QUIC_STATUS) (ht : closing_ok L.tbl) :
    ∃ L1, (bvc_quic_stream_send (some L) sid data fin flags st).1 = some L1
      ∧ closing_ok L1.tbl := by
  cases data with
  | none => exact ⟨L, rfl, ht⟩
  | some d =>
    simp only [bvc_quic_stream_send]
    split
    · exact ⟨L, rfl, ht⟩
    · split
      · exact ⟨L, rfl, ht⟩
      · split
        · exact ⟨L, rfl, ht⟩
        · split
          · exact ⟨L, rfl, ht⟩
          · exact ⟨_, rfl, closing_ok_of_conns rfl ht⟩

theorem stream_shutdown_closing_ok (L : lib_s) (sid : Nat) (ht : closing_ok L.tbl) :
    ∃ L1, bvc_quic_stream_shutdown (some L) sid = some L1 ∧ closing_ok L1.tbl := by
  unfold bvc_quic_stream_shutdown
  dsimp only
  split
  · exact ⟨L, rfl, ht⟩
  · split
    · exact ⟨L, rfl, ht⟩
    · exact ⟨_, rfl, closing_ok_of_conns rfl ht⟩

theorem set_read_enabled_closing_ok (L : lib_s) (sid : Nat) (en : Bool) (st : QUIC_STATUS)
    (ht : closing_ok L.tbl) :
    ∃ L1, (bvc_quic_stream_set_read_enabled (some L) sid en st).1 = some L1
      ∧ closing_ok L1.tbl := by
  unfold bvc_quic_stream_set_read_enabled
  dsimp only
  split
  · exact ⟨L, rfl, ht⟩
  · split
    · exact ⟨L, rfl, ht⟩
    · split
      · exact ⟨L, rfl, ht⟩
      · exact ⟨_, rfl, closing_ok_of_conns rfl ht⟩

theorem drain_events_closing_ok (L : lib_s) (out_buf : Option (List UInt8)) (n : Nat)
    (out_used : Option Nat) (ht : closing_ok L.tbl) :
    ∃ L1, (bvc_quic_drain_events (some L) out_buf n out_used).1 = some L1
      ∧ closing_ok L1.tbl := by
  cases out_buf with
  | none => exact ⟨L, rfl, ht⟩
  | some buf =>
    cases out_used with
    | none => exact ⟨L, rfl, ht⟩
    | some u =>
      simp only [bvc_quic_drain_events]
      split
      · exact ⟨L, rfl, ht⟩
      · split
        · exact ⟨_, rfl, closing_ok_of_conns rfl ht⟩
        · exact ⟨_, rfl, closing_ok_of_conns rfl ht⟩

theorem dgram_send_closing_ok (L : lib_s) (cid : Nat) (data : Option (List UInt8))
    (st : QUIC_STATUS) (ht : closing_ok L.tbl) :
    ∃ L1, (bvc_quic_dgram_send (some L) cid data st).1 = some L1 ∧ closing_ok L1.tbl := by
  cases data with
  | none => exact ⟨L, rfl, ht⟩
  | some d =>
    simp only [bvc_quic_dgram_send]
    split
    · exact ⟨L, rfl, ht⟩
    · split
      · exact ⟨L, rfl, ht⟩
      · rename_i cc hcc
        split
        · exact ⟨L, rfl, ht⟩
        · split
          · exact ⟨L, rfl, ht⟩
          · split
            · exact ⟨_, rfl, closing_ok_of_conns rfl ht⟩
            · split
              · exact ⟨_, rfl, closing_ok_of_conns rfl ht⟩
              · split
                · exact ⟨_, rfl, closing_ok_of_conns rfl ht⟩
                · refine ⟨_, rfl, ?_⟩
                  have hcc0 : cc.closing = true → cc.h = 0 := closing_ok_found ht hcc
                  exact closing_ok_store _ _ cc.id (link_dgsend_ctx cc _) rfl hcc0 ht

/-- The invariant `closing_ok` is kept by every step. -/
theorem step_closing_ok (B : build_cfg) (L : lib_s) (op : Op)
    (ht : closing_ok L.tbl) : ∃ L1, step B (some L) op = some L1 ∧ closing_ok L1.tbl := by
  cases op with
  | connect cfg_id ip out_conn port st_open conn st_start =>
    exact connect_closing_ok B L cfg_id ip out_conn port st_open conn st_start ht
  | conn_close c_id code =>
    obtain ⟨L1, h1, _⟩ := conn_close_closing_kept L c_id code
    exact ⟨L1, h1, conn_close_closing_ok L L1 c_id code ht h1⟩
  | cert_complete c accept alert st => exact cert_complete_closing_ok L c accept alert st ht
  | stream_open cid bidi out_sid st_open s st_start =>
    exact stream_open_closing_ok L cid bidi out_sid st_open s st_start ht
  | stream_send sid data fin flags st => exact stream_send_closing_ok L sid data fin flags st ht
  | stream_shutdown sid => exact stream_shutdown_closing_ok L sid ht
  | stream_set_read_enabled sid en st => exact set_read_enabled_closing_ok L sid en st ht
  | dgram_send cid data st => exact dgram_send_closing_ok L cid data st ht
  | drain_events out_buf n out_used => exact drain_events_closing_ok L out_buf n out_used ht
  | conn_event hc e => exact ⟨_, rfl, on_connection_closing_ok B L hc e ht⟩
  | stream_event hs ctx e => exact ⟨_, rfl, on_stream_closing_ok L hs ctx e ht⟩
  | listener_new_connection lst conn st_cfg peer =>
    exact listener_new_connection_closing_ok B L lst conn st_cfg peer ht

/-- From a library whose registry satisfies `closing_ok` (in particular one
just initialised by `tbl_init`), every run of API calls and callbacks, each
executed as a whole, reaches a library whose registry satisfies it. -/
theorem run_closing_ok (B : build_cfg) (ops : List Op) :
    ∀ (L : lib_s), closing_ok L.tbl →
      ∃ L1, run B (some L) ops = some L1 ∧ closing_ok L1.tbl := by
  induction ops with
  | nil => intro L ht; exact ⟨L, rfl, ht⟩
  | cons op ops ih =>
    intro L ht
    obtain ⟨L1, h1, ht1⟩ := step_closing_ok B L op ht
    obtain ⟨L2, h2, ht2⟩ := ih L1 ht1
    refine ⟨L2, ?_, ht2⟩
    simp only [run, List.foldl_cons, h1]
    exact h2

theorem tbl_init_closing_ok : closing_ok tbl_init := by
  intro c hc
  simp [tbl_init] at hc

/-! ## the certificate decision when none is pending -/

/-- In a registry satisfying `closing_ok`, `bvc_quic_conn_cert_complete` on an id whose
decision is not pending returns `BVCQ_ERR_NOTFOUND` and changes nothing. -/
theorem cert_not_pending_notfound (L : lib_s) (c : Nat) (accept : Bool) (alert : Nat)
    (st : QUIC_STATUS) (hinv : closing_ok L.tbl)
    (hnp : ∀ cc, tbl_find_conn L.tbl c = some cc → cc.cert_deferred = false ∨ cc.closing = true) :
    bvc_quic_conn_cert_complete (some L) c accept alert st = (some L, BVCQ_ERR_NOTFOUND) := by
  cases hf : tbl_find_conn L.tbl c with
  | none => simp [bvc_quic_conn_cert_complete, hf]
  | some cc =>
    have hmem : cc ∈ L.tbl.conns := List.mem_of_find?_eq_some hf
    have hcond : cc.h = 0 ∨ cc.cert_deferred = false := by
      rcases hnp cc hf with h | h
      · exact Or.inr h
      · exact Or.inl (hinv cc hmem h)
    simp only [bvc_quic_conn_cert_complete, hf, hcond, if_true]

/-- While a close is in progress inside the engine (`closing` set, the handle
not yet cleared) a pending decision is refused with `BVCQ_ERR_BADARG`: the
guard `if (cc->closing)` is reached only in that state. -/
theorem cert_complete_mid_close_badarg (L : lib_s) (c : Nat) (accept : Bool) (alert : Nat)
    (st : QUIC_STATUS) (cc : conn_t) (hf : tbl_find_conn L.tbl c = some cc) (hh : cc.h ≠ 0)
    (hd : cc.cert_deferred = true) (hcl : cc.closing = true) :
    bvc_quic_conn_cert_complete (some L) c accept alert st = (some L, BVCQ_ERR_BADARG) := by
  simp [bvc_quic_conn_cert_complete, hf, hh, hd, hcl]

/-- C20: in every state `L` reached from a library whose registry has no close
in progress (one fresh from `tbl_init` in particular) by API calls and
callbacks, `bvc_quic_conn_cert_complete` on an id whose certificate decision is not
pending (the id names no connection record, or the record's `cert_deferred` is
false, or the record is closing) returns `BVCQ_ERR_NOTFOUND` and leaves the
whole library state, the engine trace included, unchanged. -/
theorem cert_complete_not_pending (B : build_cfg) (L0 L : lib_s) (ops : List Op)
    (c : Nat) (accept : Bool) (alert : Nat) (st : QUIC_STATUS)
    (h0 : closing_ok L0.tbl) (hrun : run B (some L0) ops = some L)
    (hnp : ∀ cc, tbl_find_conn L.tbl c = some cc → cc.cert_deferred = false ∨ cc.closing = true) :
    bvc_quic_conn_cert_complete (some L) c accept alert st = (some L, BVCQ_ERR_NOTFOUND) ∧
    engine_calls (bvc_quic_conn_cert_complete (some L) c accept alert st).1 = L.api := by
  obtain ⟨L1, h1, hinv⟩ := run_closing_ok B ops L0 h0
  rw [hrun] at h1
  cases h1
  have h := cert_not_pending_notfound L c accept alert st hinv hnp
  rw [h]
  exact ⟨rfl, rfl⟩

/-- C20 (witness): connection 2 had its certificate decision requested and was
then closed; accepting the certificate afterwards returns `BVCQ_ERR_NOTFOUND`. -/
theorem cert_complete_not_pending_witness :
    closing_ok lib_ready.tbl ∧
    run build_all (some lib_ready) sample_cert_then_close = some lib_cert_closed ∧
    (conn_of (some lib_cert_closed) 2).map (fun c => (c.cert_deferred, c.closing))
      = some (true, true) ∧
    bvc_quic_conn_cert_complete (some lib_cert_closed) 2 true 0 QUIC_STATUS.QUIC_STATUS_SUCCESS
      = (some lib_cert_closed, BVCQ_ERR_NOTFOUND) :=
  ⟨by decide, by decide, by decide,
    (cert_complete_not_pending build_all lib_ready lib_cert_closed sample_cert_then_close 2 true 0
      QUIC_STATUS.QUIC_STATUS_SUCCESS (by decide) (by decide) (by
        intro cc hcc
        have h : tbl_find_conn lib_cert_closed.tbl 2 = some
            { id := 2, h := 0, read_enabled := true, cert_deferred := true, closing := true,
              closed_emitted := true, dgram_head := [] } := by decide
        rw [h] at hcc
        cases hcc
        exact Or.inr rfl)).1⟩

/-! ## the layout of event records -/

/-- Reading back an integer written by `le_bytes`. -/
theorem le_decode_le_bytes (n v : Nat) : le_decode (le_bytes n v) = v % 256 ^ n := by
  induction n generalizing v with
  | zero => simp [le_bytes, le_decode, Nat.mod_one]
  | succ n ih =>
    have h8 : (UInt8.ofNat (v % 256)).toNat = v % 256 := by
      simp [UInt8.toNat, UInt8.ofNat, Fin.ofNat]
    simp only [le_bytes, le_decode, ih, h8]
    rw [pow_succ', Nat.mod_mul]

/-- The field that starts right after `pre` in a buffer. -/
theorem read_le_field (pre x post : List UInt8) (off n : Nat) (hoff : pre.length = off)
    (hn : x.length = n) : read_le (pre ++ (x ++ post)) off n = le_decode x := by
  unfold read_le
  rw [List.drop_left' hoff, List.take_left' hn]

/-- A field of a record read through a buffer that holds the record at an
offset. -/
theorem read_le_inside (pre r post : List UInt8) (k n : Nat) (h : k + n ≤ r.length) :
    read_le (pre ++ (r ++ post)) (pre.length + k) n = read_le r k n := by
  unfold read_le
  rw [List.drop_append, List.drop_append_of_le_length (by omega),
    List.take_append_of_le_length (by rw [List.length_drop]; omega)]

theorem ev_hdr_length (type size : Nat) : (ev_hdr type size).length = 12 := by
  simp [ev_hdr, le_bytes_length]

theorem spec_record_length (type : Nat) (payload : List UInt8) :
    (spec_record type payload).length = 12 + payload.length := by
  simp only [spec_record, List.length_append, le_bytes_length]

/-- The header fields of a reference record. -/
theorem spec_record_hdr (type : Nat) (payload : List UInt8) :
    hdr_type (spec_record type payload) 0 = type % 2 ^ 32 ∧
    hdr_flags (spec_record type payload) 0 = 0 ∧
    hdr_size (spec_record type payload) 0 = (12 + payload.length) % 2 ^ 32 := by
  refine ⟨?_, ?_, ?_⟩
  · have h := read_le_field [] (le_bytes 4 type)
      (le_bytes 4 0 ++ le_bytes 4 (12 + payload.length) ++ payload) 0 4 rfl (le_bytes_length _ _)
    simp only [hdr_type, spec_record, List.nil_append, List.append_assoc] at h ⊢
    rw [h, le_decode_le_bytes]
    norm_num
  · have h := read_le_field (le_bytes 4 type) (le_bytes 4 0)
      (le_bytes 4 (12 + payload.length) ++ payload) 4 4 (le_bytes_length _ _) (le_bytes_length _ _)
    simp only [hdr_flags, spec_record, List.append_assoc, Nat.zero_add] at h ⊢
    rw [h, le_decode_le_bytes]
    norm_num
  · have h := read_le_field (le_bytes 4 type ++ le_bytes 4 0) (le_bytes 4 (12 + payload.length))
      payload 8 4 (by simp [le_bytes_length]) (le_bytes_length _ _)
    simp only [hdr_size, spec_record, List.append_assoc, Nat.zero_add] at h ⊢
    rw [h, le_decode_le_bytes]
    norm_num

/-- A payload field of a reference record: the field right after the first
`pre` payload bytes. -/
theorem spec_record_field (type : Nat) (pre x post : List UInt8) (off n : Nat)
    (hoff : 12 + pre.length = off) (hn : x.length = n) :
    read_le (spec_record type (pre ++ (x ++ post))) off n = le_decode x := by
  have h := read_le_field
    (le_bytes 4 type ++ le_bytes 4 0 ++ le_bytes 4 (12 + (pre ++ (x ++ post)).length) ++ pre)
    x post off n (by simp [le_bytes_length]; omega) hn
  simp only [spec_record, List.append_assoc] at h ⊢
  exact h

/-- What an emitter pushes is the first `sz` bytes of what it builds; when it
builds exactly `sz` bytes, that is the record. -/
theorem emit_bytes_q_full (L : lib_s) (sz : Nat) (b : List UInt8) (h : b.length = sz) :
    (emit_bytes L sz b).q.head
      = L.q.head ++ (if emit_allocs_ok (some L) = true then [b] else []) := by
  rw [emit_bytes_q, List.take_of_length_le (by omega)]

theorem emit_conn_closed_ref (L : lib_s) (cid app t : Nat) :
    (emit_conn_closed L cid app t).q.head
      = L.q.head ++ (if emit_allocs_ok (some L) = true then [spec_conn_closed cid app t]
          else []) := by
  unfold emit_conn_closed
  dsimp only
  rw [show (SIZEOF_HDR + 8 + 4 + 4) % U32_MOD = 28 from by decide]
  rw [emit_bytes_q_full _ _ _ (by simp [ev_hdr, le_bytes_length])]
  simp [spec_conn_closed, spec_record, ev_hdr, le_bytes_length]

theorem emit_conn_cert_required_ref (L : lib_s) (cid : Nat) :
    (emit_conn_cert_required L cid).q.head
      = L.q.head ++ (if emit_allocs_ok (some L) = true then [spec_conn_cert_required cid]
          else []) := by
  unfold emit_conn_cert_required
  dsimp only
  rw [show (SIZEOF_HDR + 8) % U32_MOD = 20 from by decide]
  rw [emit_bytes_q_full _ _ _ (by simp [ev_hdr, le_bytes_length])]
  simp [spec_conn_cert_required, spec_record, ev_hdr, le_bytes_length]

theorem emit_stream_opened_ref (L : lib_s) (cid sid : Nat) (bidi : Bool) :
    (emit_stream_opened L cid sid bidi).q.head
      = L.q.head ++ (if emit_allocs_ok (some L) = true then [spec_stream_opened cid sid bidi]
          else []) := by
  unfold emit_stream_opened
  dsimp only
  rw [show (SIZEOF_HDR + 8 + 8 + 1) % U32_MOD = 29 from by decide]
  rw [emit_bytes_q_full _ _ _ (by simp [ev_hdr, le_bytes_length])]
  simp [spec_stream_opened, spec_record, ev_hdr, le_bytes_length]

theorem emit_stream_writable_ref (L : lib_s) (sid : Nat) :
    (emit_stream_writable L sid).q.head
      = L.q.head ++ (if emit_allocs_ok (some L) = true then [spec_stream_writable sid]
          else []) := by
  unfold emit_stream_writable
  dsimp only
  rw [show (SIZEOF_HDR + 8) % U32_MOD = 20 from by decide]
  rw [emit_bytes_q_full _ _ _ (by simp [ev_hdr, le_bytes_length])]
  simp [spec_stream_writable, spec_record, ev_hdr, le_bytes_length]

/-- C17 (counterexample): with the next allocation failing, `emit_conn_closed(2, 5, 0)`,
`emit_conn_cert_required(2)`, `emit_stream_opened(2, 3, 1)` and `emit_stream_writable(3)` push
no record at all. -/
theorem fixed_emitters_oom_push_nothing :
    emit_allocs_ok lib_connected_oom = false ∧
    (emit_conn_closed lib_connected_oom_s 2 5 0).q.head = [] ∧
    (emit_conn_cert_required lib_connected_oom_s 2).q.head = [] ∧
    (emit_stream_opened lib_connected_oom_s 2 3 true).q.head = [] ∧
    (emit_stream_writable lib_connected_oom_s 3).q.head = [] := by
  decide

/-- C17 (amended): each fixed-size emitter appends to the queue exactly one
record, the reference serialization `[type:u32][flags:u32 = 0][total_size:u32][payload]`
of its event, when its two allocations (the record, the queue node) succeed,
and nothing otherwise.  The reference records: connection-closed is 28 bytes,
type 3, payload `cid:u64, app:u32, t:u32`; certificate-required is 20 bytes,
type 4, payload `cid:u64`; stream-opened is 29 bytes, type 10, payload
`cid:u64, sid:u64` and one byte that is 1 for `bidi` non-zero and 0 otherwise;
stream-writable is 20 bytes, type 11, payload `sid:u64`; every field is read
back little-endian at its unpadded offset. -/
theorem fixed_emitters_reference_records (L : lib_s) (cid sid app t : Nat) (bidi : Bool) :
    ((emit_conn_closed L cid app t).q.head
      = L.q.head ++ (if emit_allocs_ok (some L) = true then [spec_conn_closed cid app t]
          else []) ∧
     (emit_conn_cert_required L cid).q.head
      = L.q.head ++ (if emit_allocs_ok (some L) = true then [spec_conn_cert_required cid]
          else []) ∧
     (emit_stream_opened L cid sid bidi).q.head
      = L.q.head ++ (if emit_allocs_ok (some L) = true then [spec_stream_opened cid sid bidi]
          else []) ∧
     (emit_stream_writable L sid).q.head
      = L.q.head ++ (if emit_allocs_ok (some L) = true then [spec_stream_writable sid]
          else [])) ∧
    ((spec_conn_closed cid app t).length = 28 ∧
     hdr_type (spec_conn_closed cid app t) 0 = 3 ∧
     hdr_flags (spec_conn_closed cid app t) 0 = 0 ∧
     hdr_size (spec_conn_closed cid app t) 0 = 28 ∧
     read_le (spec_conn_closed cid app t) 12 8 = cid % 2 ^ 64 ∧
     read_le (spec_conn_closed cid app t) 20 4 = app % 2 ^ 32 ∧
     read_le (spec_conn_closed cid app t) 24 4 = t % 2 ^ 32) ∧
    ((spec_conn_cert_required cid).length = 20 ∧
     hdr_type (spec_conn_cert_required cid) 0 = 4 ∧
     hdr_flags (spec_conn_cert_required cid) 0 = 0 ∧
     hdr_size (spec_conn_cert_required cid) 0 = 20 ∧
     read_le (spec_conn_cert_required cid) 12 8 = cid % 2 ^ 64) ∧
    ((spec_stream_opened cid sid bidi).length = 29 ∧
     hdr_type (spec_stream_opened cid sid bidi) 0 = 10 ∧
     hdr_flags (spec_stream_opened cid sid bidi) 0 = 0 ∧
     hdr_size (spec_stream_opened cid sid bidi) 0 = 29 ∧
     read_le (spec_stream_opened cid sid bidi) 12 8 = cid % 2 ^ 64 ∧
     read_le (spec_stream_opened cid sid bidi) 20 8 = sid % 2 ^ 64 ∧
     (spec_stream_opened cid sid bidi).drop 28 = [if bidi then 1 else 0]) ∧
    ((spec_stream_writable sid).length = 20 ∧
     hdr_type (spec_stream_writable sid) 0 = 11 ∧
     hdr_flags (spec_stream_writable sid) 0 = 0 ∧
     hdr_size (spec_stream_writable sid) 0 = 20 ∧
     read_le (spec_stream_writable sid) 12 8 = sid % 2 ^ 64) := by
  refine ⟨⟨emit_conn_closed_ref L cid app t, emit_conn_cert_required_ref L cid,
    emit_stream_opened_ref L cid sid bidi, emit_stream_writable_ref L sid⟩, ?_, ?_, ?_, ?_⟩
  · obtain ⟨h1, h2, h3⟩ := spec_record_hdr 3 (le_bytes 8 cid ++ le_bytes 4 app ++ le_bytes 4 t)
    refine ⟨?_, h1, h2, ?_, ?_, ?_, ?_⟩
    · simp [spec_conn_closed, spec_record_length, le_bytes_length]
    · rw [spec_conn_closed, h3]
      simp [le_bytes_length]
    · have h := spec_record_field 3 [] (le_bytes 8 cid) (le_bytes 4 app ++ le_bytes 4 t) 12 8
        rfl (le_bytes_length _ _)
      simp only [List.nil_append] at h
      rw [spec_conn_closed, List.append_assoc, h, le_decode_le_bytes]
      norm_num
    · have h := spec_record_field 3 (le_bytes 8 cid) (le_bytes 4 app) (le_bytes 4 t) 20 4
        (by simp [le_bytes_length]) (le_bytes_length _ _)
      rw [spec_conn_closed, List.append_assoc, h, le_decode_le_bytes]
      norm_num
    · have h := spec_record_field 3 (le_bytes 8 cid ++ le_bytes 4 app) (le_bytes 4 t) [] 24 4
        (by simp [le_bytes_length]) (le_bytes_length _ _)
      simp only [List.append_nil] at h
      rw [spec_conn_closed, h, le_decode_le_bytes]
      norm_num
  · obtain ⟨h1, h2, h3⟩ := spec_record_hdr 4 (le_bytes 8 cid)
    refine ⟨?_, h1, h2, ?_, ?_⟩
    · simp [spec_conn_cert_required, spec_record_length, le_bytes_length]
    · rw [spec_conn_cert_required, h3]
      simp [le_bytes_length]
    · have h := spec_record_field 4 [] (le_bytes 8 cid) [] 12 8 rfl (le_bytes_length _ _)
      simp only [List.nil_append, List.append_nil] at h
      rw [spec_conn_cert_required, h, le_decode_le_bytes]
      norm_num
  · obtain ⟨h1, h2, h3⟩ := spec_record_hdr 10
      (le_bytes 8 cid ++ le_bytes 8 sid ++ [if bidi then 1 else 0])
    refine ⟨?_, h1, h2, ?_, ?_, ?_, ?_⟩
    · simp [spec_stream_opened, spec_record_length, le_bytes_length]
    · rw [spec_stream_opened, h3]
      simp [le_bytes_length]
    · have h := spec_record_field 10 [] (le_bytes 8 cid)
        (le_bytes 8 sid ++ [if bidi then 1 else 0]) 12 8 rfl (le_bytes_length _ _)
      simp only [List.nil_append] at h
      rw [spec_stream_opened, List.append_assoc, h, le_decode_le_bytes]
      norm_num
    · have h := spec_record_field 10 (le_bytes 8 cid) (le_bytes 8 sid)
        [if bidi then 1 else 0] 20 8 (by simp [le_bytes_length]) (le_bytes_length _ _)
      rw [spec_stream_opened, List.append_assoc, h, le_decode_le_bytes]
      norm_num
    · simp only [spec_stream_opened, spec_record]
      rw [← List.append_assoc, ← List.append_assoc]
      exact List.drop_left' (by simp [le_bytes_length])
  · obtain ⟨h1, h2, h3⟩ := spec_record_hdr 11 (le_bytes 8 sid)
    refine ⟨?_, h1, h2, ?_, ?_⟩
    · simp [spec_stream_writable, spec_record_length, le_bytes_length]
    · rw [spec_stream_writable, h3]
      simp [le_bytes_length]
    · have h := spec_record_field 11 [] (le_bytes 8 sid) [] 12 8 rfl (le_bytes_length _ _)
      simp only [List.nil_append, List.append_nil] at h
      rw [spec_stream_writable, h, le_decode_le_bytes]
      norm_num

/-! ## the variable-size records -/

/-- With a payload that fits the 32-bit size, `emit_stream_read` pushes the reference
record when its two allocations succeed and nothing otherwise. -/
theorem emit_stream_read_ref (L : lib_s) (sid : Nat) (fin : Bool) (buf : List UInt8) (len : Nat)
    (hlen : buf.length = len) (hmax : len + 28 < U32_MOD) :
    (emit_stream_read L sid fin buf len).q.head
      = L.q.head ++ (if emit_allocs_ok (some L) = true then [spec_stream_read sid fin buf]
          else []) := by
  have hsz : (SIZEOF_HDR + 8 + 4 + 4 + len) % U32_MOD = 28 + len := by
    rw [Nat.mod_eq_of_lt (by show 12 + 8 + 4 + 4 + len < U32_MOD; omega)]
  have htake : buf.take len = buf := List.take_of_length_le (by omega)
  unfold emit_stream_read
  dsimp only
  rw [hsz, htake, emit_bytes_q_full _ _ _ (by simp [ev_hdr, le_bytes_length, hlen]; omega)]
  have h28 : 12 + (8 + (4 + (4 + len))) = 28 + len := by omega
  simp [spec_stream_read, spec_record, ev_hdr, le_bytes_length, hlen, h28]

/-- The fields of the reference stream-read record. -/
theorem spec_stream_read_fields (sid : Nat) (fin : Bool) (buf : List UInt8)
    (hsid : sid < SIZE_MOD) (hmax : buf.length + 28 < U32_MOD) :
    (spec_stream_read sid fin buf).length = 28 + buf.length ∧
    hdr_type (spec_stream_read sid fin buf) 0 = 12 ∧
    hdr_flags (spec_stream_read sid fin buf) 0 = 0 ∧
    hdr_size (spec_stream_read sid fin buf) 0 = 28 + buf.length ∧
    read_le (spec_stream_read sid fin buf) 12 8 = sid ∧
    read_le (spec_stream_read sid fin buf) 20 4 = (if fin then 1 else 0) ∧
    read_le (spec_stream_read sid fin buf) 24 4 = buf.length ∧
    (spec_stream_read sid fin buf).drop 28 = buf := by
  have hU : U32_MOD = 2 ^ 32 := rfl
  have hS : SIZE_MOD = 2 ^ 64 := rfl
  obtain ⟨h1, h2, h3⟩ := spec_record_hdr 12
    (le_bytes 8 sid ++ le_bytes 4 (if fin then 1 else 0) ++ le_bytes 4 buf.length ++ buf)
  refine ⟨?_, h1, h2, ?_, ?_, ?_, ?_, ?_⟩
  · simp only [spec_stream_read, spec_record_length, List.length_append, le_bytes_length]
    omega
  · rw [spec_stream_read, h3]
    simp only [List.length_append, le_bytes_length]
    rw [Nat.mod_eq_of_lt (by omega)]
    omega
  · have h := spec_record_field 12 [] (le_bytes 8 sid)
      (le_bytes 4 (if fin then 1 else 0) ++ le_bytes 4 buf.length ++ buf) 12 8 rfl
      (le_bytes_length _ _)
    simp only [List.nil_append, List.append_assoc] at h
    simp only [spec_stream_read, List.append_assoc]
    rw [h, le_decode_le_bytes]
    exact Nat.mod_eq_of_lt (by norm_num; omega)
  · have h := spec_record_field 12 (le_bytes 8 sid) (le_bytes 4 (if fin then 1 else 0))
      (le_bytes 4 buf.length ++ buf) 20 4 (by simp [le_bytes_length]) (le_bytes_length _ _)
    simp only [List.append_assoc] at h
    simp only [spec_stream_read, List.append_assoc]
    rw [h, le_decode_le_bytes]
    cases fin <;> simp
  · have h := spec_record_field 12 (le_bytes 8 sid ++ le_bytes 4 (if fin then 1 else 0))
      (le_bytes 4 buf.length) buf 24 4 (by simp [le_bytes_length]) (le_bytes_length _ _)
    simp only [List.append_assoc] at h
    simp only [spec_stream_read, List.append_assoc]
    rw [h, le_decode_le_bytes]
    exact Nat.mod_eq_of_lt (by norm_num; omega)
  · simp only [spec_stream_read, spec_record]
    rw [← List.append_assoc]
    exact List.drop_left' (by simp [le_bytes_length])

/-- C18 (counterexample): with the next allocation failing, `emit_stream_read(3, 1, buf, 3)`
pushes no record. -/
theorem stream_read_oom_pushes_nothing :
    emit_allocs_ok lib_connected_oom = false ∧
    (emit_stream_read lib_connected_oom_s 3 true [1, 2, 3] 3).q.head = [] := by
  decide

/-- C18 (amended): for every 64-bit `sid`, every `fin` and every byte string
`buf` of length `len` with `28 + len` below 2^32, when its two allocations
succeed `emit_stream_read(sid, fin, buf, len)` appends to the queue exactly one
record: type 12, flags 0, size `28 + len`, payload `sid:u64`, then `fin:u32`
normalised to 1 or 0, then `length:u32 = len`, then the `len` bytes of `buf`;
decoding it by that layout gives back `(sid, fin, buf)`. -/
theorem stream_read_roundtrip (L : lib_s) (sid : Nat) (fin : Bool) (buf : List UInt8)
    (len : Nat) (hsid : sid < SIZE_MOD) (hlen : buf.length = len) (hmax : len + 28 < U32_MOD)
    (halloc : emit_allocs_ok (some L) = true) :
    (emit_stream_read L sid fin buf len).q.head = L.q.head ++ [spec_stream_read sid fin buf] ∧
    (spec_stream_read sid fin buf).length = 28 + len ∧
    hdr_type (spec_stream_read sid fin buf) 0 = 12 ∧
    hdr_flags (spec_stream_read sid fin buf) 0 = 0 ∧
    hdr_size (spec_stream_read sid fin buf) 0 = 28 + len ∧
    read_le (spec_stream_read sid fin buf) 12 8 = sid ∧
    read_le (spec_stream_read sid fin buf) 20 4 = (if fin then 1 else 0) ∧
    read_le (spec_stream_read sid fin buf) 24 4 = len ∧
    (spec_stream_read sid fin buf).drop 28 = buf ∧
    decode_stream_read (spec_stream_read sid fin buf) = (sid, fin, buf) := by
  subst hlen
  obtain ⟨f1, f2, f3, f4, f5, f6, f7, f8⟩ := spec_stream_read_fields sid fin buf hsid hmax
  refine ⟨?_, f1, f2, f3, f4, f5, f6, f7, f8, ?_⟩
  · rw [emit_stream_read_ref L sid fin buf _ rfl hmax, if_pos halloc]
  · unfold decode_stream_read
    rw [f5, f6, f7, f8, List.take_of_length_le (Nat.le_refl _)]
    cases fin <;> rfl

/-- C18 (witness): three bytes with `fin` set on stream 3, on the connected
library. -/
theorem stream_read_roundtrip_witness :
    (emit_stream_read lib_connected_s 3 true [1, 2, 0xFF] 3).q.head
      = [[12, 0, 0, 0, 0, 0, 0, 0, 31, 0, 0, 0, 3, 0, 0, 0, 0, 0, 0, 0, 1, 0, 0, 0, 3, 0, 0, 0,
          1, 2, 0xFF]] ∧
    decode_stream_read (spec_stream_read 3 true [1, 2, 0xFF]) = (3, true, [1, 2, 0xFF]) :=
  have h := stream_read_roundtrip lib_connected_s 3 true [1, 2, 0xFF] 3 (by decide) rfl
    (by decide) (by decide)
  ⟨h.1.trans (by decide), h.2.2.2.2.2.2.2.2.2⟩

/-- With a payload that fits the 32-bit size, `emit_dgram_read` pushes the reference
record when its two allocations succeed and nothing otherwise. -/
theorem emit_dgram_read_ref (L : lib_s) (cid : Nat) (buf : List UInt8) (len : Nat)
    (hlen : buf.length = len) (hmax : len + 24 < U32_MOD) :
    (emit_dgram_read L cid buf len).q.head
      = L.q.head ++ (if emit_allocs_ok (some L) = true then [spec_dgram_read cid buf]
          else []) := by
  have hsz : (SIZEOF_HDR + 8 + 4 + len) % U32_MOD = 24 + len := by
    rw [Nat.mod_eq_of_lt (by show 12 + 8 + 4 + len < U32_MOD; omega)]
  have htake : buf.take len = buf := List.take_of_length_le (by omega)
  unfold emit_dgram_read
  dsimp only
  rw [hsz, htake, emit_bytes_q_full _ _ _ (by simp [ev_hdr, le_bytes_length, hlen]; omega)]
  have h24 : 12 + (8 + (4 + len)) = 24 + len := by omega
  simp [spec_dgram_read, spec_record, ev_hdr, le_bytes_length, hlen, h24]

/-- The fields of the reference datagram-read record. -/
theorem spec_dgram_read_fields (cid : Nat) (buf : List UInt8)
    (hcid : cid < SIZE_MOD) (hmax : buf.length + 24 < U32_MOD) :
    (spec_dgram_read cid buf).length = 24 + buf.length ∧
    hdr_type (spec_dgram_read cid buf) 0 = 20 ∧
    hdr_flags (spec_dgram_read cid buf) 0 = 0 ∧
    hdr_size (spec_dgram_read cid buf) 0 = 24 + buf.length ∧
    read_le (spec_dgram_read cid buf) 12 8 = cid ∧
    read_le (spec_dgram_read cid buf) 20 4 = buf.length ∧
    (spec_dgram_read cid buf).drop 24 = buf := by
  have hU : U32_MOD = 2 ^ 32 := rfl
  have hS : SIZE_MOD = 2 ^ 64 := rfl
  obtain ⟨h1, h2, h3⟩ := spec_record_hdr 20 (le_bytes 8 cid ++ le_bytes 4 buf.length ++ buf)
  refine ⟨?_, h1, h2, ?_, ?_, ?_, ?_⟩
  · simp only [spec_dgram_read, spec_record_length, List.length_append, le_bytes_length]
    omega
  · rw [spec_dgram_read, h3]
    simp only [List.length_append, le_bytes_length]
    rw [Nat.mod_eq_of_lt (by omega)]
    omega
  · have h := spec_record_field 20 [] (le_bytes 8 cid) (le_bytes 4 buf.length ++ buf) 12 8 rfl
      (le_bytes_length _ _)
    simp only [List.nil_append, List.append_assoc] at h
    simp only [spec_dgram_read, List.append_assoc]
    rw [h, le_decode_le_bytes]
    exact Nat.mod_eq_of_lt (by norm_num; omega)
  · have h := spec_record_field 20 (le_bytes 8 cid) (le_bytes 4 buf.length) buf 20 4
      (by simp [le_bytes_length]) (le_bytes_length _ _)
    simp only [List.append_assoc] at h
    simp only [spec_dgram_read, List.append_assoc]
    rw [h, le_decode_le_bytes]
    exact Nat.mod_eq_of_lt (by norm_num; omega)
  · simp only [spec_dgram_read, spec_record]
    rw [← List.append_assoc]
    exact List.drop_left' (by simp [le_bytes_length])

/-- C19 (counterexample): with the next allocation failing, the
`DATAGRAM_RECEIVED` callback for the six bytes `64 67 21 54 00 AA` on the live
connection 2 (handle 7) queues nothing, and the drain that follows returns
`BVCQ_ERR_AGAIN` with no record. -/
theorem dgram_received_oom_lost :
    emit_allocs_ok lib_connected_oom = false ∧
    (on_connection build_all lib_connected_oom_s 7 (.DATAGRAM_RECEIVED (some sample_dgram))).1.q.head
      = [] ∧
    (bvc_quic_drain_events
      (some (on_connection build_all lib_connected_oom_s 7
        (.DATAGRAM_RECEIVED (some sample_dgram))).1)
      (some (List.replicate 64 0)) 64 (some 0)).2.2
      = (some 0, BVCQ_ERR_AGAIN) := by
  decide

/-- C19 (amended): for every byte string `b` with `24 + len` below 2^32, a
`DATAGRAM_RECEIVED` callback on a handle that resolves to a connection record
that is not closing, with the two allocations of `emit_dgram_read` succeeding,
appends one record to the queue, and a drain with room for the whole queue
returns it as the last record of the buffer: type 20, size `24 + len`, the
eight bytes at offset 12 decode to the connection id, the four at offset 20 to
`len`, and the last `len` bytes are `b`, whatever their values. -/
theorem dgram_payload_survives (B : build_cfg) (L : lib_s) (Connection : HQUIC) (cc : conn_t)
    (b out : List UInt8) (n u : Nat)
    (hres : L.tbl.conns.find? (fun c => c.h == Connection) = some cc)
    (hfind : tbl_find_conn L.tbl cc.id = some cc) (hncl : cc.closing = false)
    (hcid : cc.id < SIZE_MOD) (hlen : b.length + 24 < U32_MOD)
    (halloc : emit_allocs_ok (some L) = true)
    (hn : n < SIZE_MOD) (hout : n ≤ out.length)
    (hfit : total_len L.q.head + (24 + b.length) ≤ n) :
    (on_connection B L Connection (.DATAGRAM_RECEIVED (some b))).1.q.head
      = L.q.head ++ [spec_dgram_read cc.id b] ∧
    (bvc_quic_drain_events (some (on_connection B L Connection (.DATAGRAM_RECEIVED (some b))).1)
        (some out) n (some u)).2
      = (some (L.q.head.flatten ++ spec_dgram_read cc.id b
            ++ out.drop (total_len L.q.head + (24 + b.length))),
          some (total_len L.q.head + (24 + b.length)), BVCQ_OK) ∧
    (spec_dgram_read cc.id b).length = 24 + b.length ∧
    hdr_type (spec_dgram_read cc.id b) 0 = 20 ∧
    hdr_size (spec_dgram_read cc.id b) 0 = 24 + b.length ∧
    read_le (spec_dgram_read cc.id b) 12 8 = cc.id ∧
    read_le (spec_dgram_read cc.id b) 20 4 = b.length ∧
    (spec_dgram_read cc.id b).drop 24 = b ∧
    decode_dgram_read (spec_dgram_read cc.id b) = (cc.id, b) := by
  obtain ⟨f1, f2, _, f4, f5, f6, f7⟩ := spec_dgram_read_fields cc.id b hcid hlen
  have hU : U32_MOD = 2 ^ 32 := rfl
  have hmod : b.length % U32_MOD = b.length := Nat.mod_eq_of_lt (by omega)
  have hcb : (on_connection B L Connection (.DATAGRAM_RECEIVED (some b))).1
      = emit_dgram_read L cc.id b b.length := by
    simp [on_connection, conn_id_from_h, hres, hfind, hncl, hmod]
  have hq : (on_connection B L Connection (.DATAGRAM_RECEIVED (some b))).1.q.head
      = L.q.head ++ [spec_dgram_read cc.id b] := by
    rw [hcb, emit_dgram_read_ref L cc.id b _ rfl hlen, if_pos halloc]
  have htot : total_len (on_connection B L Connection (.DATAGRAM_RECEIVED (some b))).1.q.head
      = total_len L.q.head + (24 + b.length) := by
    rw [hq]
    simp [total_len, f1]
  refine ⟨hq, ?_, f1, f2, f4, f5, f6, f7, ?_⟩
  · have hn12 : ¬ n < SIZEOF_HDR := by
      show ¬ n < 12
      omega
    obtain ⟨c1, c2, _⟩ := evq_copy_out_all
      (on_connection B L Connection (.DATAGRAM_RECEIVED (some b))).1.q out n hn hout
      (by rw [htot]; exact hfit)
    rw [drain_events_eq_copy_out _ out n u hn12, c1, c2, htot, hq]
    have hne : ¬ (total_len L.q.head + (24 + b.length) = 0) := by omega
    simp [hne]
  · unfold decode_dgram_read
    rw [f5, f6, f7, List.take_of_length_le (Nat.le_refl _)]

/-- C19 (witness): the six bytes `64 67 21 54 00 AA` arrive on connection 2
(handle 7) of the connected library and are drained into a 64-byte buffer. -/
theorem dgram_payload_survives_witness :
    (bvc_quic_drain_events
        (some (on_connection build_all lib_connected_s 7
          (.DATAGRAM_RECEIVED (some sample_dgram))).1)
        (some (List.replicate 64 0)) 64 (some 0)).2
      = (some ([20, 0, 0, 0, 0, 0, 0, 0, 30, 0, 0, 0, 2, 0, 0, 0, 0, 0, 0, 0, 6, 0, 0, 0,
                0x64, 0x67, 0x21, 0x54, 0x00, 0xAA] ++ List.replicate 34 0),
          some 30, BVCQ_OK) ∧
    decode_dgram_read (spec_dgram_read 2 sample_dgram) = (2, sample_dgram) :=
  have h := dgram_payload_survives build_all lib_connected_s 7 sample_conn sample_dgram
    (List.replicate 64 0) 64 0 (by decide) (by decide) rfl (by decide) (by decide) (by decide)
    (by decide) (by decide) (by decide)
  ⟨h.2.1.trans (by decide), h.2.2.2.2.2.2.2.2⟩

/-! ## walking a drained buffer -/

/-- A reference record whose type and size fit 32 bits and whose size reaches
the minimum of its type passes the walker. -/
theorem record_ok_spec_record (type : Nat) (payload : List UInt8) (ht : type < 2 ^ 32)
    (hsz : 12 + payload.length < 2 ^ 32) (hmin : ev_min_size type ≤ 12 + payload.length) :
    record_ok (spec_record type payload) := by
  obtain ⟨h1, _, h3⟩ := spec_record_hdr type payload
  rw [Nat.mod_eq_of_lt ht] at h1
  rw [Nat.mod_eq_of_lt hsz] at h3
  refine ⟨?_, ?_, ?_⟩
  · rw [spec_record_length]
    show 12 ≤ 12 + payload.length
    omega
  · rw [h3, spec_record_length]
  · rw [h1, spec_record_length]
    exact hmin

/-- The walker runs over any sequence of records that pass it, whatever
precedes and follows them in the buffer, and ends exactly behind the last. -/
theorem validate_and_count_records (rs : List (List UInt8)) :
    ∀ (pre post : List UInt8) (n0 : Nat), (∀ r ∈ rs, record_ok r) →
      validate_and_count (pre ++ (rs.flatten ++ post)) (pre.length + total_len rs)
          (rs.length + 1) pre.length n0
        = .done (pre.length + total_len rs) (n0 + rs.length) := by
  induction rs with
  | nil =>
    intro pre post n0 _
    have h : ¬ (pre.length + SIZEOF_HDR ≤ pre.length + 0) := by
      show ¬ (pre.length + 12 ≤ pre.length + 0)
      omega
    simp [validate_and_count, total_len, h]
  | cons r rs ih =>
    intro pre post n0 hok
    obtain ⟨hlen, hsize, hmin⟩ := hok r (List.mem_cons_self _ _)
    have hlen12 : 12 ≤ r.length := hlen
    have hbuf : pre ++ ((r :: rs).flatten ++ post) = pre ++ (r ++ (rs.flatten ++ post)) := by
      simp [List.flatten, List.append_assoc]
    have hs : hdr_size (pre ++ (r ++ (rs.flatten ++ post))) pre.length = r.length := by
      unfold hdr_size
      rw [read_le_inside pre r _ 8 4 (by omega)]
      have : hdr_size r 0 = read_le r 8 4 := by simp [hdr_size]
      rw [← this, hsize]
    have ht : hdr_type (pre ++ (r ++ (rs.flatten ++ post))) pre.length = hdr_type r 0 := by
      unfold hdr_type
      have := read_le_inside pre r (rs.flatten ++ post) 0 4 (by omega)
      simpa using this
    have h1 : pre.length + SIZEOF_HDR ≤ pre.length + total_len (r :: rs) := by
      rw [total_len_cons]
      show pre.length + 12 ≤ _
      omega
    have h2 : ¬ r.length < SIZEOF_HDR := by
      show ¬ r.length < 12
      omega
    have h3 : ¬ pre.length + total_len (r :: rs) < pre.length + r.length := by
      rw [total_len_cons]
      omega
    have h4 : ¬ r.length < ev_min_size (hdr_type r 0) := by omega
    have hrec := ih (pre ++ r) post (n0 + 1) (fun x hx => hok x (List.mem_cons_of_mem _ hx))
    rw [List.append_assoc, List.length_append] at hrec
    rw [hbuf]
    show validate_and_count _ _ ((rs.length + 1) + 1) _ _ = _
    unfold validate_and_count
    rw [if_pos h1, hs, ht, if_neg h2, if_neg h3, if_neg h4, total_len_cons]
    rw [show pre.length + (r.length + total_len rs) = pre.length + r.length + total_len rs
      from by omega, hrec]
    simp only [List.length_cons]
    congr 1
    omega

/-- A drain from a queue whose records all pass the walker returns a buffer
that the walker runs through to offset `used`. -/
theorem drained_buffer_walks (L : lib_s) (out : List UInt8) (n u : Nat)
    (hn0 : SIZEOF_HDR ≤ n) (hn : n < SIZE_MOD) (hout : n ≤ out.length)
    (hok : ∀ r ∈ L.q.head, record_ok r) :
    ∃ buf used k, bvc_quic_drain_events (some L) (some out) n (some u)
        = ((bvc_quic_drain_events (some L) (some out) n (some u)).1, some buf, some used,
            if used = 0 then BVCQ_ERR_AGAIN else BVCQ_OK) ∧
      validate_and_count buf used (k + 1) 0 0 = .done used k := by
  obtain ⟨k, _, _, _, hused, hbuf, _⟩ := evq_copy_out_spec L.q out n hn hout
  have hn12 : ¬ n < SIZEOF_HDR := by omega
  refine ⟨(evq_copy_out L.q out n).2.1, (evq_copy_out L.q out n).2.2, (L.q.head.take k).length, ?_,
    ?_⟩
  · rw [drain_events_eq_copy_out L out n u hn12]
  · rw [hused, hbuf]
    have h := validate_and_count_records (L.q.head.take k) []
      (out.drop (total_len (L.q.head.take k))) 0
      (fun r hr => hok r (List.mem_of_mem_take hr))
    simpa using h

/-! ## the records the emitters push -/

theorem emit_bytes_take (L : lib_s) (sz : Nat) (b : List UInt8) :
    emit_bytes L sz b = emit_bytes L sz (b.take sz) := by
  unfold emit_bytes
  simp [List.take_take]

theorem addr_bytes_length (a : bvcq_addr) : (addr_bytes a).length = 66 := by
  simp [addr_bytes, le_bytes_length]

/-- An emitter that builds a header with the size `sz` of what it builds, `sz`
fitting 32 bits and reaching the minimum of the type, queues a record that
passes the walker (or nothing). -/
theorem emit_bytes_record_ok (L : lib_s) (sz type : Nat) (payload : List UInt8)
    (hsz : sz = 12 + payload.length) (ht : type < 2 ^ 32) (hlt : sz < 2 ^ 32)
    (hmin : ev_min_size type ≤ sz) :
    ∀ r ∈ (emit_bytes L sz (ev_hdr type sz ++ payload)).q.head, r ∈ L.q.head ∨ record_ok r := by
  intro r hr
  rw [emit_bytes_q_full _ _ _ (by simp [ev_hdr_length, hsz])] at hr
  rcases List.mem_append.mp hr with h | h
  · exact Or.inl h
  · right
    split at h
    · simp only [List.mem_singleton] at h
      subst h
      subst hsz
      exact record_ok_spec_record type payload ht hlt hmin
    · simp at h

/-- Every record queued by one of the eight emitters passes the walker: its
length is its header's size field and reaches the minimum of its type.  For
`emit_stream_read` and `emit_dgram_read` this needs a payload of `len` bytes whose
record size `28 + len` (`24 + len`) is below 2^32. -/
theorem emitters_push_ok_records (L : lib_s) (cid lstid sid app t len : Nat) (peer : bvcq_addr)
    (bidi fin : Bool) (buf : List UInt8) (hlen : buf.length = len) (hmax : len + 28 < U32_MOD) :
    (∀ r ∈ (emit_conn_accepted L cid lstid peer).q.head, r ∈ L.q.head ∨ record_ok r) ∧
    (∀ r ∈ (emit_conn_connected L cid peer).q.head, r ∈ L.q.head ∨ record_ok r) ∧
    (∀ r ∈ (emit_conn_closed L cid app t).q.head, r ∈ L.q.head ∨ record_ok r) ∧
    (∀ r ∈ (emit_conn_cert_required L cid).q.head, r ∈ L.q.head ∨ record_ok r) ∧
    (∀ r ∈ (emit_stream_opened L cid sid bidi).q.head, r ∈ L.q.head ∨ record_ok r) ∧
    (∀ r ∈ (emit_stream_writable L sid).q.head, r ∈ L.q.head ∨ record_ok r) ∧
    (∀ r ∈ (emit_stream_read L sid fin buf len).q.head, r ∈ L.q.head ∨ record_ok r) ∧
    (∀ r ∈ (emit_dgram_read L cid buf len).q.head, r ∈ L.q.head ∨ record_ok r) := by
  have hU : U32_MOD = 2 ^ 32 := rfl
  have htake : buf.take len = buf := List.take_of_length_le (by omega)
  refine ⟨?_, ?_, ?_, ?_, ?_, ?_, ?_, ?_⟩
  · unfold emit_conn_accepted
    dsimp only
    rw [show (SIZEOF_HDR + 8 + 8 + SIZEOF_ADDR) % U32_MOD = 94 from by decide]
    simp only [List.append_assoc]
    exact emit_bytes_record_ok L 94 _ _ (by simp [le_bytes_length, addr_bytes_length])
      (by decide) (by decide) (by decide)
  · unfold emit_conn_connected
    dsimp only
    rw [show (SIZEOF_HDR + 8 + SIZEOF_ADDR) % U32_MOD = 86 from by decide]
    simp only [List.append_assoc]
    exact emit_bytes_record_ok L 86 _ _ (by simp [le_bytes_length, addr_bytes_length])
      (by decide) (by decide) (by decide)
  · unfold emit_conn_closed
    dsimp only
    rw [show (SIZEOF_HDR + 8 + 4 + 4) % U32_MOD = 28 from by decide]
    simp only [List.append_assoc]
    exact emit_bytes_record_ok L 28 _ _ (by simp [le_bytes_length]) (by decide) (by decide)
      (by decide)
  · unfold emit_conn_cert_required
    dsimp only
    rw [show (SIZEOF_HDR + 8) % U32_MOD = 20 from by decide]
    exact emit_bytes_record_ok L 20 _ _ (by simp [le_bytes_length]) (by decide) (by decide)
      (by decide)
  · unfold emit_stream_opened
    dsimp only
    rw [show (SIZEOF_HDR + 8 + 8 + 1) % U32_MOD = 29 from by decide]
    simp only [List.append_assoc]
    exact emit_bytes_record_ok L 29 _ _ (by simp [le_bytes_length]) (by decide) (by decide)
      (by decide)
  · unfold emit_stream_writable
    dsimp only
    rw [show (SIZEOF_HDR + 8) % U32_MOD = 20 from by decide]
    exact emit_bytes_record_ok L 20 _ _ (by simp [le_bytes_length]) (by decide) (by decide)
      (by decide)
  · have hsz : (SIZEOF_HDR + 8 + 4 + 4 + len) % U32_MOD = 28 + len := by
      rw [Nat.mod_eq_of_lt (by show 12 + 8 + 4 + 4 + len < U32_MOD; omega)]
    unfold emit_stream_read
    dsimp only
    rw [hsz, htake]
    simp only [List.append_assoc]
    exact emit_bytes_record_ok L (28 + len) _ _ (by simp [le_bytes_length, hlen]; omega)
      (by decide) (by omega) (by
        show 28 ≤ 28 + len
        omega)
  · have hsz : (SIZEOF_HDR + 8 + 4 + len) % U32_MOD = 24 + len := by
      rw [Nat.mod_eq_of_lt (by show 12 + 8 + 4 + len < U32_MOD; omega)]
    unfold emit_dgram_read
    dsimp only
    rw [hsz, htake]
    simp only [List.append_assoc]
    exact emit_bytes_record_ok L (24 + len) _ _ (by simp [le_bytes_length, hlen]; omega)
      (by decide) (by omega) (by
        show 24 ≤ 24 + len
        omega)

/-- C16: for `len = 2^32 - 16` the size `12 + 8 + 4 + 4 + len` that `emit_stream_read`
computes in a `uint32_t` wraps to 12, and for `len = 2^32 - 12` the size of
`emit_dgram_read` wraps to 12: the record pushed is the bare 12-byte header, of
type 12 (resp. 20) with size field 12, below the minimum 28 (resp. 24) of its
type.  The drain returns these 12 bytes and the walker `validate_and_count`
fails its minimum-size assertion at offset 0. -/
theorem stream_read_record_below_minimum (sid cid : Nat) (fin : Bool) (buf : List UInt8) :
    (emit_stream_read lib_ready sid fin buf 4294967280).q.head
      = [[12, 0, 0, 0, 0, 0, 0, 0, 12, 0, 0, 0]] ∧
    (emit_dgram_read lib_ready cid buf 4294967284).q.head
      = [[20, 0, 0, 0, 0, 0, 0, 0, 12, 0, 0, 0]] ∧
    hdr_type [12, 0, 0, 0, 0, 0, 0, 0, 12, 0, 0, 0] 0 = BVCQ_EV_STREAM_READ ∧
    hdr_size [12, 0, 0, 0, 0, 0, 0, 0, 12, 0, 0, 0] 0 = 12 ∧
    ev_min_size BVCQ_EV_STREAM_READ = 28 ∧
    hdr_type [20, 0, 0, 0, 0, 0, 0, 0, 12, 0, 0, 0] 0 = BVCQ_EV_DGRAM_READ ∧
    hdr_size [20, 0, 0, 0, 0, 0, 0, 0, 12, 0, 0, 0] 0 = 12 ∧
    ev_min_size BVCQ_EV_DGRAM_READ = 24 ∧
    (bvc_quic_drain_events (some (emit_stream_read lib_ready sid fin buf 4294967280))
        (some (List.replicate 16 0xCC)) 16 (some 0)).2
      = (some [12, 0, 0, 0, 0, 0, 0, 0, 12, 0, 0, 0, 0xCC, 0xCC, 0xCC, 0xCC], some 12, BVCQ_OK) ∧
    validate_and_count [12, 0, 0, 0, 0, 0, 0, 0, 12, 0, 0, 0, 0xCC, 0xCC, 0xCC, 0xCC] 12 2 0 0
      = .assert_failed 0 := by
  have h1 : emit_stream_read lib_ready sid fin buf 4294967280
      = emit_bytes lib_ready 12 (ev_hdr BVCQ_EV_STREAM_READ 12) := by
    unfold emit_stream_read
    dsimp only
    rw [show (SIZEOF_HDR + 8 + 4 + 4 + 4294967280) % U32_MOD = 12 from by decide,
      emit_bytes_take]
    simp only [List.append_assoc]
    rw [List.take_left' (ev_hdr_length _ _)]
  have h2 : emit_dgram_read lib_ready cid buf 4294967284
      = emit_bytes lib_ready 12 (ev_hdr BVCQ_EV_DGRAM_READ 12) := by
    unfold emit_dgram_read
    dsimp only
    rw [show (SIZEOF_HDR + 8 + 4 + 4294967284) % U32_MOD = 12 from by decide,
      emit_bytes_take]
    simp only [List.append_assoc]
    rw [List.take_left' (ev_hdr_length _ _)]
  rw [h1, h2]
  decide

/-! ## the certificate decision: statuses and round trip -/

/-- The call `bvc_quic_conn_cert_complete` on a pending decision: the engine is called,
`cert_deferred` is cleared when the engine call succeeds, and the status is
that of `st_from_quic`. -/
theorem cert_complete_pending (L : lib_s) (c : Nat) (accept : Bool) (alert : Nat)
    (st : QUIC_STATUS) (cc : conn_t) (hf : tbl_find_conn L.tbl c = some cc) (hh : cc.h ≠ 0)
    (hd : cc.cert_deferred = true) (hcl : cc.closing = false) :
    bvc_quic_conn_cert_complete (some L) c accept alert st
      = (some (if QUIC_SUCCEEDED st = true then
            (L.call (.ConnectionCertificateValidationComplete cc.h accept alert)).store_conn
              { cc with cert_deferred := false }
          else L.call (.ConnectionCertificateValidationComplete cc.h accept alert)),
         st_from_quic st) := by
  simp [bvc_quic_conn_cert_complete, hf, hh, hd, hcl]

/-- C21 (counterexample): connection 2 has a certificate decision pending and
the engine call fails; `bvc_quic_conn_cert_complete` returns `BVCQ_ERR_SYS`, which is none
of `BVCQ_OK`, `BVCQ_ERR_NOTFOUND`, `BVCQ_ERR_BADARG`. -/
theorem cert_complete_engine_failure_sys :
    (bvc_quic_conn_cert_complete (some lib_cert_pending) 2 true 0 (.failure 5)).2 = BVCQ_ERR_SYS ∧
    ¬ ((bvc_quic_conn_cert_complete (some lib_cert_pending) 2 true 0 (.failure 5)).2 = BVCQ_OK ∨
       (bvc_quic_conn_cert_complete (some lib_cert_pending) 2 true 0 (.failure 5)).2
          = BVCQ_ERR_NOTFOUND ∨
       (bvc_quic_conn_cert_complete (some lib_cert_pending) 2 true 0 (.failure 5)).2
          = BVCQ_ERR_BADARG) := by
  decide

/-- C21 (amended): for every connection id, accept flag, alert code, library
state and engine outcome, the status returned by `bvc_quic_conn_cert_complete` is one of
`BVCQ_OK`, `BVCQ_ERR_NOTFOUND`, `BVCQ_ERR_BADARG` or `BVCQ_ERR_SYS`; it is
`BVCQ_ERR_SYS` exactly when the engine's `ConnectionCertificateValidationComplete`
was called and failed, and `BVCQ_OK` exactly when it was called and did not
fail. -/
theorem cert_complete_status (G : Option lib_s) (c : Nat) (accept : Bool) (alert : Nat)
    (st : QUIC_STATUS) :
    ((bvc_quic_conn_cert_complete G c accept alert st).2 = BVCQ_OK ∨
     (bvc_quic_conn_cert_complete G c accept alert st).2 = BVCQ_ERR_NOTFOUND ∨
     (bvc_quic_conn_cert_complete G c accept alert st).2 = BVCQ_ERR_BADARG ∨
     (bvc_quic_conn_cert_complete G c accept alert st).2 = BVCQ_ERR_SYS) ∧
    ((bvc_quic_conn_cert_complete G c accept alert st).2 = BVCQ_ERR_SYS ↔
      (QUIC_FAILED st = true ∧ ∃ h, engine_calls (bvc_quic_conn_cert_complete G c accept alert st).1
        = engine_calls G ++ [.ConnectionCertificateValidationComplete h accept alert])) ∧
    ((bvc_quic_conn_cert_complete G c accept alert st).2 = BVCQ_OK ↔
      (QUIC_FAILED st = false ∧ ∃ h, engine_calls (bvc_quic_conn_cert_complete G c accept alert st).1
        = engine_calls G ++ [.ConnectionCertificateValidationComplete h accept alert])) := by
  cases G with
  | none => simp [bvc_quic_conn_cert_complete, engine_calls]
  | some L =>
    cases hf : tbl_find_conn L.tbl c with
    | none => simp [bvc_quic_conn_cert_complete, hf, engine_calls]
    | some cc =>
      by_cases h1 : cc.h = 0 ∨ cc.cert_deferred = false
      · simp [bvc_quic_conn_cert_complete, hf, h1, engine_calls]
      · by_cases h2 : cc.closing = true
        · simp [bvc_quic_conn_cert_complete, hf, h1, h2, engine_calls]
        · have hh : cc.h ≠ 0 := fun h => h1 (Or.inl h)
          have hd : cc.cert_deferred = true := by
            cases hx : cc.cert_deferred
            · exact absurd (Or.inr hx) h1
            · rfl
          have hcl : cc.closing = false := by simpa using h2
          rw [cert_complete_pending L c accept alert st cc hf hh hd hcl]
          cases hs : QUIC_FAILED st <;>
            simp [st_from_quic, QUIC_SUCCEEDED, hs, engine_calls, lib_s.call, lib_s.store_conn]

/-- The `PEER_CERTIFICATE_RECEIVED` callback on a handle that resolves to a record
that is not closing: `cert_deferred` is set on that record, the emitter runs,
and `QUIC_STATUS_PENDING` goes back to the engine. -/
theorem peer_certificate_received_effect (B : build_cfg) (L : lib_s) (Connection : HQUIC)
    (cc : conn_t) (hres : L.tbl.conns.find? (fun c => c.h == Connection) = some cc)
    (hfind : tbl_find_conn L.tbl cc.id = some cc) (hncl : cc.closing = false) :
    on_connection B L Connection .PEER_CERTIFICATE_RECEIVED
      = (emit_conn_cert_required (L.store_conn { cc with cert_deferred := true }) cc.id,
          QUIC_STATUS.QUIC_STATUS_PENDING) := by
  simp [on_connection, conn_id_from_h, hres, hfind, hncl]

/-- C22 (counterexample): the `PEER_CERTIFICATE_RECEIVED` callback arrives for the
known, non-closing connection 2 while the next allocation fails; `cert_deferred`
is set and `QUIC_STATUS_PENDING` is returned, but no certificate-required
record is pushed. -/
theorem cert_required_oom_not_pushed :
    emit_allocs_ok lib_connected_oom = false ∧
    (on_connection build_all lib_connected_oom_s 7 .PEER_CERTIFICATE_RECEIVED).2
      = QUIC_STATUS.QUIC_STATUS_PENDING ∧
    (conn_of (some (on_connection build_all lib_connected_oom_s 7 .PEER_CERTIFICATE_RECEIVED).1)
      2).map (fun c => c.cert_deferred) = some true ∧
    (on_connection build_all lib_connected_oom_s 7 .PEER_CERTIFICATE_RECEIVED).1.q.head = [] := by
  decide

/-- C22 (amended): a `PEER_CERTIFICATE_RECEIVED` callback on a non-null handle that
resolves to a known, non-closing connection record sets `cert_deferred` on it,
returns `QUIC_STATUS_PENDING` and appends exactly one certificate-required
record carrying the connection's id when the emitter's two allocations
succeed (none otherwise).  A following `bvc_quic_conn_cert_complete` whose engine call
does not fail returns `BVCQ_OK` and clears `cert_deferred`, and any
`bvc_quic_conn_cert_complete` repeated right after it returns `BVCQ_ERR_NOTFOUND` with the
state unchanged; when the engine call fails, `BVCQ_ERR_SYS` is returned and
`cert_deferred` stays set. -/
theorem cert_deferred_round_trip (B : build_cfg) (L : lib_s) (Connection : HQUIC) (cc : conn_t)
    (hres : L.tbl.conns.find? (fun c => c.h == Connection) = some cc)
    (hfind : tbl_find_conn L.tbl cc.id = some cc) (hncl : cc.closing = false)
    (hh : Connection ≠ 0) :
    (on_connection B L Connection .PEER_CERTIFICATE_RECEIVED).2 = QUIC_STATUS.QUIC_STATUS_PENDING ∧
    tbl_find_conn (on_connection B L Connection .PEER_CERTIFICATE_RECEIVED).1.tbl cc.id
      = some { cc with cert_deferred := true } ∧
    (on_connection B L Connection .PEER_CERTIFICATE_RECEIVED).1.q.head
      = L.q.head ++ (if emit_allocs_ok (some L) = true then [spec_conn_cert_required cc.id]
          else []) ∧
    ∀ (accept : Bool) (alert : Nat) (st : QUIC_STATUS),
      (QUIC_FAILED st = false →
        ∃ L2, bvc_quic_conn_cert_complete
            (some (on_connection B L Connection .PEER_CERTIFICATE_RECEIVED).1) cc.id accept alert st
          = (some L2, BVCQ_OK) ∧
        tbl_find_conn L2.tbl cc.id = some { cc with cert_deferred := false } ∧
        ∀ (accept1 : Bool) (alert1 : Nat) (st1 : QUIC_STATUS),
          bvc_quic_conn_cert_complete (some L2) cc.id accept1 alert1 st1
            = (some L2, BVCQ_ERR_NOTFOUND)) ∧
      (QUIC_FAILED st = true →
        ∃ L2, bvc_quic_conn_cert_complete
            (some (on_connection B L Connection .PEER_CERTIFICATE_RECEIVED).1) cc.id accept alert st
          = (some L2, BVCQ_ERR_SYS) ∧
        tbl_find_conn L2.tbl cc.id = some { cc with cert_deferred := true }) := by
  have hhc : cc.h = Connection := by
    have := List.find?_some hres
    simpa using this
  have hcch : cc.h ≠ 0 := by rw [hhc]; exact hh
  rw [peer_certificate_received_effect B L Connection cc hres hfind hncl]
  have hf1 : tbl_find_conn
      (emit_conn_cert_required (L.store_conn { cc with cert_deferred := true }) cc.id).tbl cc.id
      = some { cc with cert_deferred := true } := by
    rw [emit_conn_cert_required_tbl]
    exact conns_store_find _ _ cc _ hfind rfl
  refine ⟨rfl, hf1, ?_, ?_⟩
  · rw [emit_conn_cert_required_ref]
    rfl
  · intro accept alert st
    have hp := cert_complete_pending
      (emit_conn_cert_required (L.store_conn { cc with cert_deferred := true }) cc.id) cc.id
      accept alert st { cc with cert_deferred := true } hf1 hcch rfl hncl
    constructor
    · intro hs
      have hsucc : QUIC_SUCCEEDED st = true := by simp [QUIC_SUCCEEDED, hs]
      have hst : st_from_quic st = BVCQ_OK := by simp [st_from_quic, hsucc]
      rw [hp, if_pos hsucc, hst]
      have hf2 : tbl_find_conn
          (((emit_conn_cert_required (L.store_conn { cc with cert_deferred := true }) cc.id).call
              (.ConnectionCertificateValidationComplete cc.h accept alert)).store_conn
            { cc with cert_deferred := false }).tbl cc.id
          = some { cc with cert_deferred := false } := by
        have h0 := conns_store_find
          (emit_conn_cert_required (L.store_conn { cc with cert_deferred := true }) cc.id).tbl.conns
          cc.id { cc with cert_deferred := true } { cc with cert_deferred := false } hf1 rfl
        exact h0
      refine ⟨_, rfl, hf2, ?_⟩
      intro accept1 alert1 st1
      simp only [bvc_quic_conn_cert_complete, hf2]
      simp
    · intro hs
      have hsucc : ¬ (QUIC_SUCCEEDED st = true) := by simp [QUIC_SUCCEEDED, hs]
      have hst : st_from_quic st = BVCQ_ERR_SYS := by simp [st_from_quic, QUIC_SUCCEEDED, hs]
      rw [hp, if_neg hsucc, hst]
      refine ⟨_, rfl, ?_⟩
      rw [call_tbl]
      exact hf1

/-- C22 (witness): the round trip on connection 2 (handle 7) of the connected
library: the callback queues the certificate-required record for id 2, the
accepted decision returns `BVCQ_OK`. -/
theorem cert_deferred_round_trip_witness :
    (on_connection build_all lib_connected_s 7 .PEER_CERTIFICATE_RECEIVED).1.q.head
      = [[4, 0, 0, 0, 0, 0, 0, 0, 20, 0, 0, 0, 2, 0, 0, 0, 0, 0, 0, 0]] ∧
    (bvc_quic_conn_cert_complete
        (some (on_connection build_all lib_connected_s 7 .PEER_CERTIFICATE_RECEIVED).1) 2 true 0
        QUIC_STATUS.QUIC_STATUS_SUCCESS).2 = BVCQ_OK :=
  have h := cert_deferred_round_trip build_all lib_connected_s 7 sample_conn (by decide)
    (by decide) rfl (by decide)
  ⟨h.2.2.1.trans (by decide), by
    obtain ⟨L2, h2, _⟩ := (h.2.2.2 true 0 QUIC_STATUS.QUIC_STATUS_SUCCESS).1 rfl
    exact congrArg Prod.snd h2⟩

/-! ## opening streams -/

theorem emit_stream_opened_all_ok (L : lib_s) (cid sid : Nat) (bidi : Bool) (h : L.heap.all_ok) :
    (emit_stream_opened L cid sid bidi).heap.all_ok := by
  unfold emit_stream_opened
  exact (emit_bytes_ok L _ _ h).2

theorem emit_stream_writable_all_ok (L : lib_s) (sid : Nat) (h : L.heap.all_ok) :
    (emit_stream_writable L sid).heap.all_ok := by
  unfold emit_stream_writable
  exact (emit_bytes_ok L _ _ h).2

/-- What `bvc_quic_stream_open` does when it goes past all its early returns. -/
theorem stream_open_success (L : lib_s) (cid : Nat) (bidi : Bool) (st_open : QUIC_STATUS)
    (s : HQUIC) (st_start : QUIC_STATUS) (c : conn_t) (hf : tbl_find_conn L.tbl cid = some c)
    (hh : c.h ≠ 0) (hcl : c.closing = false) (ho : QUIC_FAILED st_open = false)
    (hs : QUIC_FAILED st_start = false) :
    bvc_quic_stream_open (some L) cid bidi true st_open s st_start
      = (some (emit_stream_writable
            (emit_stream_opened
              (({ (L.call (.StreamOpen c.h bidi)) with
                  tbl := (tbl_add_strm L.tbl s cid bidi).2 } : lib_s).call (.StreamStart s))
              cid L.tbl.next_id bidi)
            L.tbl.next_id),
          some L.tbl.next_id, BVCQ_OK) := by
  have hid : c.id = cid := find_conn_id hf
  simp [bvc_quic_stream_open, hf, hh, hcl, ho, hs, hid, tbl_add_strm, tbl_newid]

/-- A call of `bvc_quic_stream_open` that returns `BVCQ_OK` went past all its early
returns. -/
theorem stream_open_ok_inv (L : lib_s) (cid : Nat) (bidi out_sid : Bool) (st_open : QUIC_STATUS)
    (s : HQUIC) (st_start : QUIC_STATUS)
    (hok : (bvc_quic_stream_open (some L) cid bidi out_sid st_open s st_start).2.2 = BVCQ_OK) :
    out_sid = true ∧ QUIC_FAILED st_open = false ∧ QUIC_FAILED st_start = false ∧
    ∃ c, tbl_find_conn L.tbl cid = some c ∧ c.h ≠ 0 ∧ c.closing = false := by
  cases ho : out_sid
  · simp [bvc_quic_stream_open, ho] at hok
  · cases hf : tbl_find_conn L.tbl cid with
    | none => simp [bvc_quic_stream_open, ho, hf] at hok
    | some c =>
      by_cases hh : c.h = 0
      · simp [bvc_quic_stream_open, ho, hf, hh] at hok
      · cases hcl : c.closing
        · cases h1 : QUIC_FAILED st_open
          · cases h2 : QUIC_FAILED st_start
            · exact ⟨rfl, rfl, rfl, c, rfl, hh, hcl⟩
            · simp [bvc_quic_stream_open, ho, hf, hh, hcl, h1, h2] at hok
          · simp [bvc_quic_stream_open, ho, hf, hh, hcl, h1] at hok
        · simp [bvc_quic_stream_open, ho, hf, hh, hcl] at hok

/-- One successful open with all allocations succeeding: the two records, the
id, and what the next open needs. -/
theorem stream_open_success_records (L : lib_s) (cid : Nat) (bidi : Bool) (st_open : QUIC_STATUS)
    (s : HQUIC) (st_start : QUIC_STATUS) (c : conn_t) (hf : tbl_find_conn L.tbl cid = some c)
    (hh : c.h ≠ 0) (hcl : c.closing = false) (ho : QUIC_FAILED st_open = false)
    (hs : QUIC_FAILED st_start = false) (hheap : L.heap.all_ok) :
    ∃ L1, bvc_quic_stream_open (some L) cid bidi true st_open s st_start
        = (some L1, some L.tbl.next_id, BVCQ_OK) ∧
      L1.q.head = L.q.head ++ spec_stream_open_records cid L.tbl.next_id bidi ∧
      L1.tbl.next_id = (L.tbl.next_id + 1) % SIZE_MOD ∧
      L1.tbl.conns = L.tbl.conns ∧
      L1.tbl.strms = L.tbl.strms ++ [{ id := L.tbl.next_id, h := s, conn_id := cid,
                                       read_enabled := true, bidi := bidi }] ∧
      L1.heap.all_ok := by
  refine ⟨_, stream_open_success L cid bidi st_open s st_start c hf hh hcl ho hs, ?_, ?_, ?_, ?_, ?_⟩
  · have ha1 : emit_allocs_ok (some (({ (L.call (.StreamOpen c.h bidi)) with
        tbl := (tbl_add_strm L.tbl s cid bidi).2 } : lib_s).call (.StreamStart s))) = true :=
      all_ok_emit_allocs _ hheap
    have hh2 : (emit_stream_opened (({ (L.call (.StreamOpen c.h bidi)) with
        tbl := (tbl_add_strm L.tbl s cid bidi).2 } : lib_s).call (.StreamStart s))
        cid L.tbl.next_id bidi).heap.all_ok := emit_stream_opened_all_ok _ _ _ _ hheap
    rw [emit_stream_writable_ref, if_pos (all_ok_emit_allocs _ hh2), emit_stream_opened_ref,
      if_pos ha1]
    simp [spec_stream_open_records, lib_s.call]
  · simp [tbl_add_strm, tbl_newid, lib_s.call]
  · simp [tbl_add_strm, tbl_newid, lib_s.call]
  · simp [tbl_add_strm, tbl_newid, lib_s.call]
  · exact emit_stream_writable_all_ok _ _ (emit_stream_opened_all_ok _ _ _ _ hheap)

theorem spec_stream_opened_type (cid sid : Nat) (bidi : Bool) :
    hdr_type (spec_stream_opened cid sid bidi) 0 = 10 := by
  have h := (spec_record_hdr 10 (le_bytes 8 cid ++ le_bytes 8 sid ++ [if bidi then 1 else 0])).1
  simpa [spec_stream_opened] using h

theorem spec_stream_writable_type (sid : Nat) : hdr_type (spec_stream_writable sid) 0 = 11 := by
  have h := (spec_record_hdr 11 (le_bytes 8 sid)).1
  simpa [spec_stream_writable] using h

/-- The records of `n` successive opens: `n` stream-opened and `n`
stream-writable records. -/
theorem spec_open_many_records_count (cid : Nat) (ps : List (Bool × HQUIC)) :
    ∀ k, (spec_open_many_records cid k ps).length = 2 * ps.length ∧
      ((spec_open_many_records cid k ps).filter
        (fun r => hdr_type r 0 == BVCQ_EV_STREAM_OPENED)).length = ps.length ∧
      ((spec_open_many_records cid k ps).filter
        (fun r => hdr_type r 0 == BVCQ_EV_STREAM_WRITABLE)).length = ps.length := by
  induction ps with
  | nil => intro k; simp [spec_open_many_records]
  | cons p ps ih =>
    intro k
    obtain ⟨h1, h2, h3⟩ := ih (k + 1)
    simp only [spec_open_many_records, spec_stream_open_records, List.cons_append,
      List.nil_append, List.length_cons, List.filter_cons, spec_stream_opened_type,
      spec_stream_writable_type, h1, h2, h3]
    refine ⟨by omega, ?_, ?_⟩
    · simp [h2]
    · simp [h3]

/-- The loop `stream_open_many` on a live, non-closing connection with every
allocation succeeding and the id counter not wrapping: the ids written are
consecutive and the queue grows by the two records of each open, in call
order. -/
theorem stream_open_many_spec (cid : Nat) (ps : List (Bool × HQUIC)) :
    ∀ (L : lib_s) (c : conn_t), tbl_find_conn L.tbl cid = some c → c.h ≠ 0 → c.closing = false →
      L.heap.all_ok → L.tbl.next_id + ps.length < SIZE_MOD →
      (stream_open_many cid (some L) ps).2 = List.range' L.tbl.next_id ps.length ∧
      queued (stream_open_many cid (some L) ps).1
        = L.q.head ++ spec_open_many_records cid L.tbl.next_id ps := by
  induction ps with
  | nil =>
    intro L c _ _ _ _ _
    simp [stream_open_many, spec_open_many_records, queued]
  | cons p ps ih =>
    intro L c hf hh hcl hheap hn
    obtain ⟨L1, h1, hq, hnext, hconns, _, hheap1⟩ :=
      stream_open_success_records L cid p.1 QUIC_STATUS.QUIC_STATUS_SUCCESS p.2
        QUIC_STATUS.QUIC_STATUS_SUCCESS c hf hh hcl rfl rfl hheap
    have hlen : (p :: ps).length = ps.length + 1 := rfl
    rw [hlen] at hn
    have hnext1 : L1.tbl.next_id = L.tbl.next_id + 1 := by
      rw [hnext, Nat.mod_eq_of_lt (by omega)]
    have hf1 : tbl_find_conn L1.tbl cid = some c := by
      unfold tbl_find_conn at hf ⊢
      rw [hconns]
      exact hf
    obtain ⟨i1, i2⟩ := ih L1 c hf1 hh hcl hheap1 (by rw [hnext1]; omega)
    simp only [stream_open_many, h1]
    refine ⟨?_, ?_⟩
    · rw [i1, hnext1, hlen, List.range'_succ]
      rfl
    · rw [i2, hq, hnext1]
      simp [spec_open_many_records, List.append_assoc]

/-- C23 (counterexample): with the next allocation failing, `bvc_quic_stream_open` on the
live, non-closing connection 2 returns `BVCQ_OK` and writes the stream id 3,
but appends one record only, the stream-writable one: the stream-opened record
is lost. -/
theorem stream_open_oom_one_record :
    (bvc_quic_stream_open lib_connected_oom 2 true true QUIC_STATUS.QUIC_STATUS_SUCCESS 9
      QUIC_STATUS.QUIC_STATUS_SUCCESS).2 = (some 3, BVCQ_OK) ∧
    queued lib_connected_oom = [] ∧
    queued (bvc_quic_stream_open lib_connected_oom 2 true true QUIC_STATUS.QUIC_STATUS_SUCCESS 9
      QUIC_STATUS.QUIC_STATUS_SUCCESS).1 = [spec_stream_writable 3] := by
  decide

/-- C23 (amended): every `bvc_quic_stream_open(cid, bidi, &sid)` that returns `BVCQ_OK`,
with the allocations of its two emitters succeeding, appends exactly two
records to the queue, in this order: stream-opened `(cid, sid, bidi)` with
`bidi` as 0 or 1, and stream-writable `(sid)`, where `sid` is the id taken from
the shared counter and the value written to `*out_sid`.  Hence `n` successive
opens on that connection, while the counter stays below 2^64, write `n`
consecutive (pairwise distinct) ids and append exactly `n` stream-opened and
`n` stream-writable records. -/
theorem stream_open_two_records (L : lib_s) (cid : Nat) (bidi out_sid : Bool)
    (st_open : QUIC_STATUS) (s : HQUIC) (st_start : QUIC_STATUS)
    (hok : (bvc_quic_stream_open (some L) cid bidi out_sid st_open s st_start).2.2 = BVCQ_OK)
    (hheap : L.heap.all_ok) :
    (∃ L1, bvc_quic_stream_open (some L) cid bidi out_sid st_open s st_start
        = (some L1, some L.tbl.next_id, BVCQ_OK) ∧
      L1.q.head = L.q.head
        ++ [spec_stream_opened cid L.tbl.next_id bidi, spec_stream_writable L.tbl.next_id] ∧
      L1.tbl.strms = L.tbl.strms ++ [{ id := L.tbl.next_id, h := s, conn_id := cid,
                                       read_enabled := true, bidi := bidi }]) ∧
    (∀ ps : List (Bool × HQUIC), L.tbl.next_id + ps.length < SIZE_MOD →
      (stream_open_many cid (some L) ps).2 = List.range' L.tbl.next_id ps.length ∧
      (stream_open_many cid (some L) ps).2.Nodup ∧
      queued (stream_open_many cid (some L) ps).1
        = L.q.head ++ spec_open_many_records cid L.tbl.next_id ps ∧
      (spec_open_many_records cid L.tbl.next_id ps).length = 2 * ps.length ∧
      ((spec_open_many_records cid L.tbl.next_id ps).filter
        (fun r => hdr_type r 0 == BVCQ_EV_STREAM_OPENED)).length = ps.length ∧
      ((spec_open_many_records cid L.tbl.next_id ps).filter
        (fun r => hdr_type r 0 == BVCQ_EV_STREAM_WRITABLE)).length = ps.length) := by
  obtain ⟨ho, h1, h2, c, hf, hh, hcl⟩ := stream_open_ok_inv L cid bidi out_sid st_open s st_start hok
  subst ho
  obtain ⟨L1, e1, hq, _, _, hstr, _⟩ :=
    stream_open_success_records L cid bidi st_open s st_start c hf hh hcl h1 h2 hheap
  refine ⟨⟨L1, e1, hq, hstr⟩, ?_⟩
  intro ps hn
  obtain ⟨m1, m2⟩ := stream_open_many_spec cid ps L c hf hh hcl hheap hn
  obtain ⟨c1, c2, c3⟩ := spec_open_many_records_count cid ps L.tbl.next_id
  refine ⟨m1, ?_, m2, c1, c2, c3⟩
  rw [m1]
  exact List.nodup_range' _ _

/-- C23 (witness): the open of a bidirectional stream (handle 9) on connection 2
of the connected library writes the id 3 and queues stream-opened(2, 3, 1) and
stream-writable(3). -/
theorem stream_open_two_records_witness :
    bvc_quic_stream_open lib_connected 2 true true QUIC_STATUS.QUIC_STATUS_SUCCESS 9
        QUIC_STATUS.QUIC_STATUS_SUCCESS
      = (some lib_streaming, some 3, BVCQ_OK) ∧
    lib_streaming.q.head
      = [[10, 0, 0, 0, 0, 0, 0, 0, 29, 0, 0, 0, 2, 0, 0, 0, 0, 0, 0, 0, 3, 0, 0, 0, 0, 0, 0, 0, 1],
         [11, 0, 0, 0, 0, 0, 0, 0, 20, 0, 0, 0, 3, 0, 0, 0, 0, 0, 0, 0]] ∧
    (stream_open_many 2 lib_connected [(true, 9), (false, 10), (true, 11)]).2 = [3, 4, 5] :=
  have h := stream_open_two_records lib_connected_s 2 true true QUIC_STATUS.QUIC_STATUS_SUCCESS 9
    QUIC_STATUS.QUIC_STATUS_SUCCESS (by decide) (by decide)
  ⟨by decide, by decide, (h.2 [(true, 9), (false, 10), (true, 11)] (by decide)).1.trans (by decide)⟩

/-! ## reads disabled on a stream -/

/-- Lookup by id after a write through a stream pointer obtained by a lookup. -/
theorem find_strms_store (cs : List strm_t) (id0 id : Nat) (s1 : strm_t) (hid : s1.id = id0) :
    (strms_store cs id0 s1).find? (fun x => x.id == id)
      = if id = id0 then (cs.find? (fun x => x.id == id0)).map (fun _ => s1)
        else cs.find? (fun x => x.id == id) := by
  induction cs with
  | nil => simp [strms_store]
  | cons x xs ih =>
    by_cases hx : x.id = id0
    · by_cases hi : id = id0
      · simp [strms_store, hx, hi, hid, List.find?_cons]
      · have hb : (id0 == id) = false := beq_false_of_ne (fun h => hi h.symm)
        simp [strms_store, hx, hi, List.find?_cons, hid, hb]
    · by_cases hi : id = id0
      · subst hi
        simp [strms_store, hx, List.find?_cons, ih]
      · simp only [strms_store, beq_iff_eq, hx, if_false, List.find?_cons, ih, hi]

theorem reads_disabled_of_strms {t t1 : tbl_s} {sid : Nat} (h : t1.strms = t.strms)
    (hd : reads_disabled t sid) : reads_disabled t1 sid := by
  obtain ⟨s, hs, hr⟩ := hd
  exact ⟨s, by simpa [tbl_find_strm, h] using hs, hr⟩

theorem reads_disabled_append {t t1 : tbl_s} {sid : Nat} (x : strm_t)
    (h : t1.strms = t.strms ++ [x]) (hd : reads_disabled t sid) : reads_disabled t1 sid := by
  obtain ⟨s, hs, hr⟩ := hd
  refine ⟨s, ?_, hr⟩
  unfold tbl_find_strm at *
  rw [h, List.find?_append, hs]
  rfl

/-- A write through a looked-up stream pointer that does not re-enable reads on
`sid`. -/
theorem reads_disabled_store {t t1 : tbl_s} {sid : Nat} (s0 s1 : strm_t)
    (hfind : tbl_find_strm t s1.id = some s0)
    (hmono : s1.id = sid → s0.read_enabled = false → s1.read_enabled = false)
    (ht1 : t1.strms = strms_store t.strms s1.id s1) (hd : reads_disabled t sid) :
    reads_disabled t1 sid := by
  obtain ⟨s, hs, hr⟩ := hd
  unfold reads_disabled tbl_find_strm at *
  rw [ht1, find_strms_store _ _ _ _ rfl]
  by_cases hi : sid = s1.id
  · subst hi
    rw [hfind] at hs
    cases hs
    exact ⟨s1, by simp [hfind], hmono rfl hr⟩
  · exact ⟨s, by simp [hi, hs], hr⟩

/-- A step whose result has the stream array it started with keeps reads
disabled. -/
theorem reads_disabled_of_map {G1 : Option lib_s} {L : lib_s} {sid : Nat}
    (h : G1.map (fun X => X.tbl.strms) = some L.tbl.strms) (hd : reads_disabled L.tbl sid) :
    ∃ L1, G1 = some L1 ∧ reads_disabled L1.tbl sid := by
  cases G1 with
  | none => simp at h
  | some L1 =>
    simp only [Option.map_some', Option.some.injEq] at h
    exact ⟨L1, rfl, reads_disabled_of_strms h hd⟩

theorem connect_strms (B : build_cfg) (L : lib_s) (cfg_id : Nat) (ip out_conn : Bool)
    (port : Nat) (st_open : QUIC_STATUS) (conn : HQUIC) (st_start : QUIC_STATUS) :
    (bvc_quic_connect B (some L) cfg_id ip out_conn port st_open conn st_start).1.map
      (fun X => X.tbl.strms) = some L.tbl.strms := by
  unfold bvc_quic_connect
  dsimp only
  repeat' split
  all_goals simp [enable_datagrams_tbl, tbl_add_conn, tbl_newid]

theorem conn_close_strms (L : lib_s) (id code : Nat) :
    (bvc_quic_conn_close (some L) id code).map (fun X => X.tbl.strms) = some L.tbl.strms := by
  unfold bvc_quic_conn_close
  dsimp only
  repeat' split
  all_goals simp

theorem cert_complete_strms (L : lib_s) (c : Nat) (accept : Bool) (alert : Nat)
    (st : QUIC_STATUS) :
    (bvc_quic_conn_cert_complete (some L) c accept alert st).1.map (fun X => X.tbl.strms)
      = some L.tbl.strms := by
  unfold bvc_quic_conn_cert_complete
  dsimp only
  repeat' split
  all_goals simp

theorem stream_send_strms (L : lib_s) (sid : Nat) (data : Option (List UInt8)) (fin : Bool)
    (flags : Nat) (st : QUIC_STATUS) :
    (bvc_quic_stream_send (some L) sid data fin flags st).1.map (fun X => X.tbl.strms)
      = some L.tbl.strms := by
  cases data with
  | none => rfl
  | some d =>
    simp only [bvc_quic_stream_send]
    repeat' split
    all_goals simp

theorem dgram_send_strms (L : lib_s) (cid : Nat) (data : Option (List UInt8))
    (st : QUIC_STATUS) :
    (bvc_quic_dgram_send (some L) cid data st).1.map (fun X => X.tbl.strms)
      = some L.tbl.strms := by
  cases data with
  | none => rfl
  | some d =>
    simp only [bvc_quic_dgram_send]
    repeat' split
    all_goals simp [lib_s.free_ctx]

theorem drain_events_strms (L : lib_s) (out_buf : Option (List UInt8)) (n : Nat)
    (out_used : Option Nat) :
    (bvc_quic_drain_events (some L) out_buf n out_used).1.map (fun X => X.tbl.strms)
      = some L.tbl.strms := by
  cases out_buf with
  | none => rfl
  | some buf =>
    cases out_used with
    | none => rfl
    | some u =>
      simp only [bvc_quic_drain_events]
      repeat' split
      all_goals simp

theorem listener_new_connection_strms (B : build_cfg) (L : lib_s) (lst conn : HQUIC)
    (st_cfg : QUIC_STATUS) (peer : bvcq_addr) :
    (on_listener_new_connection B (some L) lst conn st_cfg peer).1.map (fun X => X.tbl.strms)
      = some L.tbl.strms := by
  unfold on_listener_new_connection
  dsimp only
  repeat' split
  all_goals simp [enable_datagrams_tbl, tbl_add_conn, tbl_newid]

theorem on_stream_strms (L : lib_s) (s ctx : HQUIC) (e : QUIC_STREAM_EVENT) :
    (on_stream L s ctx e).1.tbl.strms = L.tbl.strms := by
  unfold on_stream
  cases e with
  | RECEIVE total bufs fin =>
    dsimp only
    repeat' split
    all_goals simp [on_stream_emit_loop_tbl]
  | SEND_COMPLETE =>
    dsimp only
    repeat' split
    all_goals simp
  | OTHER => rfl

theorem on_connection_strms (B : build_cfg) (L : lib_s) (h : HQUIC) (e : QUIC_CONNECTION_EVENT) :
    (on_connection B L h e).1.tbl.strms = L.tbl.strms ∨
    ∃ x, (on_connection B L h e).1.tbl.strms = L.tbl.strms ++ [x] := by
  unfold on_connection
  cases e with
  | PEER_STREAM_STARTED s uni =>
    dsimp only
    split
    · exact Or.inl rfl
    · exact Or.inr ⟨_, by simp [tbl_add_strm, tbl_newid]; rfl⟩
  | CONNECTED peer =>
    left
    dsimp only
    repeat' split
    all_goals simp
  | PEER_CERTIFICATE_RECEIVED =>
    left
    dsimp only
    repeat' split
    all_goals simp
  | DATAGRAM_RECEIVED buf =>
    left
    dsimp only
    repeat' split
    all_goals simp
  | DATAGRAM_SEND_STATE_CHANGED ctx st =>
    left
    dsimp only
    repeat' split
    all_goals simp [lib_s.free_ctx]
  | SHUTDOWN_COMPLETE =>
    left
    dsimp only
    repeat' split
    all_goals simp
  | OTHER => exact Or.inl rfl

theorem stream_open_reads_disabled (L : lib_s) (cid : Nat) (bidi out_sid : Bool)
    (st_open : QUIC_STATUS) (s : HQUIC) (st_start : QUIC_STATUS) (sid : Nat)
    (hd : reads_disabled L.tbl sid) :
    ∃ L1, (bvc_quic_stream_open (some L) cid bidi out_sid st_open s st_start).1 = some L1
      ∧ reads_disabled L1.tbl sid := by
  unfold bvc_quic_stream_open
  dsimp only
  split
  · exact ⟨L, rfl, hd⟩
  · split
    · exact ⟨L, rfl, hd⟩
    · split
      · exact ⟨L, rfl, hd⟩
      · split
        · exact ⟨L, rfl, hd⟩
        · split
          · exact ⟨_, rfl, reads_disabled_of_strms rfl hd⟩
          · split
            · exact ⟨_, rfl, reads_disabled_append _ (by simp [tbl_add_strm, tbl_newid]; rfl) hd⟩
            · exact ⟨_, rfl, reads_disabled_append _ (by simp [tbl_add_strm, tbl_newid]; rfl) hd⟩

theorem stream_shutdown_reads_disabled (L : lib_s) (sid0 sid : Nat)
    (hd : reads_disabled L.tbl sid) :
    ∃ L1, bvc_quic_stream_shutdown (some L) sid0 = some L1 ∧ reads_disabled L1.tbl sid := by
  unfold bvc_quic_stream_shutdown
  dsimp only
  split
  · exact ⟨L, rfl, hd⟩
  · rename_i s hs
    split
    · exact ⟨L, rfl, hd⟩
    · refine ⟨_, rfl, ?_⟩
      exact reads_disabled_store s { s with h := 0 }
        (by simpa [find_strm_id hs] using hs) (fun _ x => x) rfl hd

theorem set_read_enabled_reads_disabled (L : lib_s) (sid0 : Nat) (en : Bool) (st : QUIC_STATUS)
    (sid : Nat) (hne : (sid0 == sid && en) = false) (hd : reads_disabled L.tbl sid) :
    ∃ L1, (bvc_quic_stream_set_read_enabled (some L) sid0 en st).1 = some L1
      ∧ reads_disabled L1.tbl sid := by
  unfold bvc_quic_stream_set_read_enabled
  dsimp only
  split
  · exact ⟨L, rfl, hd⟩
  · rename_i s hs
    have hid : s.id = sid0 := find_strm_id hs
    split
    · exact ⟨L, rfl, hd⟩
    · split
      · exact ⟨L, rfl, hd⟩
      · refine ⟨_, rfl, ?_⟩
        refine reads_disabled_store s { s with read_enabled := en }
          (by simpa [hid] using hs) ?_ rfl hd
        intro h1 _
        have h2 : sid0 = sid := by rw [← hid]; exact h1
        subst h2
        simpa using hne

/-- Reads stay disabled on `sid` through every step other than a
`bvc_quic_stream_set_read_enabled(sid, 1)`. -/
theorem step_reads_disabled (B : build_cfg) (L : lib_s) (op : Op) (sid : Nat)
    (hop : Op.reenables sid op = false) (hd : reads_disabled L.tbl sid) :
    ∃ L1, step B (some L) op = some L1 ∧ reads_disabled L1.tbl sid := by
  cases op with
  | connect cfg_id ip out_conn port st_open conn st_start =>
    exact reads_disabled_of_map (connect_strms B L cfg_id ip out_conn port st_open conn st_start) hd
  | conn_close c_id code => exact reads_disabled_of_map (conn_close_strms L c_id code) hd
  | cert_complete c accept alert st =>
    exact reads_disabled_of_map (cert_complete_strms L c accept alert st) hd
  | stream_open cid bidi out_sid st_open s st_start =>
    exact stream_open_reads_disabled L cid bidi out_sid st_open s st_start sid hd
  | stream_send sid0 data fin flags st =>
    exact reads_disabled_of_map (stream_send_strms L sid0 data fin flags st) hd
  | stream_shutdown sid0 => exact stream_shutdown_reads_disabled L sid0 sid hd
  | stream_set_read_enabled sid0 en st =>
    exact set_read_enabled_reads_disabled L sid0 en st sid hop hd
  | dgram_send cid data st => exact reads_disabled_of_map (dgram_send_strms L cid data st) hd
  | drain_events out_buf n out_used =>
    exact reads_disabled_of_map (drain_events_strms L out_buf n out_used) hd
  | conn_event hc e =>
    refine ⟨_, rfl, ?_⟩
    rcases on_connection_strms B L hc e with h | ⟨x, h⟩
    · exact reads_disabled_of_strms h hd
    · exact reads_disabled_append x h hd
  | stream_event hs ctx e =>
    exact ⟨_, rfl, reads_disabled_of_strms (on_stream_strms L hs ctx e) hd⟩
  | listener_new_connection lst conn st_cfg peer =>
    exact reads_disabled_of_map (listener_new_connection_strms B L lst conn st_cfg peer) hd

theorem run_reads_disabled (B : build_cfg) (sid : Nat) (ops : List Op) :
    ∀ (L : lib_s), (∀ op ∈ ops, Op.reenables sid op = false) → reads_disabled L.tbl sid →
      ∃ L1, run B (some L) ops = some L1 ∧ reads_disabled L1.tbl sid := by
  induction ops with
  | nil => intro L _ hd; exact ⟨L, rfl, hd⟩
  | cons op ops ih =>
    intro L hops hd
    obtain ⟨L1, h1, hd1⟩ := step_reads_disabled B L op sid (hops op (List.mem_cons_self _ _)) hd
    obtain ⟨L2, h2, hd2⟩ := ih L1 (fun o ho => hops o (List.mem_cons_of_mem _ ho)) hd1
    refine ⟨L2, ?_, hd2⟩
    simp only [run, List.foldl_cons, h1]
    exact h2

/-- A call of `bvc_quic_stream_set_read_enabled` that returns `BVCQ_OK` found the stream
with a native handle and stored the flag. -/
theorem set_read_enabled_ok_effect (L L1 : lib_s) (sid : Nat) (en : Bool) (st : QUIC_STATUS)
    (h : bvc_quic_stream_set_read_enabled (some L) sid en st = (some L1, BVCQ_OK)) :
    ∃ s, tbl_find_strm L.tbl sid = some s ∧ s.h ≠ 0 ∧
      tbl_find_strm L1.tbl sid = some { s with read_enabled := en } ∧
      L1.q = L.q ∧ L1.heap = L.heap ∧ L1.tbl.conns = L.tbl.conns := by
  cases hs : tbl_find_strm L.tbl sid with
  | none => simp [bvc_quic_stream_set_read_enabled, hs] at h
  | some s =>
    have hid : s.id = sid := find_strm_id hs
    by_cases hh : s.h = 0
    · simp [bvc_quic_stream_set_read_enabled, hs, hh] at h
    · cases hc : (match tbl_find_conn L.tbl s.conn_id with
          | some c => c.closing
          | none => false)
      · simp only [bvc_quic_stream_set_read_enabled, hs, hh, if_false, hc, Bool.false_eq_true,
          Prod.mk.injEq, Option.some.injEq] at h
        obtain ⟨h1, _⟩ := h
        subst h1
        refine ⟨s, rfl, hh, ?_, rfl, rfl, rfl⟩
        simp only [tbl_find_strm, lib_s.store_strm, lib_s.call]
        rw [← hid]
        exact strms_store_find _ _ s _ (by rw [hid]; exact hs) rfl
      · simp [bvc_quic_stream_set_read_enabled, hs, hh, hc] at h

/-! ## the stream-read records of a `RECEIVE` event -/

theorem emit_stream_read_all_ok (L : lib_s) (sid : Nat) (fin : Bool) (buf : List UInt8)
    (len : Nat) (h : L.heap.all_ok) : (emit_stream_read L sid fin buf len).heap.all_ok := by
  unfold emit_stream_read
  exact (emit_bytes_ok L _ _ h).2

/-- The `for` loop of the `RECEIVE` branch with every allocation succeeding and
every buffer fitting the 32-bit record size: one reference record per buffer,
in buffer order. -/
theorem on_stream_emit_loop_records (sid : Nat) (fin : Bool) (count : Nat)
    (bufs : List (List UInt8)) :
    ∀ (L : lib_s) (i : Nat), L.heap.all_ok → (∀ b ∈ bufs, b.length + 28 < U32_MOD) →
      i + bufs.length < U32_MOD →
      (on_stream_emit_loop sid fin count L i bufs).q.head
        = L.q.head ++ spec_stream_reads sid fin count i bufs ∧
      (on_stream_emit_loop sid fin count L i bufs).heap.all_ok := by
  induction bufs with
  | nil =>
    intro L i hheap _ _
    simp [on_stream_emit_loop, spec_stream_reads, hheap]
  | cons b bufs ih =>
    intro L i hheap hb hi
    have hlen : (b :: bufs).length = bufs.length + 1 := rfl
    rw [hlen] at hi
    have hb0 : b.length + 28 < U32_MOD := hb b (List.mem_cons_self _ _)
    have hmodb : b.length % U32_MOD = b.length := Nat.mod_eq_of_lt (by omega)
    have hmodi : (i + 1) % U32_MOD = i + 1 := Nat.mod_eq_of_lt (by omega)
    have hq := emit_stream_read_ref L sid (fin && i + 1 == count) b b.length rfl hb0
    rw [if_pos (all_ok_emit_allocs L hheap)] at hq
    obtain ⟨i1, i2⟩ := ih (emit_stream_read L sid (fin && i + 1 == count) b b.length) (i + 1)
      (emit_stream_read_all_ok L sid _ b _ hheap)
      (fun x hx => hb x (List.mem_cons_of_mem _ hx)) (by omega)
    simp only [on_stream_emit_loop, hmodb, hmodi]
    refine ⟨?_, i2⟩
    rw [i1, hq]
    simp [spec_stream_reads, List.append_assoc]

/-- The test `parent && parent->closing` as `on_stream` computes it. -/
theorem on_stream_receive_eq (L : lib_s) (Stream Context : HQUIC) (total : Nat)
    (bufs : List (List UInt8)) (fin : Bool) :
    on_stream L Stream Context (.RECEIVE total bufs fin)
      = if stream_parent_closing L Context = true then
          (L.call (.StreamReceiveComplete Stream total), QUIC_STATUS.QUIC_STATUS_SUCCESS)
        else
          match tbl_find_strm L.tbl (strm_id_from_h L.tbl Stream) with
          | none => (L.call (.StreamReceiveComplete Stream total), QUIC_STATUS.QUIC_STATUS_SUCCESS)
          | some s =>
            if s.h = 0 then
              (L.call (.StreamReceiveComplete Stream total), QUIC_STATUS.QUIC_STATUS_SUCCESS)
            else if s.read_enabled = true then
              (on_stream_emit_loop (strm_id_from_h L.tbl Stream) fin (bufs.length % U32_MOD)
                (L.call (.StreamReceiveComplete Stream total)) 0 bufs,
               QUIC_STATUS.QUIC_STATUS_SUCCESS)
            else (L.call (.StreamReceiveComplete Stream total), QUIC_STATUS.QUIC_STATUS_SUCCESS) := by
  simp only [on_stream, stream_parent_closing, call_tbl]

/-- With reads disabled on the stream a `RECEIVE` callback resolves to, the
callback acknowledges the bytes and does nothing else. -/
theorem receive_reads_disabled (L : lib_s) (Stream Context : HQUIC) (total : Nat)
    (bufs : List (List UInt8)) (fin : Bool)
    (hd : reads_disabled L.tbl (strm_id_from_h L.tbl Stream)) :
    on_stream L Stream Context (.RECEIVE total bufs fin)
      = (L.call (.StreamReceiveComplete Stream total), QUIC_STATUS.QUIC_STATUS_SUCCESS) := by
  obtain ⟨s, hs, hr⟩ := hd
  rw [on_stream_receive_eq, hs]
  simp [hr]

/-- On a read-enabled stream with a native handle whose parent is not closing,
a `RECEIVE` callback acknowledges the bytes and runs the emit loop. -/
theorem receive_reads_enabled (L : lib_s) (Stream Context : HQUIC) (total : Nat)
    (bufs : List (List UInt8)) (fin : Bool) (s : strm_t)
    (hs : tbl_find_strm L.tbl (strm_id_from_h L.tbl Stream) = some s) (hh : s.h ≠ 0)
    (hr : s.read_enabled = true) (hp : stream_parent_closing L Context = false) :
    on_stream L Stream Context (.RECEIVE total bufs fin)
      = (on_stream_emit_loop (strm_id_from_h L.tbl Stream) fin (bufs.length % U32_MOD)
          (L.call (.StreamReceiveComplete Stream total)) 0 bufs,
         QUIC_STATUS.QUIC_STATUS_SUCCESS) := by
  rw [on_stream_receive_eq, hs]
  simp [hh, hr, hp]

/-- C24: after `bvc_quic_stream_set_read_enabled(sid, 0)` returned `BVCQ_OK`, and through
any further API calls and callbacks none of which is a
`bvc_quic_stream_set_read_enabled(sid, 1)`, a `RECEIVE` callback for that stream, with any
buffers and flags, pushes nothing: its whole effect is the acknowledgement of
`TotalBufferLength` to the engine.  After a `bvc_quic_stream_set_read_enabled(sid, 1)` that
returned `BVCQ_OK`, a `RECEIVE` callback for the stream (its parent connection
not closing) runs `emit_stream_read` for every buffer again; with the allocations
succeeding these are the stream-read records of the buffers, in order. -/
theorem reads_disabled_no_stream_read (B : build_cfg) (L0 L1 L : lib_s) (sid : Nat)
    (st0 : QUIC_STATUS) (ops : List Op)
    (hoff : bvc_quic_stream_set_read_enabled (some L0) sid false st0 = (some L1, BVCQ_OK))
    (hops : ∀ op ∈ ops, Op.reenables sid op = false)
    (hrun : run B (some L1) ops = some L) :
    (∀ (Stream Context : HQUIC) (total : Nat) (bufs : List (List UInt8)) (fin : Bool),
      strm_id_from_h L.tbl Stream = sid →
      on_stream L Stream Context (.RECEIVE total bufs fin)
        = (L.call (.StreamReceiveComplete Stream total), QUIC_STATUS.QUIC_STATUS_SUCCESS)) ∧
    (∀ (st1 : QUIC_STATUS) (L2 : lib_s) (Stream Context : HQUIC) (total : Nat)
        (bufs : List (List UInt8)) (fin : Bool),
      bvc_quic_stream_set_read_enabled (some L) sid true st1 = (some L2, BVCQ_OK) →
      strm_id_from_h L2.tbl Stream = sid → stream_parent_closing L2 Context = false →
      on_stream L2 Stream Context (.RECEIVE total bufs fin)
        = (on_stream_emit_loop sid fin (bufs.length % U32_MOD)
            (L2.call (.StreamReceiveComplete Stream total)) 0 bufs,
           QUIC_STATUS.QUIC_STATUS_SUCCESS) ∧
      (L2.heap.all_ok → (∀ b ∈ bufs, b.length + 28 < U32_MOD) → bufs.length < U32_MOD →
        (on_stream L2 Stream Context (.RECEIVE total bufs fin)).1.q.head
          = L2.q.head ++ spec_stream_reads sid fin bufs.length 0 bufs)) := by
  obtain ⟨s0, _, _, hs1, _, _, _⟩ := set_read_enabled_ok_effect L0 L1 sid false st0 hoff
  have hd1 : reads_disabled L1.tbl sid := ⟨_, hs1, rfl⟩
  obtain ⟨L', hL', hd⟩ := run_reads_disabled B sid ops L1 hops hd1
  rw [hrun] at hL'
  cases hL'
  constructor
  · intro Stream Context total bufs fin hres
    exact receive_reads_disabled L Stream Context total bufs fin (by rw [hres]; exact hd)
  · intro st1 L2 Stream Context total bufs fin hon hres hp
    obtain ⟨s, _, hh, hs2, _, _, _⟩ := set_read_enabled_ok_effect L L2 sid true st1 hon
    have he := receive_reads_enabled L2 Stream Context total bufs fin { s with read_enabled := true }
      (by rw [hres]; exact hs2) hh rfl hp
    rw [hres] at he
    refine ⟨he, ?_⟩
    intro hheap hb hn
    rw [he, Nat.mod_eq_of_lt hn]
    have h := (on_stream_emit_loop_records sid fin bufs.length bufs
      (L2.call (.StreamReceiveComplete Stream total)) 0 hheap hb (by omega)).1
    simpa using h

/-- C24 (witness): reads are disabled on stream 3 (handle 9) of `lib_streaming`;
after a send, a drain and a toggle on another stream, a `RECEIVE` of three
bytes with FIN queues nothing and acknowledges 3 bytes; after re-enabling, the
same callback queues the stream-read record. -/
theorem reads_disabled_no_stream_read_witness :
    bvc_quic_stream_set_read_enabled (some lib_streaming) 3 false QUIC_STATUS.QUIC_STATUS_SUCCESS
      = (some lib_reads_off, BVCQ_OK) ∧
    run build_all (some lib_reads_off) sample_ops_reads_off = some lib_reads_off_later ∧
    on_stream lib_reads_off_later 9 7 (.RECEIVE 3 [[1, 2, 3]] true)
      = (lib_reads_off_later.call (.StreamReceiveComplete 9 3), QUIC_STATUS.QUIC_STATUS_SUCCESS) ∧
    ((bvc_quic_stream_set_read_enabled (some lib_reads_off_later) 3 true
        QUIC_STATUS.QUIC_STATUS_SUCCESS).1.map
      (fun X => (on_stream X 9 7 (.RECEIVE 3 [[1, 2, 3]] true)).1.q.head))
      = some (lib_reads_off_later.q.head ++ [spec_stream_read 3 true [1, 2, 3]]) :=
  have h := reads_disabled_no_stream_read build_all lib_streaming lib_reads_off
    lib_reads_off_later 3 QUIC_STATUS.QUIC_STATUS_SUCCESS sample_ops_reads_off (by decide)
    (by decide) (by decide)
  ⟨by decide, by decide, h.1 9 7 3 [[1, 2, 3]] true (by decide), by decide⟩

/-- Decoding the reference stream-read record gives back its parts. -/
theorem decode_spec_stream_read (sid : Nat) (fin : Bool) (buf : List UInt8)
    (hsid : sid < SIZE_MOD) (hmax : buf.length + 28 < U32_MOD) :
    decode_stream_read (spec_stream_read sid fin buf) = (sid, fin, buf) := by
  obtain ⟨_, _, _, _, f5, f6, f7, f8⟩ := spec_stream_read_fields sid fin buf hsid hmax
  unfold decode_stream_read
  rw [f5, f6, f7, f8, List.take_of_length_le (Nat.le_refl _)]
  cases fin <;> rfl

theorem spec_stream_reads_length (sid : Nat) (fin : Bool) (count : Nat)
    (bufs : List (List UInt8)) : ∀ k, (spec_stream_reads sid fin count k bufs).length = bufs.length := by
  induction bufs with
  | nil => intro k; rfl
  | cons b bufs ih => intro k; simp [spec_stream_reads, ih]

/-- The `i`-th record of `spec_stream_reads` is the record of the `i`-th buffer;
its `fin` is set exactly when the event carries FIN and the buffer is the
last. -/
theorem spec_stream_reads_get (sid : Nat) (fin : Bool) (count : Nat)
    (bufs : List (List UInt8)) :
    ∀ k i, (spec_stream_reads sid fin count k bufs)[i]?
      = bufs[i]?.map (fun b => spec_stream_read sid (fin && k + i + 1 == count) b) := by
  induction bufs with
  | nil => intro k i; simp [spec_stream_reads]
  | cons b bufs ih =>
    intro k i
    cases i with
    | zero => simp [spec_stream_reads]
    | succ i =>
      simp only [spec_stream_reads, List.getElem?_cons_succ, ih (k + 1) i]
      have : k + 1 + i + 1 = k + (i + 1) + 1 := by omega
      rw [this]

/-- C28 (counterexample): stream 3 (handle 9) is read-enabled, its connection
is not closing, and the next allocation fails; a `RECEIVE` callback with one
buffer of three bytes and the FIN flag pushes no record, where the claim has
one record with `fin = 1`. -/
theorem receive_oom_pushes_nothing :
    (strm_of (some lib_streaming_oom) 3).map (fun s => (s.h, s.read_enabled)) = some (9, true) ∧
    stream_parent_closing lib_streaming_oom 7 = false ∧
    (on_stream lib_streaming_oom 9 7 (.RECEIVE 3 [[1, 2, 3]] true)).1.q.head
      = lib_streaming_oom.q.head := by
  decide

/-- A `RECEIVE` callback that carries the FIN flag and no buffer pushes nothing
on a read-enabled stream of a non-closing connection, all allocations
succeeding: the loop `for (i = 0; i < BufferCount; i++)` does not run, and the
end of the stream is not surfaced. -/
theorem receive_fin_without_buffer_pushes_nothing :
    lib_streaming.heap.all_ok ∧
    (strm_of (some lib_streaming) 3).map (fun s => (s.h, s.read_enabled)) = some (9, true) ∧
    stream_parent_closing lib_streaming 7 = false ∧
    on_stream lib_streaming 9 7 (.RECEIVE 0 [] true)
      = (lib_streaming.call (.StreamReceiveComplete 9 0), QUIC_STATUS.QUIC_STATUS_SUCCESS) := by
  decide

/-- The records and the acknowledgement of a `RECEIVE` callback on a read-enabled
stream of a non-closing connection, all allocations succeeding. -/
theorem on_stream_receive_records (L : lib_s) (Stream Context : HQUIC) (total : Nat)
    (bufs : List (List UInt8)) (fin : Bool) (s : strm_t)
    (hs : tbl_find_strm L.tbl (strm_id_from_h L.tbl Stream) = some s) (hh : s.h ≠ 0)
    (hr : s.read_enabled = true) (hp : stream_parent_closing L Context = false)
    (hsid : s.id < SIZE_MOD) (hheap : L.heap.all_ok)
    (hb : ∀ b ∈ bufs, b.length + 28 < U32_MOD) (hn : bufs.length < U32_MOD) :
    (on_stream L Stream Context (.RECEIVE total bufs fin)).1.q.head
      = L.q.head ++ spec_stream_reads s.id fin bufs.length 0 bufs ∧
    (on_stream L Stream Context (.RECEIVE total bufs fin)).1.api
      = L.api ++ [.StreamReceiveComplete Stream total] ∧
    (spec_stream_reads s.id fin bufs.length 0 bufs).length = bufs.length ∧
    (∀ i b, bufs[i]? = some b →
      ∃ r, (spec_stream_reads s.id fin bufs.length 0 bufs)[i]? = some r ∧
        decode_stream_read r = (s.id, fin && i + 1 == bufs.length, b) ∧
        read_le r 20 4 = (if (fin && i + 1 == bufs.length) = true then 1 else 0)) := by
  have hid : s.id = strm_id_from_h L.tbl Stream := find_strm_id hs
  have he := receive_reads_enabled L Stream Context total bufs fin s hs hh hr hp
  rw [← hid] at he
  obtain ⟨l1, _⟩ := on_stream_emit_loop_records s.id fin bufs.length bufs
    (L.call (.StreamReceiveComplete Stream total)) 0 hheap hb (by omega)
  refine ⟨?_, ?_, spec_stream_reads_length _ _ _ _ _, ?_⟩
  · rw [he, Nat.mod_eq_of_lt hn]
    simpa using l1
  · rw [he]
    have : ∀ (bs : List (List UInt8)) (X : lib_s) (i c : Nat),
        (on_stream_emit_loop s.id fin c X i bs).api = X.api := by
      intro bs
      induction bs with
      | nil => intro X i c; rfl
      | cons b bs ih =>
        intro X i c
        simp only [on_stream_emit_loop]
        rw [ih]
        simp [emit_stream_read]
    rw [this]
    rfl
  · intro i b hib
    have hmem : b ∈ bufs := List.getElem?_mem hib
    have hget := spec_stream_reads_get s.id fin bufs.length bufs 0 i
    rw [hib] at hget
    simp only [Option.map_some', Nat.zero_add] at hget
    refine ⟨_, hget, decode_spec_stream_read s.id _ b hsid (hb b hmem), ?_⟩
    exact (spec_stream_read_fields s.id _ b hsid (hb b hmem)).2.2.2.2.2.1


/-- C28 (amended): for every `RECEIVE` callback on a read-enabled stream with a
native handle whose parent connection is not closing, with every allocation
succeeding, every buffer fitting the 32-bit record size (`28 + len` below
2^32) and at least one buffer when the callback carries the FIN flag:
`on_stream` acknowledges the bytes and pushes exactly `BufferCount` stream-read
records in buffer order, the `i`-th being the record of buffer `i` (decoding
it gives the stream id and the bytes of buffer `i`), with `fin = 1` exactly
when the callback carries the FIN flag and the buffer is the last one; so
with the FIN flag the last record pushed has `fin = 1` and no other has, and
without the FIN flag every record has `fin = 0`. -/
theorem receive_pushes_buffer_records (L : lib_s) (Stream Context : HQUIC) (total : Nat)
    (bufs : List (List UInt8)) (fin : Bool) (s : strm_t)
    (hs : tbl_find_strm L.tbl (strm_id_from_h L.tbl Stream) = some s) (hh : s.h ≠ 0)
    (hr : s.read_enabled = true) (hp : stream_parent_closing L Context = false)
    (hsid : s.id < SIZE_MOD) (hheap : L.heap.all_ok)
    (hb : ∀ b ∈ bufs, b.length + 28 < U32_MOD) (hn : bufs.length < U32_MOD)
    (hfin : fin = true → bufs ≠ []) :
    (on_stream L Stream Context (.RECEIVE total bufs fin)).1.q.head
      = L.q.head ++ spec_stream_reads s.id fin bufs.length 0 bufs ∧
    (on_stream L Stream Context (.RECEIVE total bufs fin)).1.api
      = L.api ++ [.StreamReceiveComplete Stream total] ∧
    (spec_stream_reads s.id fin bufs.length 0 bufs).length = bufs.length ∧
    (∀ i b, bufs[i]? = some b →
      ∃ r, (spec_stream_reads s.id fin bufs.length 0 bufs)[i]? = some r ∧
        decode_stream_read r = (s.id, fin && i + 1 == bufs.length, b) ∧
        read_le r 20 4 = (if (fin && i + 1 == bufs.length) = true then 1 else 0)) ∧
    (fin = true →
      ∃ r, (spec_stream_reads s.id fin bufs.length 0 bufs)[bufs.length - 1]? = some r ∧
        read_le r 20 4 = 1) ∧
    (∀ i r, (spec_stream_reads s.id fin bufs.length 0 bufs)[i]? = some r →
      (fin = false ∨ i + 1 < bufs.length) → read_le r 20 4 = 0) := by
  obtain ⟨h1, h2, h3, h4⟩ :=
    on_stream_receive_records L Stream Context total bufs fin s hs hh hr hp hsid hheap hb hn
  refine ⟨h1, h2, h3, h4, ?_, ?_⟩
  · intro hf
    have hpos : 0 < bufs.length := List.length_pos.mpr (hfin hf)
    have hlt : bufs.length - 1 < bufs.length := by omega
    obtain ⟨r, hr1, _, hr3⟩ := h4 (bufs.length - 1) bufs[bufs.length - 1]
      (List.getElem?_eq_getElem hlt)
    refine ⟨r, hr1, ?_⟩
    rw [hr3, hf]
    have : bufs.length - 1 + 1 = bufs.length := by omega
    simp [this]
  · intro i r hir hcase
    have hlt : i < bufs.length := by
      have := (List.getElem?_eq_some_iff.mp hir).1
      rw [h3] at this
      exact this
    obtain ⟨r1, hr1, _, hr3⟩ := h4 i bufs[i] (List.getElem?_eq_getElem hlt)
    rw [hir] at hr1
    cases hr1
    rw [hr3]
    rcases hcase with hf | hi
    · simp [hf]
    · have : ¬ (i + 1 = bufs.length) := by omega
      simp [this]

/-- C28 (witness): two buffers with the FIN flag on stream 3 (handle 9) of
`lib_streaming`: two records, the bytes of each buffer in order, `fin` set on
the second only. -/
theorem receive_pushes_buffer_records_witness :
    (on_stream lib_streaming 9 7 (.RECEIVE 3 [[1, 2], [3]] true)).1.q.head
      = lib_streaming.q.head ++
        [[12, 0, 0, 0, 0, 0, 0, 0, 30, 0, 0, 0, 3, 0, 0, 0, 0, 0, 0, 0, 0, 0, 0, 0, 2, 0, 0, 0,
          1, 2],
         [12, 0, 0, 0, 0, 0, 0, 0, 29, 0, 0, 0, 3, 0, 0, 0, 0, 0, 0, 0, 1, 0, 0, 0, 1, 0, 0, 0,
          3]] :=
  (receive_pushes_buffer_records lib_streaming 9 7 3 [[1, 2], [3]] true
    { id := 3, h := 9, conn_id := 2, read_enabled := true, bidi := true } (by decide)
    (by decide) rfl (by decide) (by decide) (by decide) (by decide) (by decide) (by decide)).1.trans
    (by decide)

/-! ## the pending send list -/

/-- The list walk of `unlink_dgsend_ctx` takes out the first node at the target
address and nothing else. -/
theorem dgsend_unlink_eraseP (l : List dgsend_t) (t : Nat) :
    dgsend_unlink l t = l.eraseP (fun x => x.addr == t) := by
  induction l with
  | nil => rfl
  | cons x xs ih =>
    by_cases hx : x.addr = t
    · simp [dgsend_unlink, hx]
    · simp [dgsend_unlink, hx, ih, List.eraseP_cons]

/-- What unlinking a context that is in the list leaves: the other contexts in
their order, one node fewer. -/
theorem dgsend_unlink_spec (l : List dgsend_t) (t : Nat) (hin : t ∈ l.map dgsend_t.addr) :
    (dgsend_unlink l t).Sublist l ∧ (dgsend_unlink l t).length + 1 = l.length ∧
    (∀ x ∈ l, x.addr ≠ t → x ∈ dgsend_unlink l t) ∧
    ((l.map dgsend_t.addr).Nodup → t ∉ (dgsend_unlink l t).map dgsend_t.addr) := by
  induction l with
  | nil => simp at hin
  | cons x xs ih =>
    by_cases hx : x.addr = t
    · refine ⟨?_, ?_, ?_, ?_⟩
      · simp [dgsend_unlink, hx]
      · simp [dgsend_unlink, hx]
      · intro y hy hne
        simp only [dgsend_unlink, hx, beq_self_eq_true, if_true]
        rcases List.mem_cons.mp hy with h | h
        · subst h
          exact absurd hx hne
        · exact h
      · intro hnd
        simp only [dgsend_unlink, hx, beq_self_eq_true, if_true]
        simp only [List.map_cons, List.nodup_cons, hx] at hnd
        exact hnd.1
    · have hin' : t ∈ xs.map dgsend_t.addr := by
        simp only [List.map_cons, List.mem_cons] at hin
        rcases hin with h | h
        · exact absurd h.symm hx
        · exact h
      obtain ⟨i1, i2, i3, i4⟩ := ih hin'
      have hb : (x.addr == t) = false := beq_false_of_ne hx
      refine ⟨?_, ?_, ?_, ?_⟩
      · simp only [dgsend_unlink, hb]
        exact List.Sublist.cons₂ x i1
      · simp only [dgsend_unlink, hb, List.length_cons]
        simp only [Bool.false_eq_true, if_false, List.length_cons]
        omega
      · intro y hy hne
        simp only [dgsend_unlink, hb, Bool.false_eq_true, if_false]
        rcases List.mem_cons.mp hy with h | h
        · subst h
          exact List.mem_cons_self _ _
        · exact List.mem_cons_of_mem _ (i3 y h hne)
      · intro hnd
        simp only [dgsend_unlink, hb, Bool.false_eq_true, if_false, List.map_cons, List.mem_cons,
          not_or]
        simp only [List.map_cons, List.nodup_cons] at hnd
        exact ⟨fun h => hx h.symm, i4 hnd.2⟩

/-- A `bvc_quic_dgram_send` that returns `BVCQ_OK` found the connection open, called the
engine and linked one new context at the head of its pending list. -/
theorem dgram_send_ok_effect (L0 L1 : lib_s) (cid : Nat) (d : List UInt8) (st : QUIC_STATUS)
    (hsend : bvc_quic_dgram_send (some L0) cid (some d) st = (some L1, BVCQ_OK)) :
    ∃ c a, tbl_find_conn L0.tbl cid = some c ∧ c.closing = false ∧
      tbl_find_conn L1.tbl cid
        = some { c with dgram_head :=
            { addr := a, data := d, len := d.length % U32_MOD } :: c.dgram_head } ∧
      (∀ id, id ≠ cid → tbl_find_conn L1.tbl id = tbl_find_conn L0.tbl id) ∧
      engine_calls (some L1) = L0.api ++ [.DatagramSend c.h (d.take (d.length % U32_MOD)) a] := by
  simp only [bvc_quic_dgram_send] at hsend
  split at hsend
  · simp at hsend
  · split at hsend
    · simp at hsend
    · rename_i c hf
      have hid : c.id = cid := find_conn_id hf
      split at hsend
      · simp at hsend
      · split at hsend
        · simp at hsend
        · rename_i hcl
          split at hsend
          · simp at hsend
          · split at hsend
            · simp at hsend
            · split at hsend
              · rename_i hst
                simp [st_from_quic, QUIC_SUCCEEDED, hst] at hsend
              · simp only [Prod.mk.injEq, Option.some.injEq, and_true] at hsend
                subst hsend
                refine ⟨c, L0.heap.malloc.2.next_addr, hf, by simpa using hcl, ?_, ?_, ?_⟩
                · have h := conns_store_find L0.tbl.conns cid c
                    (link_dgsend_ctx c ⟨L0.heap.malloc.2.next_addr, d, d.length % U32_MOD⟩) hf hid
                  simpa [tbl_find_conn, link_dgsend_ctx, hid] using h
                · intro id hne
                  simp only [tbl_find_conn, store_conn_conns, call_tbl, link_dgsend_ctx, hid]
                  exact (find_conns_store L0.tbl.conns cid id _ rfl).trans (if_neg hne)
                · simp [engine_calls, link_dgsend_ctx]

/-- C27 (counterexample): the context at address 1000 is in the pending list of
the open connection 2 (handle 7); a `DATAGRAM_SEND_STATE_CHANGED` callback reporting
`QUIC_DATAGRAM_SEND_SENT` for it leaves the context in the list and releases
nothing, in a build where every tested state name is a macro. -/
theorem dgram_sent_context_stays :
    (conn_of (some lib_dgram_pending) 2).map (fun c => (c.closing, c.dgram_head.map dgsend_t.addr))
      = some (false, [1000]) ∧
    on_connection build_all lib_dgram_pending 7 (.DATAGRAM_SEND_STATE_CHANGED 1000 .SENT)
      = (lib_dgram_pending, QUIC_STATUS.QUIC_STATUS_SUCCESS) ∧
    released (some lib_dgram_pending) = [] := by
  decide

/-- C27 (amended): when a `DATAGRAM_SEND_STATE_CHANGED` callback reports a state the
build treats as terminal (acknowledged, canceled or lost, each when its
`QUIC_DATAGRAM_SEND_*` name is a macro; not `sent`) for a context that is in
the pending list of the open, non-closing connection the handle resolves to,
exactly that context is unlinked and released: the list keeps the other
contexts in their order, the release trace grows by that context, no other
connection record and no queue record changes.  A `bvc_quic_dgram_send` that returns
`BVCQ_OK` puts exactly one new context, holding the payload bytes, at the head
of that connection's list and changes no other connection record. -/
theorem dgram_terminal_unlinks_context (B : build_cfg) (L : lib_s) (Connection : HQUIC)
    (cc : conn_t) (ctx : Nat) (State : QUIC_DATAGRAM_SEND_STATE)
    (hres : L.tbl.conns.find? (fun c => c.h == Connection) = some cc)
    (hfind : tbl_find_conn L.tbl cc.id = some cc) (hncl : cc.closing = false)
    (hctx : ctx ≠ 0) (hterm : dgram_terminal B State = true)
    (hin : ctx ∈ cc.dgram_head.map dgsend_t.addr) :
    (on_connection B L Connection (.DATAGRAM_SEND_STATE_CHANGED ctx State)
      = ((L.store_conn { cc with dgram_head := dgsend_unlink cc.dgram_head ctx }).free_ctx ctx,
          QUIC_STATUS.QUIC_STATUS_SUCCESS) ∧
     tbl_find_conn (on_connection B L Connection (.DATAGRAM_SEND_STATE_CHANGED ctx State)).1.tbl
        cc.id = some { cc with dgram_head := dgsend_unlink cc.dgram_head ctx } ∧
     (∀ id, id ≠ cc.id →
        tbl_find_conn (on_connection B L Connection (.DATAGRAM_SEND_STATE_CHANGED ctx State)).1.tbl
          id = tbl_find_conn L.tbl id) ∧
     (on_connection B L Connection (.DATAGRAM_SEND_STATE_CHANGED ctx State)).1.heap.freed
        = L.heap.freed ++ [ctx] ∧
     (on_connection B L Connection (.DATAGRAM_SEND_STATE_CHANGED ctx State)).1.q = L.q) ∧
    ((dgsend_unlink cc.dgram_head ctx).Sublist cc.dgram_head ∧
     (dgsend_unlink cc.dgram_head ctx).length + 1 = cc.dgram_head.length ∧
     (∀ x ∈ cc.dgram_head, x.addr ≠ ctx → x ∈ dgsend_unlink cc.dgram_head ctx) ∧
     ((cc.dgram_head.map dgsend_t.addr).Nodup →
        ctx ∉ (dgsend_unlink cc.dgram_head ctx).map dgsend_t.addr)) ∧
    (∀ (L0 L1 : lib_s) (cid : Nat) (d : List UInt8) (st : QUIC_STATUS),
      bvc_quic_dgram_send (some L0) cid (some d) st = (some L1, BVCQ_OK) →
      ∃ c a, tbl_find_conn L0.tbl cid = some c ∧ c.closing = false ∧
        tbl_find_conn L1.tbl cid
          = some { c with dgram_head :=
              { addr := a, data := d, len := d.length % U32_MOD } :: c.dgram_head } ∧
        (∀ id, id ≠ cid → tbl_find_conn L1.tbl id = tbl_find_conn L0.tbl id) ∧
        engine_calls (some L1) = L0.api ++ [.DatagramSend c.h (d.take (d.length % U32_MOD)) a]) := by
  have hev : on_connection B L Connection (.DATAGRAM_SEND_STATE_CHANGED ctx State)
      = ((L.store_conn { cc with dgram_head := dgsend_unlink cc.dgram_head ctx }).free_ctx ctx,
          QUIC_STATUS.QUIC_STATUS_SUCCESS) := by
    simp [on_connection, conn_id_from_h, hres, hfind, hncl, hctx, hterm, unlink_dgsend_ctx]
  refine ⟨⟨hev, ?_, ?_, ?_, ?_⟩, dgsend_unlink_spec cc.dgram_head ctx hin, ?_⟩
  · rw [hev]
    exact conns_store_find _ _ cc _ hfind rfl
  · intro id hne
    rw [hev]
    simp only [tbl_find_conn, free_ctx_tbl, store_conn_conns]
    exact (find_conns_store L.tbl.conns cc.id id
      { cc with dgram_head := dgsend_unlink cc.dgram_head ctx } rfl).trans (if_neg hne)
  · rw [hev]
    rfl
  · rw [hev]
    rfl
  · intro L0 L1 cid d st hsend
    exact dgram_send_ok_effect L0 L1 cid d st hsend

/-- C27 (witness): in a build where `QUIC_DATAGRAM_SEND_ACKNOWLEDGED` is a macro, the
acknowledgement of the context at address 1000 empties the pending list of
connection 2 and releases the context. -/
theorem dgram_terminal_unlinks_context_witness :
    (on_connection build_all lib_dgram_pending 7
        (.DATAGRAM_SEND_STATE_CHANGED 1000 .ACKNOWLEDGED)).1.heap.freed = [1000] ∧
    (conn_of (some (on_connection build_all lib_dgram_pending 7
        (.DATAGRAM_SEND_STATE_CHANGED 1000 .ACKNOWLEDGED)).1) 2).map (fun c => c.dgram_head)
      = some [] :=
  have h := dgram_terminal_unlinks_context build_all lib_dgram_pending 7
    { id := 2, h := 7, read_enabled := true, cert_deferred := false, closing := false,
      closed_emitted := false, dgram_head := [{ addr := 1000, data := [100, 103, 33], len := 3 }] }
    1000 .ACKNOWLEDGED (by decide) (by decide) rfl (by decide) (by decide) (by decide)
  ⟨h.1.2.2.2.1.trans (by decide), by decide⟩

/-! ## the wakeup signal -/

/-- C25 (counterexample): two records are pushed, then a copy-out with room for
the first only: one record stays queued and the wake pipe has been read empty,
so the wakeup signal is clear while the queue is not empty. -/
theorem wake_cleared_with_record_queued :
    (evq_copy_out (evq_push (evq_push evq_empty [1, 2] true) [3] true) [0, 0] 2).2.2 = 2 ∧
    (evq_copy_out (evq_push (evq_push evq_empty [1, 2] true) [3] true) [0, 0] 2).1.head = [[3]] ∧
    (evq_copy_out (evq_push (evq_push evq_empty [1, 2] true) [3] true) [0, 0] 2).1.wake_pending
      = 0 ∧
    ¬ wake_tracks (evq_copy_out (evq_push (evq_push evq_empty [1, 2] true) [3] true) [0, 0] 2).1 := by
  decide

/-- C25 (amended): on a queue with its wake pipe, every `evq_push` whose node is
allocated leaves the wakeup signal set; `evq_copy_out` clears the signal
whenever it copied at least one byte, also when records stay queued, and
leaves it as it was when it copied nothing.  So "a record is queued, hence the
signal is set" is kept by every `evq_push` and by every `evq_copy_out` that
empties the queue or copies nothing, and by no other copy-out. -/
theorem wake_signal_effects (q : evq_s) (hw : q.pipe_w ≠ -1) (hr : q.pipe_r ≠ -1) :
    (∀ rec, wake_set (evq_push q rec true) ∧ (evq_push q rec true).head = q.head ++ [rec]) ∧
    (∀ rec, evq_push q rec false = q) ∧
    (∀ out cap, (0 < (evq_copy_out q out cap).2.2 → ¬ wake_set (evq_copy_out q out cap).1) ∧
      ((evq_copy_out q out cap).2.2 = 0 →
        (evq_copy_out q out cap).1.wake_pending = q.wake_pending)) ∧
    (∀ rec ok, wake_tracks q → wake_tracks (evq_push q rec ok)) ∧
    (∀ out cap, wake_tracks q →
      ((evq_copy_out q out cap).1.head = [] ∨ (evq_copy_out q out cap).2.2 = 0) →
      wake_tracks (evq_copy_out q out cap).1) ∧
    (∀ out cap, 0 < (evq_copy_out q out cap).2.2 → (evq_copy_out q out cap).1.head ≠ [] →
      ¬ wake_tracks (evq_copy_out q out cap).1) := by
  have hpush : ∀ rec, wake_set (evq_push q rec true)
      ∧ (evq_push q rec true).head = q.head ++ [rec] := by
    intro rec
    simp [evq_push, evq_wakeup, hw, wake_set]
  have hclear : ∀ out cap, 0 < (evq_copy_out q out cap).2.2 →
      ¬ wake_set (evq_copy_out q out cap).1 := by
    intro out cap h
    have h' : 0 < (evq_copy_out_loop cap q.head 0 out).2.1 := h
    simp [evq_copy_out, wake_set, h', hr]
  have hsame : ∀ out cap, (evq_copy_out q out cap).2.2 = 0 →
      (evq_copy_out q out cap).1.wake_pending = q.wake_pending := by
    intro out cap h
    have h' : (evq_copy_out_loop cap q.head 0 out).2.1 = 0 := h
    simp [evq_copy_out, h']
  refine ⟨hpush, ?_, fun out cap => ⟨hclear out cap, hsame out cap⟩, ?_, ?_, ?_⟩
  · intro rec
    simp [evq_push]
  · intro rec ok ht
    cases ok
    · simpa [evq_push] using ht
    · intro _
      exact (hpush rec).1
  · intro out cap ht hcase
    rcases hcase with h | h
    · intro hne
      exact absurd h hne
    · intro hne
      have hq : q.head ≠ [] := by
        intro h0
        rw [evq_copy_out_empty q out cap h0] at hne
        exact hne h0
      unfold wake_set
      rw [hsame out cap h]
      exact ht hq
  · intro out cap hused hne ht
    exact hclear out cap hused (ht hne)

/-- C25 (witness): after one push on the empty queue the signal is set; a
second push keeps it set. -/
theorem wake_signal_effects_witness :
    (evq_push evq_empty [1, 2] true).pipe_w ≠ -1 ∧ (evq_push evq_empty [1, 2] true).pipe_r ≠ -1 ∧
    wake_set (evq_push (evq_push evq_empty [1, 2] true) [3] true) ∧
    (evq_push (evq_push evq_empty [1, 2] true) [3] true).head = [[1, 2], [3]] :=
  ⟨by decide, by decide,
    ((wake_signal_effects (evq_push evq_empty [1, 2] true) (by decide) (by decide)).1 [3]).1,
    by decide⟩

/-! ## the lifecycle invariant of a closing connection -/

theorem closed_ok_of_conns {t t1 : tbl_s} (h : t1.conns = t.conns) (ht : closed_ok t) :
    closed_ok t1 := by
  intro c hc
  rw [h] at hc
  exact ht c hc

theorem closed_ok_store (t t1 : tbl_s) (id : Nat) (c1 : conn_t)
    (h : t1.conns = conns_store t.conns id c1) (hc1 : c1.closing = true → c1.h = 0 ∧ c1.closed_emitted = true ∧ c1.dgram_head = [])
    (ht : closed_ok t) : closed_ok t1 := by
  intro c hc
  rw [h] at hc
  rcases mem_conns_store hc with rfl | hmem
  · exact hc1
  · exact ht c hmem

theorem closed_ok_append {t t1 : tbl_s} {c : conn_t} (h : t1.conns = t.conns ++ [c])
    (hc : c.closing = false) (ht : closed_ok t) : closed_ok t1 := by
  intro x hx
  rw [h] at hx
  rcases List.mem_append.mp hx with hx | hx
  · exact ht x hx
  · simp only [List.mem_singleton] at hx
    subst hx
    intro h0
    rw [hc] at h0
    cases h0

theorem closed_ok_found {t : tbl_s} {id : Nat} {cc : conn_t} (ht : closed_ok t)
    (h : tbl_find_conn t id = some cc) : cc.closing = true → cc.h = 0 ∧ cc.closed_emitted = true ∧ cc.dgram_head = [] :=
  ht cc (List.mem_of_find?_eq_some h)

theorem on_connection_closed_ok (B : build_cfg) (L : lib_s) (h : HQUIC)
    (e : QUIC_CONNECTION_EVENT) (ht : closed_ok L.tbl) :
    closed_ok (on_connection B L h e).1.tbl := by
  unfold on_connection
  cases e with
  | CONNECTED peer =>
    dsimp only
    split
    · exact ht
    · exact closed_ok_of_conns (by simp) ht
  | PEER_CERTIFICATE_RECEIVED =>
    dsimp only
    split
    · exact ht
    · split
      · rename_i cc hcc
        have hcc0 : cc.closing = true → cc.h = 0 ∧ cc.closed_emitted = true ∧ cc.dgram_head = [] := closed_ok_found ht hcc
        exact closed_ok_store _ _ cc.id { cc with cert_deferred := true } (by simp) hcc0 ht
      · exact closed_ok_of_conns (by simp) ht
  | PEER_STREAM_STARTED s uni =>
    dsimp only
    split
    · exact ht
    · exact closed_ok_of_conns (by simp [tbl_add_strm, tbl_newid]) ht
  | DATAGRAM_RECEIVED buf =>
    dsimp only
    split
    · exact ht
    · split
      · exact closed_ok_of_conns (by simp) ht
      · exact ht
  | DATAGRAM_SEND_STATE_CHANGED ctx st =>
    dsimp only
    split
    · rename_i cc hcc
      have hst : closed_ok ((L.store_conn (unlink_dgsend_ctx cc ctx)).free_ctx ctx).tbl := by
        have hh : (unlink_dgsend_ctx cc ctx).h = cc.h := by
          unfold unlink_dgsend_ctx
          split <;> rfl
        have hclo : (unlink_dgsend_ctx cc ctx).closing = cc.closing := by
          unfold unlink_dgsend_ctx
          split <;> rfl
        have hid : (unlink_dgsend_ctx cc ctx).id = cc.id := by
          unfold unlink_dgsend_ctx
          split <;> rfl
        refine closed_ok_store _ _ cc.id (unlink_dgsend_ctx cc ctx) (by simp [hid]) ?_ ht
        intro hcl
        rw [hclo] at hcl
        obtain ⟨h1, h2, h3⟩ := closed_ok_found ht hcc hcl
        refine ⟨by rw [hh]; exact h1, ?_, ?_⟩
        · unfold unlink_dgsend_ctx
          split <;> exact h2
        · unfold unlink_dgsend_ctx
          split
          · exact h3
          · show dgsend_unlink cc.dgram_head ctx = []
            rw [h3]
            rfl
      split
      · split
        · exact hst
        · exact ht
      · split
        · exact hst
        · exact ht
    · split
      · exact closed_ok_of_conns (by simp) ht
      · exact ht
  | SHUTDOWN_COMPLETE =>
    dsimp only
    split
    · rename_i cc hcc
      split
      · exact ht
      · have hcc0 : cc.closing = true → cc.h = 0 ∧ cc.closed_emitted = true ∧ cc.dgram_head = [] := closed_ok_found ht hcc
        exact closed_ok_store _ _ cc.id { cc with closed_emitted := true } (by simp)
          (fun hcl => ⟨(hcc0 hcl).1, rfl, (hcc0 hcl).2.2⟩) ht
    · exact closed_ok_of_conns (by simp) ht
  | OTHER => exact ht

theorem on_stream_closed_ok (L : lib_s) (s ctx : HQUIC) (e : QUIC_STREAM_EVENT)
    (ht : closed_ok L.tbl) : closed_ok (on_stream L s ctx e).1.tbl := by
  refine closed_ok_of_conns ?_ ht
  unfold on_stream
  cases e with
  | RECEIVE total bufs fin =>
    dsimp only
    repeat' split
    all_goals simp [on_stream_emit_loop_tbl]
  | SEND_COMPLETE =>
    dsimp only
    repeat' split
    all_goals simp
  | OTHER => rfl

theorem conn_close_closed_ok (L L1 : lib_s) (id code : Nat) (ht : closed_ok L.tbl)
    (h : bvc_quic_conn_close (some L) id code = some L1) : closed_ok L1.tbl := by
  rcases conn_close_effect L id code with ⟨_, hret⟩ | ⟨_, cc, L2, _, _, _, hret, _, hconns, _, _, _⟩
  · rw [hret] at h
    cases h
    exact ht
  · rw [hret] at h
    cases h
    exact closed_ok_store _ _ id
      { cc with closing := true, closed_emitted := true, dgram_head := [], h := 0 } hconns
      (fun _ => ⟨rfl, rfl, rfl⟩) ht

theorem cert_complete_closed_ok (L : lib_s) (c : Nat) (accept : Bool) (alert : Nat)
    (st : QUIC_STATUS) (ht : closed_ok L.tbl) :
    ∃ L1, (bvc_quic_conn_cert_complete (some L) c accept alert st).1 = some L1
      ∧ closed_ok L1.tbl := by
  unfold bvc_quic_conn_cert_complete
  dsimp only
  split
  · exact ⟨L, rfl, ht⟩
  · rename_i cc hcc
    split
    · exact ⟨L, rfl, ht⟩
    · split
      · exact ⟨L, rfl, ht⟩
      · refine ⟨_, rfl, ?_⟩
        split
        · have hcc0 : cc.closing = true → cc.h = 0 ∧ cc.closed_emitted = true ∧ cc.dgram_head = [] := closed_ok_found ht hcc
          exact closed_ok_store _ _ cc.id { cc with cert_deferred := false } (by simp) hcc0 ht
        · exact closed_ok_of_conns (by simp) ht

theorem connect_closed_ok (B : build_cfg) (L : lib_s) (cfg_id : Nat) (ip out_conn : Bool)
    (port : Nat) (st_open : QUIC_STATUS) (conn : HQUIC) (st_start : QUIC_STATUS)
    (ht : closed_ok L.tbl) :
    ∃ L1, (bvc_quic_connect B (some L) cfg_id ip out_conn port st_open conn st_start).1 = some L1
      ∧ closed_ok L1.tbl := by
  unfold bvc_quic_connect
  dsimp only
  split
  · exact ⟨L, rfl, ht⟩
  · split
    · exact ⟨L, rfl, ht⟩
    · split
      · exact ⟨L, rfl, ht⟩
      · split
        · exact ⟨_, rfl, closed_ok_of_conns rfl ht⟩
        · rename_i hopen
          split
          · refine ⟨_, rfl, closed_ok_of_conns ?_ ht⟩
            simp [enable_datagrams_tbl]
          · refine ⟨_, rfl, @closed_ok_append L.tbl _ (tbl_add_conn L.tbl conn).1 ?_ rfl ht⟩
            simp [tbl_add_conn, tbl_newid, enable_datagrams_tbl]

theorem listener_new_connection_closed_ok (B : build_cfg) (L : lib_s) (lst conn : HQUIC)
    (st_cfg : QUIC_STATUS) (peer : bvcq_addr) (ht : closed_ok L.tbl) :
    ∃ L1, (on_listener_new_connection B (some L) lst conn st_cfg peer).1 = some L1
      ∧ closed_ok L1.tbl := by
  unfold on_listener_new_connection
  dsimp only
  split
  · exact ⟨_, rfl, closed_ok_of_conns rfl ht⟩
  · split
    · exact ⟨_, rfl, closed_ok_of_conns rfl ht⟩
    · split
      · exact ⟨_, rfl, closed_ok_of_conns rfl ht⟩
      · split
        · exact ⟨_, rfl, closed_ok_of_conns rfl ht⟩
        · refine ⟨_, rfl, @closed_ok_append L.tbl _ (tbl_add_conn L.tbl conn).1 ?_ rfl ht⟩
          simp [tbl_add_conn, tbl_newid, enable_datagrams_tbl]

theorem stream_open_closed_ok (L : lib_s) (cid : Nat) (bidi out_sid : Bool)
    (st_open : QUIC_STATUS) (s : HQUIC) (st_start : QUIC_STATUS) (ht : closed_ok L.tbl) :
    ∃ L1, (bvc_quic_stream_open (some L) cid bidi out_sid st_open s st_start).1 = some L1
      ∧ closed_ok L1.tbl := by
  unfold bvc_quic_stream_open
  dsimp only
  split
  · exact ⟨L, rfl, ht⟩
  · split
    · exact ⟨L, rfl, ht⟩
    · split
      · exact ⟨L, rfl, ht⟩
      · split
        · exact ⟨L, rfl, ht⟩
        · split
          · exact ⟨_, rfl, closed_ok_of_conns rfl ht⟩
          · split
            · exact ⟨_, rfl, closed_ok_of_conns rfl ht⟩
            · refine ⟨_, rfl, closed_ok_of_conns ?_ ht⟩
              simp [tbl_add_strm, tbl_newid]

theorem stream_send_closed_ok (L : lib_s) (sid : Nat) (data : Option (List UInt8))
    (fin : Bool) (flags : Nat) (st : QUIC_STATUS) (ht : closed_ok L.tbl) :
    ∃ L1, (bvc_quic_stream_send (some L) sid data fin flags st).1 = some L1
      ∧ closed_ok L1.tbl := by
  cases data with
  | none => exact ⟨L, rfl, ht⟩
  | some d =>
    simp only [bvc_quic_stream_send]
    split
    · exact ⟨L, rfl, ht⟩
    · split
      · exact ⟨L, rfl, ht⟩
      · split
        · exact ⟨L, rfl, ht⟩
        · split
          · exact ⟨L, rfl, ht⟩
          · exact ⟨_, rfl, closed_ok_of_conns rfl ht⟩

theorem stream_shutdown_closed_ok (L : lib_s) (sid : Nat) (ht : closed_ok L.tbl) :
    ∃ L1, bvc_quic_stream_shutdown (some L) sid = some L1 ∧ closed_ok L1.tbl := by
  unfold bvc_quic_stream_shutdown
  dsimp only
  split
  · exact ⟨L, rfl, ht⟩
  · split
    · exact ⟨L, rfl, ht⟩
    · exact ⟨_, rfl, closed_ok_of_conns rfl ht⟩

theorem set_read_enabled_closed_ok (L : lib_s) (sid : Nat) (en : Bool) (st : QUIC_STATUS)
    (ht : closed_ok L.tbl) :
    ∃ L1, (bvc_quic_stream_set_read_enabled (some L) sid en st).1 = some L1
      ∧ closed_ok L1.tbl := by
  unfold bvc_quic_stream_set_read_enabled
  dsimp only
  split
  · exact ⟨L, rfl, ht⟩
  · split
    · exact ⟨L, rfl, ht⟩
    · split
      · exact ⟨L, rfl, ht⟩
      · exact ⟨_, rfl, closed_ok_of_conns rfl ht⟩

theorem drain_events_closed_ok (L : lib_s) (out_buf : Option (List UInt8)) (n : Nat)
    (out_used : Option Nat) (ht : closed_ok L.tbl) :
    ∃ L1, (bvc_quic_drain_events (some L) out_buf n out_used).1 = some L1
      ∧ closed_ok L1.tbl := by
  cases out_buf with
  | none => exact ⟨L, rfl, ht⟩
  | some buf =>
    cases out_used with
    | none => exact ⟨L, rfl, ht⟩
    | some u =>
      simp only [bvc_quic_drain_events]
      split
      · exact ⟨L, rfl, ht⟩
      · split
        · exact ⟨_, rfl, closed_ok_of_conns rfl ht⟩
        · exact ⟨_, rfl, closed_ok_of_conns rfl ht⟩

theorem dgram_send_closed_ok (L : lib_s) (cid : Nat) (data : Option (List UInt8))
    (st : QUIC_STATUS) (ht : closed_ok L.tbl) :
    ∃ L1, (bvc_quic_dgram_send (some L) cid data st).1 = some L1 ∧ closed_ok L1.tbl := by
  cases data with
  | none => exact ⟨L, rfl, ht⟩
  | some d =>
    simp only [bvc_quic_dgram_send]
    split
    · exact ⟨L, rfl, ht⟩
    · split
      · exact ⟨L, rfl, ht⟩
      · rename_i cc hcc
        split
        · exact ⟨L, rfl, ht⟩
        · split
          · exact ⟨L, rfl, ht⟩
          · rename_i hncl
            split
            · exact ⟨_, rfl, closed_ok_of_conns rfl ht⟩
            · split
              · exact ⟨_, rfl, closed_ok_of_conns rfl ht⟩
              · split
                · exact ⟨_, rfl, closed_ok_of_conns rfl ht⟩
                · refine ⟨_, rfl, ?_⟩
                  exact closed_ok_store _ _ cc.id (link_dgsend_ctx cc _) rfl
                    (fun hcl => absurd (show cc.closing = true from hcl) hncl) ht

/-- The invariant `closed_ok` is kept by every step. -/
theorem step_closed_ok (B : build_cfg) (L : lib_s) (op : Op)
    (ht : closed_ok L.tbl) : ∃ L1, step B (some L) op = some L1 ∧ closed_ok L1.tbl := by
  cases op with
  | connect cfg_id ip out_conn port st_open conn st_start =>
    exact connect_closed_ok B L cfg_id ip out_conn port st_open conn st_start ht
  | conn_close c_id code =>
    obtain ⟨L1, h1, _⟩ := conn_close_closing_kept L c_id code
    exact ⟨L1, h1, conn_close_closed_ok L L1 c_id code ht h1⟩
  | cert_complete c accept alert st => exact cert_complete_closed_ok L c accept alert st ht
  | stream_open cid bidi out_sid st_open s st_start =>
    exact stream_open_closed_ok L cid bidi out_sid st_open s st_start ht
  | stream_send sid data fin flags st => exact stream_send_closed_ok L sid data fin flags st ht
  | stream_shutdown sid => exact stream_shutdown_closed_ok L sid ht
  | stream_set_read_enabled sid en st => exact set_read_enabled_closed_ok L sid en st ht
  | dgram_send cid data st => exact dgram_send_closed_ok L cid data st ht
  | drain_events out_buf n out_used => exact drain_events_closed_ok L out_buf n out_used ht
  | conn_event hc e => exact ⟨_, rfl, on_connection_closed_ok B L hc e ht⟩
  | stream_event hs ctx e => exact ⟨_, rfl, on_stream_closed_ok L hs ctx e ht⟩
  | listener_new_connection lst conn st_cfg peer =>
    exact listener_new_connection_closed_ok B L lst conn st_cfg peer ht

/-- From a library whose registry satisfies `closed_ok` (in particular one
just initialised by `tbl_init`), every run of API calls and callbacks, each
executed as a whole, reaches a library whose registry satisfies it. -/
theorem run_closed_ok (B : build_cfg) (ops : List Op) :
    ∀ (L : lib_s), closed_ok L.tbl →
      ∃ L1, run B (some L) ops = some L1 ∧ closed_ok L1.tbl := by
  induction ops with
  | nil => intro L ht; exact ⟨L, rfl, ht⟩
  | cons op ops ih =>
    intro L ht
    obtain ⟨L1, h1, ht1⟩ := step_closed_ok B L op ht
    obtain ⟨L2, h2, ht2⟩ := ih L1 ht1
    refine ⟨L2, ?_, ht2⟩
    simp only [run, List.foldl_cons, h1]
    exact h2

theorem tbl_init_closed_ok : closed_ok tbl_init := by
  intro c hc
  simp [tbl_init] at hc

theorem listener_start_conns (L L1 : lib_s) (cfg_id : Nat) (bind_ip : Option (List UInt8))
    (bind_port : Nat) (out_listener : Bool) (st_open : QUIC_STATUS) (lst : HQUIC)
    (st_start : QUIC_STATUS)
    (h : (bvc_quic_listener_start (some L) cfg_id bind_ip bind_port out_listener st_open lst
      st_start).1 = some L1) : L1.tbl.conns = L.tbl.conns := by
  cases bind_ip with
  | none =>
    simp only [bvc_quic_listener_start] at h
    cases h
    rfl
  | some ip =>
    simp only [bvc_quic_listener_start] at h
    repeat' split at h
    all_goals
      cases h
      rfl

theorem listener_stop_conns (L L1 : lib_s) (lst_id : Nat)
    (h : bvc_quic_listener_stop (some L) lst_id = some L1) : L1.tbl.conns = L.tbl.conns := by
  simp only [bvc_quic_listener_stop] at h
  repeat' split at h
  all_goals
    cases h
    rfl

/-- C26: from a library whose registry holds no connection record, as `tbl_init`
leaves it, every run of public API calls and engine callbacks, each executed
as a whole, reaches a library in which every connection record with `closing`
set has a null native handle, `closed_emitted` set and an empty list of
pending sends; a connection that is closing there is still closing after
every further run, so no operation clears the flag; the record that
`tbl_add_conn` appends has the handle it was given, `closing = 0`,
`closed_emitted = 0`, `cert_deferred = 0`, `read_enabled = 1` and an empty
pending list; the two listener calls, which are not steps of `run`, leave
the connection records as they are. -/
theorem closing_lifecycle_invariant (B : build_cfg) (L0 L : lib_s) (ops : List Op)
    (h0 : L0.tbl.conns = tbl_init.conns) (hrun : run B (some L0) ops = some L) :
    (∀ c ∈ L.tbl.conns,
      c.closing = true → c.h = 0 ∧ c.closed_emitted = true ∧ c.dgram_head = []) ∧
    (∀ (id : Nat) (more : List Op),
      closing_at (some L) id → closing_at (run B (some L) more) id) ∧
    (∀ h : HQUIC,
      (tbl_add_conn L.tbl h).2.conns = L.tbl.conns ++ [(tbl_add_conn L.tbl h).1] ∧
      (tbl_add_conn L.tbl h).1.h = h ∧
      (tbl_add_conn L.tbl h).1.closing = false ∧
      (tbl_add_conn L.tbl h).1.closed_emitted = false ∧
      (tbl_add_conn L.tbl h).1.cert_deferred = false ∧
      (tbl_add_conn L.tbl h).1.read_enabled = true ∧
      (tbl_add_conn L.tbl h).1.dgram_head = []) ∧
    (∀ (cfg_id : Nat) (bind_ip : Option (List UInt8)) (bind_port : Nat) (out_listener : Bool)
        (st_open : QUIC_STATUS) (lst : HQUIC) (st_start : QUIC_STATUS) (L1 : lib_s),
      (bvc_quic_listener_start (some L) cfg_id bind_ip bind_port out_listener st_open lst
        st_start).1 = some L1 → L1.tbl.conns = L.tbl.conns) ∧
    (∀ (lst_id : Nat) (L1 : lib_s),
      bvc_quic_listener_stop (some L) lst_id = some L1 → L1.tbl.conns = L.tbl.conns) := by
  have hinit : closed_ok L0.tbl := by
    intro c hc
    rw [h0] at hc
    simp [tbl_init] at hc
  obtain ⟨L', hL', hok⟩ := run_closed_ok B ops L0 hinit
  rw [hrun] at hL'
  cases hL'
  refine ⟨hok, ?_, ?_, ?_, ?_⟩
  · intro id more hcl
    exact run_closing_at B more (some L) id hcl
  · intro h
    exact ⟨rfl, rfl, rfl, rfl, rfl, rfl, rfl⟩
  · intro cfg_id bind_ip bind_port out_listener st_open lst st_start L1 h
    exact listener_start_conns L L1 cfg_id bind_ip bind_port out_listener st_open lst st_start h
  · intro lst_id L1 h
    exact listener_stop_conns L L1 lst_id h

/-- C26 (witness): `lib_ready` has no connection record; after a connect, a
datagram send that stays pending and `bvc_quic_conn_close`, the one connection
record is closing with a null handle, `closed_emitted` set and no pending
send, and it is still closing after a further connect and a callback. -/
theorem closing_lifecycle_invariant_witness :
    lib_ready.tbl.conns = tbl_init.conns ∧
    run build_all (some lib_ready) sample_dgram_then_close = some lib_dgram_closed ∧
    lib_dgram_closed.tbl.conns
      = [{ id := 2, h := 0, read_enabled := true, cert_deferred := false, closing := true,
           closed_emitted := true, dgram_head := [] }] ∧
    (∀ c ∈ lib_dgram_closed.tbl.conns,
      c.closing = true → c.h = 0 ∧ c.closed_emitted = true ∧ c.dgram_head = []) ∧
    closing_at (run build_all (some lib_dgram_closed)
      [sample_connect, .conn_event 7 .SHUTDOWN_COMPLETE]) 2 :=
  have h := closing_lifecycle_invariant build_all lib_ready lib_dgram_closed
    sample_dgram_then_close (by decide) (by decide)
  ⟨by decide, by decide, by decide, h.1,
    h.2.1 2 [sample_connect, .conn_event 7 .SHUTDOWN_COMPLETE]
      ⟨_, rfl, { id := 2, h := 0, read_enabled := true, cert_deferred := false, closing := true,
                 closed_emitted := true, dgram_head := [] }, by decide, rfl⟩⟩

/-! ## stream_open on its failure paths -/

/-- What `bvc_quic_stream_open` leaves behind when it does not return `BVCQ_OK`:
nothing is written to `*out_sid` and the queue is as before; the registry is
as before on every path but the failure of `StreamStart`, where the record
added before the call stays in the table. -/
theorem stream_open_failure_effect (L L1 : lib_s) (cid : Nat) (bidi out_sid : Bool)
    (st_open : QUIC_STATUS) (s : HQUIC) (st_start : QUIC_STATUS) (o : Option Nat)
    (st : bvc_quic_status)
    (h : bvc_quic_stream_open (some L) cid bidi out_sid st_open s st_start = (some L1, o, st))
    (hst : st ≠ BVCQ_OK) :
    o = none ∧ L1.q = L.q ∧
    (L1.tbl = L.tbl ∨
      (QUIC_FAILED st_open = false ∧ QUIC_FAILED st_start = true ∧ st = BVCQ_ERR_SYS ∧
        ∃ c, tbl_find_conn L.tbl cid = some c ∧ L1.tbl = (tbl_add_strm L.tbl s c.id bidi).2)) := by
  simp only [bvc_quic_stream_open] at h
  split at h
  · cases h
    exact ⟨rfl, rfl, Or.inl rfl⟩
  · split at h
    · cases h
      exact ⟨rfl, rfl, Or.inl rfl⟩
    · rename_i c hc
      split at h
      · cases h
        exact ⟨rfl, rfl, Or.inl rfl⟩
      · split at h
        · cases h
          exact ⟨rfl, rfl, Or.inl rfl⟩
        · split at h
          · cases h
            exact ⟨rfl, rfl, Or.inl rfl⟩
          · rename_i hopen
            split at h
            · rename_i hstart
              cases h
              refine ⟨rfl, rfl, Or.inr ⟨?_, hstart, rfl, c, hc, rfl⟩⟩
              simpa using hopen
            · cases h
              exact absurd rfl hst

/-- C29: on `lib_connected_s` (connection 2 with handle 7, no stream, next id 3,
empty queue) `bvc_quic_stream_open` whose `StreamOpen` succeeds with handle 9
and whose `StreamStart` fails returns `BVCQ_ERR_SYS` and writes nothing to
`*out_sid`, but the registry is not as before: the stream record with id 3
and the handle 9 that the call has just closed stays in the table, and the
shared counter has moved on to 4.  The queue is unchanged.  A later
`bvc_quic_stream_send` with id 3 finds that record and calls `StreamSend` on the closed
handle. -/
theorem stream_open_start_failure_keeps_record :
    lib_connected_s.tbl.strms = [] ∧ lib_connected_s.tbl.next_id = 3 ∧
    (bvc_quic_stream_open (some lib_connected_s) 2 true true QUIC_STATUS.QUIC_STATUS_SUCCESS 9
        (.failure 1)).2 = (none, BVCQ_ERR_SYS) ∧
    ((bvc_quic_stream_open (some lib_connected_s) 2 true true QUIC_STATUS.QUIC_STATUS_SUCCESS 9
        (.failure 1)).1.map (fun X => (X.tbl.strms, X.tbl.next_id, X.q.head)))
      = some ([{ id := 3, h := 9, conn_id := 2, read_enabled := true, bidi := true }], 4,
          lib_connected_s.q.head) ∧
    ((bvc_quic_stream_open (some lib_connected_s) 2 true true QUIC_STATUS.QUIC_STATUS_SUCCESS 9
        (.failure 1)).1.map (fun X => X.api.drop lib_connected_s.api.length))
      = some [.StreamOpen 7 true, .StreamStart 9, .StreamClose 9] ∧
    (bvc_quic_stream_send
        (bvc_quic_stream_open (some lib_connected_s) 2 true true QUIC_STATUS.QUIC_STATUS_SUCCESS 9
          (.failure 1)).1
        3 (some [1]) false 0 QUIC_STATUS.QUIC_STATUS_SUCCESS).2 = BVCQ_OK ∧
    ((bvc_quic_stream_send
        (bvc_quic_stream_open (some lib_connected_s) 2 true true QUIC_STATUS.QUIC_STATUS_SUCCESS 9
          (.failure 1)).1
        3 (some [1]) false 0 QUIC_STATUS.QUIC_STATUS_SUCCESS).1.map (fun X => X.api.getLast?))
      = some (some (.StreamSend 9 [1] false)) := by
  decide

/-! ## the record size at the largest payload length -/

/-- C30: for `len = 2^32 - 1` the size `12 + 8 + 4 + 4 + len` that `emit_stream_read`
computes in a `uint32_t` wraps to 27 and the size `12 + 8 + 4 + len` of
`emit_dgram_read` wraps to 23: the record pushed has 27 (resp. 23) bytes and
carries 27 (resp. 23) in its size field, not `28 + len` (resp. `24 + len`); it
ends inside its own length field and has room for none of the `len` payload
bytes. -/
theorem record_size_wraps_at_max_len (sid cid : Nat) (fin : Bool) (buf : List UInt8) :
    (emit_stream_read lib_ready sid fin buf 4294967295).q.head
      = [ev_hdr BVCQ_EV_STREAM_READ 27 ++ le_bytes 8 sid ++ le_bytes 4 (if fin then 1 else 0)
          ++ [255, 255, 255]] ∧
    (emit_dgram_read lib_ready cid buf 4294967295).q.head
      = [ev_hdr BVCQ_EV_DGRAM_READ 23 ++ le_bytes 8 cid ++ [255, 255, 255]] ∧
    (∀ r ∈ (emit_stream_read lib_ready sid fin buf 4294967295).q.head,
      r.length = 27 ∧ hdr_size r 0 = 27 ∧ hdr_size r 0 < 28 + 4294967295) ∧
    (∀ r ∈ (emit_dgram_read lib_ready cid buf 4294967295).q.head,
      r.length = 23 ∧ hdr_size r 0 = 23 ∧ hdr_size r 0 < 24 + 4294967295) := by
  have hsz (type size : Nat) (rest : List UInt8) (hs : size < 256) :
      hdr_size (ev_hdr type size ++ rest) 0 = size := by
    unfold hdr_size ev_hdr
    rw [List.append_assoc]
    rw [read_le_field (le_bytes 4 type ++ le_bytes 4 0) (le_bytes 4 size) rest (0 + 8) 4
      (by simp [le_bytes_length]) (le_bytes_length _ _), le_decode_le_bytes]
    exact Nat.mod_eq_of_lt (by omega)
  have h1 : (emit_stream_read lib_ready sid fin buf 4294967295).q.head
      = [ev_hdr BVCQ_EV_STREAM_READ 27 ++ le_bytes 8 sid ++ le_bytes 4 (if fin then 1 else 0)
          ++ [255, 255, 255]] := by
    unfold emit_stream_read
    dsimp only
    rw [show (SIZEOF_HDR + 8 + 4 + 4 + 4294967295) % U32_MOD = 27 from by decide, emit_bytes_q,
      List.take_append_of_le_length (by simp [ev_hdr_length, le_bytes_length])]
    rw [show emit_allocs_ok (some lib_ready) = true from by decide, if_pos rfl]
    rfl
  have h2 : (emit_dgram_read lib_ready cid buf 4294967295).q.head
      = [ev_hdr BVCQ_EV_DGRAM_READ 23 ++ le_bytes 8 cid ++ [255, 255, 255]] := by
    unfold emit_dgram_read
    dsimp only
    rw [show (SIZEOF_HDR + 8 + 4 + 4294967295) % U32_MOD = 23 from by decide, emit_bytes_q,
      List.take_append_of_le_length (by simp [ev_hdr_length, le_bytes_length])]
    rw [show emit_allocs_ok (some lib_ready) = true from by decide, if_pos rfl]
    rfl
  refine ⟨h1, h2, ?_, ?_⟩
  · intro r hr
    rw [h1] at hr
    simp only [List.mem_singleton] at hr
    subst hr
    have hl : (ev_hdr BVCQ_EV_STREAM_READ 27 ++ le_bytes 8 sid
        ++ le_bytes 4 (if fin then 1 else 0) ++ [255, 255, 255]).length = 27 := by
      simp [ev_hdr_length, le_bytes_length]
    have hz := hsz BVCQ_EV_STREAM_READ 27
      (le_bytes 8 sid ++ le_bytes 4 (if fin then 1 else 0) ++ [255, 255, 255]) (by omega)
    simp only [List.append_assoc] at hz hl ⊢
    exact ⟨hl, hz, by rw [hz]; omega⟩
  · intro r hr
    rw [h2] at hr
    simp only [List.mem_singleton] at hr
    subst hr
    have hl : (ev_hdr BVCQ_EV_DGRAM_READ 23 ++ le_bytes 8 cid ++ [255, 255, 255]).length = 23 := by
      simp [ev_hdr_length, le_bytes_length]
    have hz := hsz BVCQ_EV_DGRAM_READ 23 (le_bytes 8 cid ++ [255, 255, 255]) (by omega)
    simp only [List.append_assoc] at hz hl ⊢
    exact ⟨hl, hz, by rw [hz]; omega⟩

end BVCQ
